import Mathlib

/-!
# KV command facade of libcouchbase: store, get and replica-get

A shallow embedding of `src/operations/store.cc` and `src/operations/get.cc`, of the
analytics request of `src/analytics/analytics.cc` and of the read callback of
`src/tools/cbc-proxy.cc`.

Conventions of the embedding.

* A byte string (key, value, scope name) is a `List Nat` of byte values; a `void *`
  cookie is a `Nat`.
* A submission call returns an `Outcome`: the status the C function returns together
  with the trace of the effects it had on the packet allocator, the scheduler and the
  user callbacks, in program order.
* Header fields of a packet are kept as the numbers they encode (`htonl`/`htons` of the
  source only fix their byte order on the wire, so the embedding keeps the value reduced
  to the width of the field); the bytes that `memcpy` copies after the 24-byte header
  are kept as bytes.
* Code that the translated files call but do not contain (the packet allocator, the
  collection cache, the durability validator, the clock, flag constants of the public
  header) is gathered in the record `Env` and passed as a parameter; the durability
  poll, the JSON library with the row parser and the HTTP layer, and the library calls
  of the proxy are the records `EndureEnv`, `AnalyticsEnv` and `ProxyEnv`.
-/

namespace Lcb

/-! ## Status codes and protocol constants -/

/-- The status codes that the translated functions return or compare against. -/
inductive lcb_STATUS where
  | LCB_SUCCESS
  | LCB_ERR_GENERIC
  | LCB_ERR_INVALID_ARGUMENT
  | LCB_ERR_EMPTY_KEY
  | LCB_ERR_OPTIONS_CONFLICT
  | LCB_ERR_UNSUPPORTED_OPERATION
  | LCB_ERR_SDK_FEATURE_UNAVAILABLE
  | LCB_ERR_NO_MEMORY
  | LCB_ERR_NO_CONFIGURATION
  | LCB_ERR_NO_MATCHING_SERVER
  | LCB_ERR_TIMEOUT
  | LCB_ERR_SHEDULE_FAILURE
  | LCB_ERR_REQUEST_CANCELED
  | LCB_ERR_DURABILITY_TOO_MANY
  | LCB_ERR_CAS_MISMATCH
  deriving DecidableEq, Repr, Inhabited

open lcb_STATUS

/-- Modelled from the spec: the request magic is declared in the protocol header, which is
not among the translated sources; the spec gives `REQ=0x80`. -/
def PROTOCOL_BINARY_REQ : Nat := 0x80

/-- Modelled from the spec: the alt-request magic (declaration missing), `AREQ=0x08`. -/
def PROTOCOL_BINARY_AREQ : Nat := 0x08

/-- Modelled from the spec: opcode `GET 0x00` (declaration missing). -/
def PROTOCOL_BINARY_CMD_GET : Nat := 0x00
/-- Modelled from the spec: opcode `SET 0x01` (declaration missing). -/
def PROTOCOL_BINARY_CMD_SET : Nat := 0x01
/-- Modelled from the spec: opcode `ADD 0x02` (declaration missing). -/
def PROTOCOL_BINARY_CMD_ADD : Nat := 0x02
/-- Modelled from the spec: opcode `REPLACE 0x03` (declaration missing). -/
def PROTOCOL_BINARY_CMD_REPLACE : Nat := 0x03
/-- Modelled from the spec: opcode `APPEND 0x0e` (declaration missing). -/
def PROTOCOL_BINARY_CMD_APPEND : Nat := 0x0e
/-- Modelled from the spec: opcode `PREPEND 0x0f` (declaration missing). -/
def PROTOCOL_BINARY_CMD_PREPEND : Nat := 0x0f
/-- Modelled from the spec: opcode `GAT 0x1d` (declaration missing). -/
def PROTOCOL_BINARY_CMD_GAT : Nat := 0x1d
/-- Modelled from the spec: opcode `GET_LOCKED 0x94` (declaration missing). -/
def PROTOCOL_BINARY_CMD_GET_LOCKED : Nat := 0x94
/-- Modelled from the spec: opcode `GET_REPLICA 0x83` (declaration missing). -/
def PROTOCOL_BINARY_CMD_GET_REPLICA : Nat := 0x83

/-- Modelled from the spec: datatype `RAW=0x00` (declaration missing). -/
def PROTOCOL_BINARY_RAW_BYTES : Nat := 0x00
/-- Modelled from the spec: datatype bit `JSON=0x01` (declaration missing). -/
def PROTOCOL_BINARY_DATATYPE_JSON : Nat := 0x01
/-- Modelled from the spec: datatype bit `SNAPPY=0x02` (declaration missing). -/
def PROTOCOL_BINARY_DATATYPE_COMPRESSED : Nat := 0x02

/-- Modelled from the spec: `MCREQ_PKT_BASESIZE`, the size of the header, 24 bytes
(declaration missing; it is also `sizeof(protocol_binary_request_header)`). -/
def MCREQ_PKT_BASESIZE : Nat := 24

/-- Modelled from the spec: `LCB_US2NS`, microseconds to nanoseconds (the defining
header is missing). -/
def LCB_US2NS (us : Nat) : Nat := us * 1000

/-! ## Byte order -/

/-- The memory image of `htons(x)`: the low 16 bits of `x`, most significant byte first. -/
def htons (x : Nat) : List Nat := [x / 256 % 256, x % 256]

/-- The memory image of `htonl(x)`: the low 32 bits of `x`, most significant byte first. -/
def htonl (x : Nat) : List Nat :=
  [x / 16777216 % 256, x / 65536 % 256, x / 256 % 256, x % 256]

/-- Reads a network-order integer back from its bytes. -/
def ntoh (bs : List Nat) : Nat := bs.foldl (fun acc b => acc * 256 + b) 0

/-! ## Commands -/

/-- The operation of a store command. The C type is an enum of five named constants;
`other raw` stands for every value of the underlying integer that is none of them. -/
inductive lcb_STORE_OPERATION where
  | LCB_STORE_UPSERT
  | LCB_STORE_INSERT
  | LCB_STORE_REPLACE
  | LCB_STORE_APPEND
  | LCB_STORE_PREPEND
  | other (raw : Nat)
  deriving DecidableEq, Repr, Inhabited

open lcb_STORE_OPERATION

/-- The durability mode of a mutation: `durability_mode` of `lcb_CMDSTORE`. -/
inductive lcb_DURABILITY_MODE where
  | LCB_DURABILITY_NONE
  | LCB_DURABILITY_POLL
  | LCB_DURABILITY_SYNC
  deriving DecidableEq, Repr, Inhabited

open lcb_DURABILITY_MODE

/-- The fields of `lcb_CMDSTORE` that `store.cc` reads. `persist_to`/`replicate_to` are
`durability.poll.*` (C `char`, kept as the signed value) and `dur_level` is
`durability.sync.dur_level`; in every run of `lcb_store` at most one of the two groups is
read, so they are kept as separate fields. -/
structure lcb_CMDSTORE where
  cmdflags : Nat := 0
  exptime : Nat := 0
  cas : Nat := 0
  cid : Nat := 0
  scope : List Nat := []
  collection : List Nat := []
  key : List Nat := []
  timeout : Nat := 0
  pspan : Nat := 0
  value : List Nat := []
  flags : Nat := 0
  datatype : Nat := 0
  operation : lcb_STORE_OPERATION := LCB_STORE_UPSERT
  durability_mode : lcb_DURABILITY_MODE := LCB_DURABILITY_NONE
  persist_to : Int := 0
  replicate_to : Int := 0
  dur_level : Nat := 0
  deriving DecidableEq, Repr, Inhabited

/-- The class `lcb_CMDGET` is declared in `capi/cmd_get.hh`, which is not among the
translated sources; the record holds what each accessor used by `get.cc` returns. -/
structure lcb_CMDGET where
  key : List Nat := []
  is_default_collection : Bool := true
  collection_id : Nat := 0
  cookie : Nat := 0
  with_lock : Bool := false
  with_touch : Bool := false
  lock_time : Nat := 0
  expiry : Nat := 0
  is_cookie_callback : Bool := false
  parent_span : Nat := 0
  start_time : Nat := 0
  timeout : Nat := 0
  deriving DecidableEq, Repr, Inhabited

/-- The strategy of a replica read. -/
inductive lcb_replica_t where
  | LCB_REPLICA_FIRST
  | LCB_REPLICA_ALL
  | LCB_REPLICA_SELECT
  deriving DecidableEq, Repr, Inhabited

open lcb_replica_t

/-- The fields of `lcb_CMDGETREPLICA` that `get.cc` reads. -/
structure lcb_CMDGETREPLICA where
  cmdflags : Nat := 0
  cid : Nat := 0
  scope : List Nat := []
  collection : List Nat := []
  key : List Nat := []
  timeout : Nat := 0
  pspan : Nat := 0
  strategy : lcb_replica_t := LCB_REPLICA_FIRST
  index : Nat := 0
  deriving DecidableEq, Repr, Inhabited

/-! ## Instance: settings, cluster map, pipelines -/

/-- The settings of the instance that the translated functions read. -/
structure lcb_settings where
  use_collections : Bool := false
  compressopts : Nat := 0
  operation_timeout : Nat := 2500000
  tracer : Bool := false
  deriving DecidableEq, Repr, Inhabited

/-- A server pipeline (`lcb::Server`, an `mc_PIPELINE`), with the capabilities the store
path asks for. -/
structure Server where
  index : Nat := 0
  supports_compression : Bool := false
  supports_json : Bool := false
  deriving DecidableEq, Repr, Inhabited

/-- Modelled from the spec: the cluster map (its declaration is not among the translated
sources). `vbuckets[v]` lists the server indices of vbucket `v`, master first, then the
replicas; `-1` marks a replica without a server. -/
structure lcbvb_CONFIG where
  nrepl : Nat := 0
  vbuckets : List (List Int) := []
  deriving DecidableEq, Repr, Inhabited

/-- Modelled from the spec: `replica(vbucket, n) → server_index | NONE` (the function is
not among the translated sources); `NONE` is `-1`. -/
def lcbvb_vbreplica (cfg : lcbvb_CONFIG) (vbid : Nat) (ix : Nat) : Int :=
  if ix < cfg.nrepl then ((cfg.vbuckets.getD vbid []).getD (ix + 1) (-1)) else -1

/-- The command queue: the current cluster map (absent until bootstrap completes) and the
pipelines, one per server. -/
structure mc_CMDQUEUE where
  config : Option lcbvb_CONFIG := none
  pipelines : List Server := []
  deriving DecidableEq, Repr, Inhabited

/-- The number of pipelines, `cq->npipelines`. -/
def mc_CMDQUEUE.npipelines (cq : mc_CMDQUEUE) : Nat := cq.pipelines.length

/-- The instance. `support_syncreplication` is what the macro
`LCBT_SUPPORT_SYNCREPLICATION(instance)` evaluates to. -/
structure lcb_INSTANCE where
  settings : lcb_settings := {}
  cmdq : mc_CMDQUEUE := {}
  support_syncreplication : Bool := false
  deriving DecidableEq, Repr, Inhabited

/-- The macro `LCBT_NREPLICAS(instance)`: the replica count of the current map. The
callers test `cmdq.config` first; without a map the embedding reads `0`. -/
def LCBT_NREPLICAS (inst : lcb_INSTANCE) : Nat :=
  match inst.cmdq.config with
  | some cfg => cfg.nrepl
  | none => 0

/-! ## Packets -/

/-- The 24-byte request header, each field as the number it encodes. `ffextlen` is the
frame-extras length that an alt request carries next to its key length. -/
structure protocol_binary_request_header where
  magic : Nat := 0
  opcode : Nat := 0
  ffextlen : Nat := 0
  keylen : Nat := 0
  extlen : Nat := 0
  datatype : Nat := 0
  vbucket : Nat := 0
  bodylen : Nat := 0
  opaque_ : Nat := 0
  cas : Nat := 0
  deriving DecidableEq, Repr, Inhabited

/-- The bits of `mc_PACKET::flags` that the translated functions set or test. -/
structure PacketFlags where
  MCREQ_F_REQEXT : Bool := false
  MCREQ_F_PRIVCALLBACK : Bool := false
  MCREQ_F_REPLACE_SEMANTICS : Bool := false
  MCREQ_F_VALUE_IOV : Bool := false
  deriving DecidableEq, Repr, Inhabited

/-- What reserving (or compressing) a value leaves in the packet: the `u_value` union
(`single.size`, `multi.total_length`), whether the value is an IOV list, and the bytes. -/
structure ValueSpan where
  iov : Bool := false
  single_size : Nat := 0
  multi_total_length : Nat := 0
  bytes : List Nat := []
  deriving DecidableEq, Repr, Inhabited

/-- The context of a store with poll durability (`struct DurStoreCtx`). -/
structure DurStoreCtx where
  cookie : Nat
  persist_to : Nat
  replicate_to : Nat
  start : Nat := 0
  deadline : Nat := 0
  deriving DecidableEq, Repr, Inhabited

/-- The request data of a packet (`u_rdata`): the embedded `mc_REQDATA`, or a pointer to
an extended block, which is a `DurStoreCtx` or the `RGetCookie` shared by the packets of
one replica read. -/
inductive ReqData where
  | reqdata (cookie : Nat) (start : Nat) (deadline : Nat)
  | durstore (dctx : DurStoreCtx)
  | rget
  deriving DecidableEq, Repr, Inhabited

/-- A packet as the translated functions leave it: the header and the bytes after it that
were copied into `kh_span` (frame extras, then extras), the key reserved by the allocator,
the value and the request data. `kh_span_size` and `extlen` are `kh_span.size` and
`pkt->extlen` as `mcreq_reserve_key` left them; they are tracked for the packets of a
replica read, where the source reads them back. -/
structure mc_PACKET where
  opaque_ : Nat := 0
  flags : PacketFlags := {}
  hdr : protocol_binary_request_header := {}
  body : List Nat := []
  key : List Nat := []
  kh_span_size : Nat := 0
  extlen : Nat := 0
  u_value : ValueSpan := {}
  u_rdata : ReqData := ReqData.reqdata 0 0 0
  deriving DecidableEq, Repr, Inhabited

/-- What `mcreq_basic_packet` hands back on success: the pipeline it routed the key to,
the opaque of the packet it allocated, the key length and vbucket it wrote into the
header (the key length is what `mcreq_get_key_size(hdr)` and `ntohs(hdr->request.keylen)`
read back) and the key bytes it stored. -/
structure BasicPacket where
  pipeline : Server := {}
  opaque_ : Nat := 0
  keylen : Nat := 0
  vbucket : Nat := 0
  key : List Nat := []
  deriving DecidableEq, Repr, Inhabited

/-- The response of the collection-id lookup, as far as the continuations read it: the
status and the key of its error context. -/
structure lcb_RESPGETCID where
  rc : lcb_STATUS := LCB_SUCCESS
  key : List Nat := []
  deriving DecidableEq, Repr, Inhabited

/-- A response handed to a user callback: status, key and cookie, and whether
`LCB_RESP_F_FINAL` is set in its `rflags`. -/
structure lcb_RESP where
  rc : lcb_STATUS := LCB_SUCCESS
  key : List Nat := []
  cookie : Nat := 0
  rflags_FINAL : Bool := false
  deriving DecidableEq, Repr, Inhabited

/-- The cookie shared by the packets of one replica read (`struct RGetCookie`). -/
structure RGetCookie where
  cookie : Nat := 0
  start : Nat := 0
  deadline : Nat := 0
  r_cur : Nat := 0
  r_max : Nat := 0
  remaining : Int := 0
  vbucket : Nat := 0
  strategy : lcb_replica_t := LCB_REPLICA_FIRST
  deriving DecidableEq, Repr, Inhabited

/-! ## Effects -/

/-- One effect of a submission call, in program order. -/
inductive Event where
  | packet_allocated (pl : Nat) (opaque_ : Nat)
  | packet_wiped (pl : Nat) (opaque_ : Nat)
  | packet_released (pl : Nat) (opaque_ : Nat)
  | sched_add (pl : Nat) (pkt : mc_PACKET)
  | durctx_new (dctx : DurStoreCtx)
  | rck_new (rck : RGetCookie)
  | rck_deleted
  | callback_store (resp : lcb_RESP)
  | callback_get (resp : lcb_RESP)
  | callback_getreplica (resp : lcb_RESP)
  | resolve_store (cmd : lcb_CMDSTORE)
  | resolve_get (cmd : lcb_CMDGET)
  | resolve_getreplica (cmd : lcb_CMDGETREPLICA)
  | defer_get (cmd : lcb_CMDGET)
  | maybe_schedleave
  | sched_leave
  deriving DecidableEq, Repr, Inhabited

/-- The result of a submission call: the returned status, the effects and, for a replica
read, the cookie shared by its packets as the call leaves it. -/
structure Outcome where
  rc : lcb_STATUS
  trace : List Event := []
  rck : Option RGetCookie := none
  deriving DecidableEq, Repr, Inhabited

/-- The packets that the call handed to a pipeline. -/
def Outcome.scheduled (o : Outcome) : List mc_PACKET :=
  o.trace.filterMap (fun e => match e with
    | Event.sched_add _ pkt => some pkt
    | _ => none)

/-! ## Code outside the translated files -/

/-- The functions and constants that `store.cc` and `get.cc` use and that are defined in
files that are not among the translated sources. Each is a parameter of the embedding. -/
structure Env where
  /-- Checks the collection qualifier of a command against the instance. -/
  lcb_is_collection_valid : lcb_INSTANCE → List Nat → List Nat → lcb_STATUS
  /-- Looks the qualifier up in the collection cache; `some cid` is `LCB_SUCCESS`. -/
  collcache_get : lcb_INSTANCE → List Nat → List Nat → Option Nat
  /-- Like `collcache_get`, for the qualifier object of an `lcb_CMDGET`. -/
  collcache_get_cmdget : lcb_INSTANCE → lcb_CMDGET → Option Nat
  /-- The status `collcache_resolve` returns when handed a store command. -/
  collcache_resolve_store : lcb_INSTANCE → lcb_CMDSTORE → lcb_STATUS
  /-- The status `collcache_resolve` returns when handed a get command. -/
  collcache_resolve_get : lcb_INSTANCE → lcb_CMDGET → lcb_STATUS
  /-- The status `collcache_resolve` returns when handed a replica-get command. -/
  collcache_resolve_getreplica : lcb_INSTANCE → lcb_CMDGETREPLICA → lcb_STATUS
  /-- The status `lcb::defer_operation` returns. -/
  defer_operation : lcb_INSTANCE → lcb_STATUS
  /-- Routes the key and allocates a packet: arguments are the queue, the key, the
  collection id, the extras length and the frame-extras length. -/
  mcreq_basic_packet : mc_CMDQUEUE → List Nat → Nat → Nat → Nat → Except lcb_STATUS BasicPacket
  /-- Maps a key to its vbucket and master index. -/
  mcreq_map_key : mc_CMDQUEUE → List Nat → Nat × Int
  /-- Allocates a packet on a pipeline; `none` is the null pointer, `some o` the opaque. -/
  mcreq_allocate_packet : Server → Option Nat
  /-- Reserves the key (with its collection id) behind a header of the given size and
  returns `kh_span.size`, `pkt->extlen` and the stored key bytes. -/
  mcreq_reserve_key : Server → Nat → List Nat → Nat → Nat × Nat × List Nat
  /-- Copies a packet that is to be sent again. -/
  mcreq_renew_packet : mc_PACKET → mc_PACKET
  /-- Stores the value in the packet uncompressed. -/
  mcreq_reserve_value : Server → List Nat → ValueSpan
  /-- Compresses the value into the packet; `none` is a non-zero return, otherwise the
  stored value and the updated `should_compress`. -/
  mcreq_compress_value : Server → List Nat → lcb_settings → Option (ValueSpan × Nat)
  /-- Validates (and with cap-max clamps) the poll criteria: arguments are the instance,
  `persist_to`, `replicate_to` and the options. -/
  lcb_durability_validate : lcb_INSTANCE → Nat → Nat → Nat → lcb_STATUS × Nat × Nat
  /-- The durability timeout sent with a synchronous-replication request. -/
  lcb_durability_timeout : lcb_INSTANCE → Nat → Nat
  /-- The reading of the monotonic clock during the call. -/
  gethrtime : Nat
  /-- The method `start_time_or_default_in_nanoseconds` of `lcb_CMDGET`. -/
  start_time_or_default_in_nanoseconds : lcb_CMDGET → Nat → Nat
  /-- The method `timeout_or_default_in_nanoseconds` of `lcb_CMDGET`. -/
  timeout_or_default_in_nanoseconds : lcb_CMDGET → Nat → Nat
  LCB_COMPRESS_OUT : Nat
  LCB_COMPRESS_FORCE : Nat
  LCB_VALUE_F_JSON : Nat
  LCB_VALUE_F_SNAPPYCOMP : Nat
  LCB_CMD_F_INTERNAL_CALLBACK : Nat
  LCB_DURABILITY_VALIDATE_CAPMAX : Nat

/-! ## store.cc -/

/-- The function `get_value_size` of the source. -/
def get_value_size (packet : mc_PACKET) : Nat :=
  if packet.flags.MCREQ_F_VALUE_IOV then
    packet.u_value.multi_total_length
  else
    packet.u_value.single_size

/-- The function `get_esize_and_opcode` of the source. The out-parameters `*opcode` and
`*esize` are passed in with their current content and returned with the new one. -/
def get_esize_and_opcode (ucmd : lcb_STORE_OPERATION) (opcode esize : Nat) :
    lcb_STATUS × Nat × Nat :=
  if ucmd = LCB_STORE_UPSERT then
    (LCB_SUCCESS, PROTOCOL_BINARY_CMD_SET, 8)
  else if ucmd = LCB_STORE_INSERT then
    (LCB_SUCCESS, PROTOCOL_BINARY_CMD_ADD, 8)
  else if ucmd = LCB_STORE_REPLACE then
    (LCB_SUCCESS, PROTOCOL_BINARY_CMD_REPLACE, 8)
  else if ucmd = LCB_STORE_APPEND then
    (LCB_SUCCESS, PROTOCOL_BINARY_CMD_APPEND, 0)
  else if ucmd = LCB_STORE_PREPEND then
    (LCB_SUCCESS, PROTOCOL_BINARY_CMD_PREPEND, 0)
  else
    (LCB_ERR_INVALID_ARGUMENT, opcode, esize)

/-- The function `can_compress` of the source. -/
def can_compress (env : Env) (inst : lcb_INSTANCE) (pipeline : Server) (datatype : Nat) : Nat :=
  let compressopts := inst.settings.compressopts
  if compressopts &&& env.LCB_COMPRESS_OUT = 0 then
    0
  else if pipeline.supports_compression = false ∧ compressopts &&& env.LCB_COMPRESS_FORCE = 0 then
    0
  else if datatype &&& env.LCB_VALUE_F_SNAPPYCOMP ≠ 0 then
    0
  else
    1

/-- The function `store_validate` of the source. -/
def store_validate (env : Env) (inst : lcb_INSTANCE) (cmd : lcb_CMDSTORE) : lcb_STATUS :=
  let err := env.lcb_is_collection_valid inst cmd.scope cmd.collection
  if err ≠ LCB_SUCCESS then
    err
  else
    let new_durability_supported := inst.support_syncreplication
    if cmd.key.length = 0 then
      LCB_ERR_EMPTY_KEY
    else if cmd.durability_mode = LCB_DURABILITY_SYNC ∧ cmd.dur_level ≠ 0 ∧
        new_durability_supported = false then
      LCB_ERR_UNSUPPORTED_OPERATION
    else
      match cmd.operation with
      | LCB_STORE_APPEND | LCB_STORE_PREPEND =>
        if cmd.exptime ≠ 0 ∨ cmd.flags ≠ 0 then LCB_ERR_OPTIONS_CONFLICT else LCB_SUCCESS
      | LCB_STORE_INSERT =>
        if cmd.cas ≠ 0 then LCB_ERR_OPTIONS_CONFLICT else LCB_SUCCESS
      | _ => LCB_SUCCESS

/-- Modelled from the spec: the body of `protocol_binary_request_set` (its declaration is
not among the translated sources) in the normal layout: the extras are the flags, then the
expiry. The 12 bytes of the union start out zero (`scmd{}`). -/
def store_body_norm (flags expiration : Nat) : List Nat :=
  htonl flags ++ htonl expiration ++ [0, 0, 0, 0]

/-- Modelled from the spec: the body of `protocol_binary_request_set` in the alt layout:
the 4-byte frame extras `(id|size, level, timeout)` precede the extras. -/
def store_body_alt (frame_id level timeout flags expiration : Nat) : List Nat :=
  [frame_id % 256, level % 256] ++ htons timeout ++ htonl flags ++ htonl expiration

/-- The 12 body bytes of a zero-initialised `protocol_binary_request_set`. -/
def store_body_zero : List Nat := List.replicate 12 0

/-- The conversion of a C `char` to `lcb_U16`. -/
def char_to_U16 (c : Int) : Nat := (c % 65536).toNat

/-- Lines 442-452 of `lcb_store`: whether the alt request with its frame extras is used. -/
def store_use_alt (inst : lcb_INSTANCE) (cmd : lcb_CMDSTORE) : Bool :=
  decide (cmd.durability_mode = LCB_DURABILITY_SYNC ∧ cmd.dur_level ≠ 0 ∧
    inst.support_syncreplication = true)

/-- Lines 465-474 of `lcb_store`: the value is compressed or reserved as it is. `none` is
the failure of `mcreq_compress_value`; otherwise the stored value and `should_compress`
as the compressor left it. -/
def store_value (env : Env) (inst : lcb_INSTANCE) (pipeline : Server) (cmd : lcb_CMDSTORE) :
    Option (ValueSpan × Nat) :=
  let should_compress := can_compress env inst pipeline cmd.datatype
  if should_compress ≠ 0 then
    env.mcreq_compress_value pipeline cmd.value inst.settings
  else
    some (env.mcreq_reserve_value pipeline cmd.value, should_compress)

/-- What the durability branch of `lcb_store` leaves behind: the request data of the
packet, whether `MCREQ_F_REQEXT` was set, the 12 body bytes of `scmd` and the effects. -/
structure StoreDurability where
  u_rdata : ReqData
  reqext : Bool
  body : List Nat
  events : List Event
  deriving DecidableEq, Repr, Inhabited

/-- Lines 476-514 of `lcb_store`: with poll durability the criteria are validated and a
`DurStoreCtx` takes the place of the request data; otherwise the request data is filled
in and flags and expiry are written into the body of `scmd`, in the alt or the normal
layout. The error is the status of `lcb_durability_validate`. -/
def store_durability (env : Env) (inst : lcb_INSTANCE) (cookie : Nat) (cmd : lcb_CMDSTORE) :
    Except lcb_STATUS StoreDurability :=
  let new_durability_supported := inst.support_syncreplication
  let start := env.gethrtime
  let deadline := start + LCB_US2NS
    (if cmd.timeout ≠ 0 then cmd.timeout else inst.settings.operation_timeout)
  if cmd.durability_mode = LCB_DURABILITY_POLL then
    let persist_u := char_to_U16 cmd.persist_to
    let replicate_u := char_to_U16 cmd.replicate_to
    let duropts :=
      if cmd.replicate_to = -1 ∨ cmd.persist_to = -1 then
        env.LCB_DURABILITY_VALIDATE_CAPMAX
      else 0
    match env.lcb_durability_validate inst persist_u replicate_u duropts with
    | (err, persist_u, replicate_u) =>
      if err ≠ LCB_SUCCESS then
        Except.error err
      else
        let dctx : DurStoreCtx :=
          { cookie := cookie, persist_to := persist_u, replicate_to := replicate_u,
            start := start, deadline := deadline }
        Except.ok { u_rdata := ReqData.durstore dctx, reqext := true,
                    body := store_body_zero, events := [Event.durctx_new dctx] }
  else
    let body :=
      if cmd.dur_level ≠ 0 ∧ new_durability_supported = true then
        store_body_alt ((1 <<< 4) ||| 3) cmd.dur_level
          (env.lcb_durability_timeout inst cmd.timeout) cmd.flags cmd.exptime
      else
        store_body_norm cmd.flags cmd.exptime
    Except.ok { u_rdata := ReqData.reqdata cookie start deadline, reqext := false,
                body := body, events := [] }

/-- Lines 516-525 of `lcb_store`: the datatype of the header. -/
def store_datatype (env : Env) (pipeline : Server) (should_compress : Nat)
    (cmd : lcb_CMDSTORE) : Nat :=
  let datatype0 := PROTOCOL_BINARY_RAW_BYTES
  let datatype1 :=
    if should_compress ≠ 0 ∨ cmd.datatype &&& env.LCB_VALUE_F_SNAPPYCOMP ≠ 0 then
      datatype0 ||| PROTOCOL_BINARY_DATATYPE_COMPRESSED
    else datatype0
  if cmd.datatype &&& env.LCB_VALUE_F_JSON ≠ 0 ∧ pipeline.supports_json = true then
    datatype1 ||| PROTOCOL_BINARY_DATATYPE_JSON
  else datatype1

/-- Lines 530-543 of `lcb_store`: the packet flags that depend on the command. -/
def store_packet_flags (env : Env) (cmd : lcb_CMDSTORE) (flags1 : PacketFlags) : PacketFlags :=
  let flags2 : PacketFlags :=
    if cmd.cmdflags &&& env.LCB_CMD_F_INTERNAL_CALLBACK ≠ 0 then
      { flags1 with MCREQ_F_PRIVCALLBACK := true }
    else flags1
  match cmd.operation with
  | LCB_STORE_UPSERT | LCB_STORE_REPLACE | LCB_STORE_APPEND | LCB_STORE_PREPEND =>
    { flags2 with MCREQ_F_REPLACE_SEMANTICS := true }
  | _ => flags2

/-- Lines 516-543 of `lcb_store`: the rest of the header, the packet flags and the
`memcpy` of header and body into the packet. `mcreq_basic_packet` has filled in the key
length, the frame-extras length and the vbucket of the header. -/
def store_packet (env : Env) (cmd : lcb_CMDSTORE) (magic opcode extlen ffextlen : Nat)
    (bp : BasicPacket) (u_value : ValueSpan) (should_compress : Nat)
    (d : StoreDurability) : mc_PACKET :=
  let hsize := extlen + MCREQ_PKT_BASESIZE + ffextlen
  let flags1 : PacketFlags := { MCREQ_F_VALUE_IOV := u_value.iov, MCREQ_F_REQEXT := d.reqext }
  let packet0 : mc_PACKET :=
    { opaque_ := bp.opaque_, flags := flags1, key := bp.key, u_value := u_value,
      u_rdata := d.u_rdata }
  let hdr : protocol_binary_request_header :=
    { magic := magic, opcode := opcode, ffextlen := ffextlen, keylen := bp.keylen,
      extlen := extlen, datatype := store_datatype env bp.pipeline should_compress cmd,
      vbucket := bp.vbucket,
      bodylen := (extlen + ffextlen + bp.keylen + get_value_size packet0) % 4294967296,
      opaque_ := bp.opaque_, cas := cmd.cas % 18446744073709551616 }
  { packet0 with flags := store_packet_flags env cmd flags1, hdr := hdr,
                 body := d.body.take (hsize - MCREQ_PKT_BASESIZE) }

/-- The part of the lambda `operation` of `lcb_store` that follows the test of the
resolver's response: it builds the packet and schedules it. The header starts out zero
(`scmd{}`). -/
def store_schedule (env : Env) (inst : lcb_INSTANCE) (cookie : Nat) (cmd : lcb_CMDSTORE) :
    Outcome :=
  let cq := inst.cmdq
  let magic := if store_use_alt inst cmd then PROTOCOL_BINARY_AREQ else PROTOCOL_BINARY_REQ
  let ffextlen := if store_use_alt inst cmd then 4 else 0
  match get_esize_and_opcode cmd.operation 0 0 with
  | (err, opcode, extlen) =>
    if err ≠ LCB_SUCCESS then
      { rc := err }
    else
      match env.mcreq_basic_packet cq cmd.key cmd.cid extlen ffextlen with
      | Except.error err => { rc := err }
      | Except.ok bp =>
        let pipeline := bp.pipeline
        let ev_alloc := Event.packet_allocated pipeline.index bp.opaque_
        match store_value env inst pipeline cmd with
        | none =>
          { rc := LCB_ERR_NO_MEMORY,
            trace := [ev_alloc, Event.packet_released pipeline.index bp.opaque_] }
        | some (u_value, should_compress) =>
          match store_durability env inst cookie cmd with
          | Except.error err =>
            { rc := err,
              trace := [ev_alloc, Event.packet_wiped pipeline.index bp.opaque_,
                        Event.packet_released pipeline.index bp.opaque_] }
          | Except.ok d =>
            let packet :=
              store_packet env cmd magic opcode extlen ffextlen bp u_value should_compress d
            { rc := LCB_SUCCESS,
              trace := [ev_alloc] ++ d.events ++ [Event.sched_add pipeline.index packet] }

/-- The lambda `operation` of `lcb_store`: `resp` is the response of the collection
resolver, absent (`nullptr`) when the lambda is called directly. -/
def store_operation (env : Env) (inst : lcb_INSTANCE) (cookie : Nat)
    (resp : Option lcb_RESPGETCID) (cmd : lcb_CMDSTORE) : Outcome :=
  match resp with
  | some r =>
    if r.rc ≠ LCB_SUCCESS then
      { rc := r.rc,
        trace := [Event.callback_store { rc := r.rc, key := cmd.key, cookie := cookie }] }
    else store_schedule env inst cookie cmd
  | none => store_schedule env inst cookie cmd

/-- The function `lcb_store` of the source. -/
def lcb_store (env : Env) (inst : lcb_INSTANCE) (cookie : Nat) (command : lcb_CMDSTORE) :
    Outcome :=
  let rc := store_validate env inst command
  if rc ≠ LCB_SUCCESS then
    { rc := rc }
  else if inst.settings.use_collections = false then
    store_operation env inst cookie none command
  else
    match env.collcache_get inst command.scope command.collection with
    | some cid => store_operation env inst cookie none { command with cid := cid }
    | none =>
      { rc := env.collcache_resolve_store inst command,
        trace := [Event.resolve_store command] }

/-! ## get.cc: get -/

/-- The function `get_validate` of the source. -/
def get_validate (inst : lcb_INSTANCE) (cmd : lcb_CMDGET) : lcb_STATUS :=
  if cmd.key.length = 0 then
    LCB_ERR_EMPTY_KEY
  else if inst.settings.use_collections = false ∧ cmd.is_default_collection = false then
    LCB_ERR_SDK_FEATURE_UNAVAILABLE
  else
    LCB_SUCCESS

/-- The function `get_schedule` of the source. `mcreq_basic_packet` fills in the key
length, the extras length, the (zero) frame-extras length and the vbucket of the header. The trace span that is attached
when a tracer is configured is not part of the embedding. -/
def get_schedule (env : Env) (inst : lcb_INSTANCE) (cmd : lcb_CMDGET) : Outcome :=
  let q := inst.cmdq
  let extlen0 := 0
  let opcode0 := PROTOCOL_BINARY_CMD_GET
  let magic := PROTOCOL_BINARY_REQ
  let extlen := if cmd.with_lock then 4 else if cmd.with_touch then 4 else extlen0
  let opcode :=
    if cmd.with_lock then PROTOCOL_BINARY_CMD_GET_LOCKED
    else if cmd.with_touch then PROTOCOL_BINARY_CMD_GAT
    else opcode0
  match env.mcreq_basic_packet q cmd.key cmd.collection_id extlen 0 with
  | Except.error err => { rc := err }
  | Except.ok bp =>
    let pl := bp.pipeline
    let start := env.start_time_or_default_in_nanoseconds cmd env.gethrtime
    let deadline := start +
      env.timeout_or_default_in_nanoseconds cmd (LCB_US2NS inst.settings.operation_timeout)
    let hdr : protocol_binary_request_header :=
      { magic := magic, opcode := opcode, ffextlen := 0, keylen := bp.keylen,
        extlen := extlen, datatype := PROTOCOL_BINARY_RAW_BYTES, vbucket := bp.vbucket,
        bodylen := (extlen + bp.keylen) % 4294967296,
        opaque_ := bp.opaque_, cas := 0 }
    -- `gcmd.message.body.norm.expiration`; its initial content is never copied
    let expiration0 : List Nat := [0, 0, 0, 0]
    let expiration1 := if cmd.with_lock then htonl cmd.lock_time else expiration0
    let expiration2 := if extlen ≠ 0 then htonl cmd.expiry else expiration1
    let flags : PacketFlags :=
      if cmd.is_cookie_callback then { MCREQ_F_PRIVCALLBACK := true } else {}
    let pkt : mc_PACKET :=
      { opaque_ := bp.opaque_, flags := flags, hdr := hdr,
        body := expiration2.take (MCREQ_PKT_BASESIZE + extlen - MCREQ_PKT_BASESIZE),
        key := bp.key, u_rdata := ReqData.reqdata cmd.cookie start deadline }
    { rc := LCB_SUCCESS,
      trace := [Event.packet_allocated pl.index bp.opaque_, Event.sched_add pl.index pkt] }

/-- The function `get_execute` of the source. A hit of the collection cache stores the
collection id in the command's qualifier. -/
def get_execute (env : Env) (inst : lcb_INSTANCE) (cmd : lcb_CMDGET) : Outcome :=
  if inst.settings.use_collections = false then
    get_schedule env inst cmd
  else
    match env.collcache_get_cmdget inst cmd with
    | some cid => get_schedule env inst { cmd with collection_id := cid }
    | none => { rc := env.collcache_resolve_get inst cmd, trace := [Event.resolve_get cmd] }

/-- The continuation that `get_execute` hands to `collcache_resolve`; it returns nothing,
so the embedding returns its effects. -/
def get_execute_continuation (env : Env) (inst : lcb_INSTANCE) (status : lcb_STATUS)
    (resp : Option lcb_RESPGETCID) (operation : lcb_CMDGET) : List Event :=
  let response : lcb_RESP := { key := operation.key, cookie := operation.cookie }
  match resp with
  | none => [Event.callback_get { response with rc := LCB_ERR_TIMEOUT }]
  | some r =>
    if status = LCB_ERR_SHEDULE_FAILURE then
      [Event.callback_get { response with rc := LCB_ERR_TIMEOUT }]
    else if r.rc ≠ LCB_SUCCESS then
      [Event.callback_get { response with rc := r.rc, key := r.key }]
    else
      let o := get_schedule env inst operation
      if o.rc ≠ LCB_SUCCESS then
        o.trace ++ [Event.callback_get { response with rc := o.rc }]
      else o.trace

/-- The continuation that `lcb_get` hands to `lcb::defer_operation`. -/
def get_deferred_continuation (env : Env) (inst : lcb_INSTANCE) (cmd : lcb_CMDGET)
    (status : lcb_STATUS) : List Event :=
  let response : lcb_RESP := { key := cmd.key, cookie := cmd.cookie }
  if status = LCB_ERR_REQUEST_CANCELED then
    [Event.callback_get { response with rc := status }]
  else
    let o := get_execute env inst cmd
    if o.rc ≠ LCB_SUCCESS then
      o.trace ++ [Event.callback_get { response with rc := o.rc }]
    else o.trace

/-- The function `lcb_get` of the source. -/
def lcb_get (env : Env) (inst : lcb_INSTANCE) (cookie : Nat) (command : lcb_CMDGET) : Outcome :=
  let rc := get_validate inst command
  if rc ≠ LCB_SUCCESS then
    { rc := rc }
  else
    let cmd := { command with cookie := cookie }
    if inst.cmdq.config.isNone then
      let cmd := { cmd with start_time := env.gethrtime }
      { rc := env.defer_operation inst, trace := [Event.defer_get cmd] }
    else
      get_execute env inst cmd

/-! ## get.cc: replica read -/

/-- The block that `getreplica_validate` and the lambda of `lcb_getreplica` both run
after mapping the key: it fixes the range `r0..r1` of replica indices per strategy and
checks that the replicas are online. -/
def replica_range (inst : lcb_INSTANCE) (cfg : lcbvb_CONFIG) (vbid : Nat)
    (cmd : lcb_CMDGETREPLICA) : Except lcb_STATUS (Nat × Nat) :=
  let cq := inst.cmdq
  let nreplicas := LCBT_NREPLICAS inst
  let checked (r0 r1 : Nat) : Except lcb_STATUS (Nat × Nat) :=
    if r1 < r0 ∨ r1 ≥ cq.npipelines then Except.error LCB_ERR_NO_MATCHING_SERVER
    else Except.ok (r0, r1)
  match cmd.strategy with
  | LCB_REPLICA_SELECT =>
    if lcbvb_vbreplica cfg vbid cmd.index < 0 then Except.error LCB_ERR_NO_MATCHING_SERVER
    else checked cmd.index cmd.index
  | LCB_REPLICA_ALL =>
    if (List.range nreplicas).any (fun ii => decide (lcbvb_vbreplica cfg vbid ii < 0)) then
      Except.error LCB_ERR_NO_MATCHING_SERVER
    else checked 0 nreplicas
  | LCB_REPLICA_FIRST =>
    match (List.range nreplicas).find? (fun r0 => decide (lcbvb_vbreplica cfg vbid r0 > -1)) with
    | none => Except.error LCB_ERR_NO_MATCHING_SERVER
    | some r0 => checked r0 r0

/-- The function `getreplica_validate` of the source. -/
def getreplica_validate (env : Env) (inst : lcb_INSTANCE) (cmd : lcb_CMDGETREPLICA) :
    lcb_STATUS :=
  let err := env.lcb_is_collection_valid inst cmd.scope cmd.collection
  if err ≠ LCB_SUCCESS then
    err
  else if cmd.key.length = 0 then
    LCB_ERR_EMPTY_KEY
  else
    match inst.cmdq.config with
    | none => LCB_ERR_NO_CONFIGURATION
    | some cfg =>
      if LCBT_NREPLICAS inst = 0 then
        LCB_ERR_NO_MATCHING_SERVER
      else
        let vbid := (env.mcreq_map_key inst.cmdq cmd.key).1
        match replica_range inst cfg vbid cmd with
        | Except.error err => err
        | Except.ok _ => LCB_SUCCESS

/-- The `do … while (++r0 < r1)` loop of `lcb_getreplica`: one packet for replica `r0`,
then `more` further iterations (`more = r1 - (r0 + 1)`, so the loop is total). `req` is
the header prepared before the loop. A replica index outside the pipeline table, which
the source expects never to see, reads a default pipeline. The key span always contains
the header, so `kh_span.size - MCREQ_PKT_BASESIZE` does not wrap. -/
def getreplica_loop (env : Env) (cq : mc_CMDQUEUE) (cfg : lcbvb_CONFIG) (vbid : Nat)
    (cmd : lcb_CMDGETREPLICA) (req : protocol_binary_request_header) :
    Nat → Nat → RGetCookie → List Event → Outcome
  | more, r0, rck, trace =>
    let curix := lcbvb_vbreplica cfg vbid r0
    let pl := cq.pipelines.getD curix.toNat {}
    match env.mcreq_allocate_packet pl with
    | none => { rc := LCB_ERR_NO_MEMORY, trace := trace ++ [Event.rck_deleted] }
    | some opq =>
      match env.mcreq_reserve_key pl MCREQ_PKT_BASESIZE cmd.key cmd.cid with
      | (kh_span_size, pkt_extlen, key) =>
        let nkey := kh_span_size - MCREQ_PKT_BASESIZE + pkt_extlen
        let req1 : protocol_binary_request_header :=
          { req with keylen := nkey % 65536, bodylen := nkey % 4294967296, opaque_ := opq }
        let rck1 : RGetCookie := { rck with remaining := rck.remaining + 1 }
        let pkt : mc_PACKET :=
          { opaque_ := opq, flags := { MCREQ_F_REQEXT := true }, hdr := req1, body := [],
            key := key, kh_span_size := kh_span_size, extlen := pkt_extlen,
            u_rdata := ReqData.rget }
        let trace1 := trace ++ [Event.packet_allocated pl.index opq, Event.sched_add pl.index pkt]
        match more with
        | 0 => { rc := LCB_SUCCESS, trace := trace1 ++ [Event.maybe_schedleave], rck := some rck1 }
        | m + 1 => getreplica_loop env cq cfg vbid cmd req m (r0 + 1) rck1 trace1

/-- The part of the lambda `operation` of `lcb_getreplica` that follows the test of the
resolver's response. Without a cluster map (which `getreplica_validate` excludes) every
replica lookup fails. -/
def getreplica_schedule (env : Env) (inst : lcb_INSTANCE) (cookie : Nat)
    (cmd : lcb_CMDGETREPLICA) : Outcome :=
  let cq := inst.cmdq
  let cfg := cq.config.getD {}
  let vbid := (env.mcreq_map_key cq cmd.key).1
  match replica_range inst cfg vbid cmd with
  | Except.error err => { rc := err }
  | Except.ok (r0, r1) =>
    let start := env.gethrtime
    let rck0 : RGetCookie :=
      { cookie := cookie, start := start, r_cur := 0, r_max := LCBT_NREPLICAS inst,
        remaining := 0, vbucket := vbid, strategy := cmd.strategy }
    let tmo := if cmd.timeout ≠ 0 then cmd.timeout else inst.settings.operation_timeout
    let rck1 : RGetCookie := { rck0 with deadline := rck0.start + LCB_US2NS tmo }
    let req : protocol_binary_request_header :=
      { magic := PROTOCOL_BINARY_REQ, opcode := PROTOCOL_BINARY_CMD_GET_REPLICA,
        datatype := PROTOCOL_BINARY_RAW_BYTES, vbucket := vbid % 65536, cas := 0, extlen := 0 }
    let rck2 : RGetCookie := { rck1 with r_cur := r0 }
    getreplica_loop env cq cfg vbid cmd req (r1 - (r0 + 1)) r0 rck2 [Event.rck_new rck2]

/-- The lambda `operation` of `lcb_getreplica`. -/
def getreplica_operation (env : Env) (inst : lcb_INSTANCE) (cookie : Nat)
    (resp : Option lcb_RESPGETCID) (cmd : lcb_CMDGETREPLICA) : Outcome :=
  match resp with
  | some r =>
    if r.rc ≠ LCB_SUCCESS then
      { rc := r.rc,
        trace := [Event.callback_getreplica { rc := r.rc, key := cmd.key, cookie := cookie }] }
    else getreplica_schedule env inst cookie cmd
  | none => getreplica_schedule env inst cookie cmd

/-- The function `lcb_getreplica` of the source. -/
def lcb_getreplica (env : Env) (inst : lcb_INSTANCE) (cookie : Nat)
    (command : lcb_CMDGETREPLICA) : Outcome :=
  let rc := getreplica_validate env inst command
  if rc ≠ LCB_SUCCESS then
    { rc := rc }
  else if inst.settings.use_collections = false then
    getreplica_operation env inst cookie none command
  else
    match env.collcache_get inst command.scope command.collection with
    | some cid => getreplica_operation env inst cookie none { command with cid := cid }
    | none =>
      { rc := env.collcache_resolve_getreplica inst command,
        trace := [Event.resolve_getreplica command] }

/-! ## Reading a packet -/

/-- The frame extras of a packet: the first `ffextlen` bytes after the header. -/
def mc_PACKET.frame_extras (pkt : mc_PACKET) : List Nat :=
  pkt.body.take pkt.hdr.ffextlen

/-- The extras of a packet: the bytes that follow the frame extras. -/
def mc_PACKET.extras (pkt : mc_PACKET) : List Nat :=
  pkt.body.drop pkt.hdr.ffextlen

/-- What the loop of `lcb_getreplica` writes into each packet: the prepared header with
key length, body length and opaque filled in. Both lengths are `nkey`, the size of the
key span behind the header (reduced to 16 and 32 bits); there is no body and no value. -/
def ReplicaPacket (req : protocol_binary_request_header) (pkt : mc_PACKET) : Prop :=
  pkt.hdr = { req with
      keylen := (pkt.kh_span_size - MCREQ_PKT_BASESIZE + pkt.extlen) % 65536,
      bodylen := (pkt.kh_span_size - MCREQ_PKT_BASESIZE + pkt.extlen) % 4294967296,
      opaque_ := pkt.opaque_ } ∧
    pkt.body = [] ∧ get_value_size pkt = 0

instance (req : protocol_binary_request_header) (pkt : mc_PACKET) :
    Decidable (ReplicaPacket req pkt) := by
  unfold ReplicaPacket
  infer_instance

/-! ## A concrete environment

An allocator, a collection check and a durability validator to run the embedding on
concrete commands. -/

/-- Modelled from the spec: the validation of poll criteria (`lcb_durability_validate` is
not among the translated sources): zero/zero is `INVALID_ARGUMENT`; with cap-max the
criteria are clamped to `(replicas + 1, replicas)`; without it, exceeding them is
`DURABILITY_TOO_MANY`. -/
def lcb_durability_validate (capmax : Nat) (inst : lcb_INSTANCE) (persist_to replicate_to : Nat)
    (options : Nat) : lcb_STATUS × Nat × Nat :=
  let replicas := LCBT_NREPLICAS inst
  if persist_to = 0 ∧ replicate_to = 0 then
    (LCB_ERR_INVALID_ARGUMENT, persist_to, replicate_to)
  else if options &&& capmax ≠ 0 then
    (LCB_SUCCESS, min persist_to (replicas + 1), min replicate_to replicas)
  else if persist_to > replicas + 1 ∨ replicate_to > replicas then
    (LCB_ERR_DURABILITY_TOO_MANY, persist_to, replicate_to)
  else
    (LCB_SUCCESS, persist_to, replicate_to)

/-- A concrete environment: keys are routed to vbucket 0 and to the master of vbucket 0,
values are stored uncompressed, a non-default collection is refused when the instance
has collections disabled (the check that `get_validate` makes in the source), and the
flag constants have the values of the public header. -/
def testEnv : Env where
  lcb_is_collection_valid := fun inst scope collection =>
    if inst.settings.use_collections = false ∧ (scope ≠ [] ∨ collection ≠ []) then
      LCB_ERR_SDK_FEATURE_UNAVAILABLE
    else LCB_SUCCESS
  collcache_get := fun _ scope collection =>
    if scope = [] ∧ collection = [] then some 0 else none
  collcache_get_cmdget := fun _ cmd => if cmd.is_default_collection then some 0 else none
  collcache_resolve_store := fun _ _ => LCB_SUCCESS
  collcache_resolve_get := fun _ _ => LCB_SUCCESS
  collcache_resolve_getreplica := fun _ _ => LCB_SUCCESS
  defer_operation := fun _ => LCB_SUCCESS
  mcreq_basic_packet := fun cq key _ _ _ =>
    match cq.config with
    | none => Except.error LCB_ERR_NO_CONFIGURATION
    | some cfg =>
      let srvix := (cfg.vbuckets.getD 0 []).getD 0 (-1)
      if 0 ≤ srvix ∧ srvix.toNat < cq.pipelines.length then
        Except.ok { pipeline := cq.pipelines.getD srvix.toNat {}, opaque_ := 1,
                    keylen := key.length, vbucket := 0, key := key }
      else Except.error LCB_ERR_NO_MATCHING_SERVER
  mcreq_map_key := fun cq _ =>
    (0, ((cq.config.getD {}).vbuckets.getD 0 []).getD 0 (-1))
  mcreq_allocate_packet := fun pl => some (pl.index + 1)
  mcreq_reserve_key := fun _ hdrsize key _ =>
    (hdrsize + key.length, hdrsize - MCREQ_PKT_BASESIZE, key)
  mcreq_renew_packet := fun pkt => pkt
  mcreq_reserve_value := fun _ value => { single_size := value.length, bytes := value }
  mcreq_compress_value := fun _ value _ =>
    some ({ single_size := value.length, bytes := value }, 0)
  lcb_durability_validate := lcb_durability_validate 2
  lcb_durability_timeout := fun inst tmo =>
    (if tmo ≠ 0 then tmo else inst.settings.operation_timeout) / 1000 % 65536
  gethrtime := 1000000
  start_time_or_default_in_nanoseconds := fun cmd dflt =>
    if cmd.start_time ≠ 0 then cmd.start_time else dflt
  timeout_or_default_in_nanoseconds := fun cmd dflt =>
    if cmd.timeout ≠ 0 then LCB_US2NS cmd.timeout else dflt
  LCB_COMPRESS_OUT := 2
  LCB_COMPRESS_FORCE := 4
  LCB_VALUE_F_JSON := 1
  LCB_VALUE_F_SNAPPYCOMP := 2
  LCB_CMD_F_INTERNAL_CALLBACK := 1
  LCB_DURABILITY_VALIDATE_CAPMAX := 2

/-- A bootstrapped instance: four servers, one vbucket whose master is server 0 and whose
three replicas are servers 1, 2 and 3; no synchronous replication. -/
def testInstance : lcb_INSTANCE where
  cmdq :=
    { config := some { nrepl := 3, vbuckets := [[0, 1, 2, 3]] },
      pipelines := [{ index := 0 }, { index := 1 }, { index := 2 }, { index := 3 }] }

/-- The same cluster with synchronous replication supported. -/
def testInstanceSync : lcb_INSTANCE :=
  { testInstance with support_syncreplication := true }

/-- The first packet that a call handed to a pipeline (an empty packet if there is
none). -/
def first_scheduled (o : Outcome) : mc_PACKET := o.scheduled.headD {}

/-- The key `"k"`. -/
def key_k : List Nat := [107]

/-- The value `"x"`. -/
def value_x : List Nat := [120]

/-- `upsert("k","x")` with flags `0xCAFE0001`, expiry 5 and synchronous durability
level 1. -/
def upsert_sync : lcb_CMDSTORE :=
  { operation := LCB_STORE_UPSERT, key := key_k, value := value_x, flags := 0xCAFE0001,
    exptime := 5, durability_mode := LCB_DURABILITY_SYNC, dur_level := 1 }

/-- `upsert("k","x")` with flags `0xCAFE0001`, expiry 5 and poll durability
`persist_to = 1`, `replicate_to = 0`. -/
def upsert_poll : lcb_CMDSTORE :=
  { operation := LCB_STORE_UPSERT, key := key_k, value := value_x, flags := 0xCAFE0001,
    exptime := 5, durability_mode := LCB_DURABILITY_POLL, persist_to := 1, replicate_to := 0 }

/-- `get("k")` with a lock of 30 seconds (and no expiry). -/
def get_lock_30 : lcb_CMDGET := { key := key_k, with_lock := true, lock_time := 30 }

/-- `get("k")` with a touch that sets the expiry to 30 seconds. -/
def get_touch_30 : lcb_CMDGET := { key := key_k, with_touch := true, expiry := 30 }

/-- A plain `get("k")`. -/
def get_plain : lcb_CMDGET := { key := key_k }

/-- A replica read of `"k"` from all replicas. -/
def getreplica_all : lcb_CMDGETREPLICA := { key := key_k, strategy := LCB_REPLICA_ALL }

/-- `upsert("k","x")` with flags `0xCAFE0001` and expiry 5, no durability requirement. -/
def upsert_plain : lcb_CMDSTORE :=
  { operation := LCB_STORE_UPSERT, key := key_k, value := value_x, flags := 0xCAFE0001,
    exptime := 5 }

/-! ## get.cc: the response to a replica read -/

/-- The method `RGetCookie::decref` of the source: `if (!--remaining) delete this`. The
result is the cookie with the counter decremented, or `none` once it is deleted. -/
def RGetCookie.decref (rck : RGetCookie) : Option RGetCookie :=
  let remaining := rck.remaining - 1
  if remaining = 0 then none else some { rck with remaining := remaining }

/-- The `do … while (rck->r_cur < rck->r_max)` loop of `rget_callback`: `r_cur` is
incremented and the replica looked up; the loop stops at the first replica whose server
index is a valid pipeline index. It runs one iteration and then `more` further ones
(`more = r_max - (r_cur + 1)`, which is when the loop condition fails, so the loop is
total). The result is the final `r_cur` and `nextpl` (`none` is the null pointer). -/
def rget_advance (cq : mc_CMDQUEUE) (cfg : lcbvb_CONFIG) (vbucket : Nat) :
    Nat → Nat → Nat × Option Server
  | more, r_cur =>
    let r_cur1 := r_cur + 1
    let nextix := lcbvb_vbreplica cfg vbucket r_cur1
    if nextix > -1 ∧ nextix < (cq.npipelines : Int) then
      (r_cur1, some (cq.pipelines.getD nextix.toNat {}))
    else
      match more with
      | 0 => (r_cur1, none)
      | m + 1 => rget_advance cq cfg vbucket m r_cur1

/-- What `rget_callback` leaves behind: the cookie (`none` once deleted) and the effects
(user callback, packet handed to a pipeline). -/
structure RGetCallback where
  rck : Option RGetCookie
  trace : List Event
  deriving DecidableEq, Repr, Inhabited

/-- The function `rget_callback` of the source, called with the cookie `rck` of the
answered packet `pkt`, the status `err` and the response `resp` built by the packet
handler. Without a cluster map every replica lookup fails. In the branch that sends the
packet again `nextpl` is not null, because the branch before it took that case. -/
def rget_callback (env : Env) (inst : lcb_INSTANCE) (rck : RGetCookie) (pkt : mc_PACKET)
    (err : lcb_STATUS) (resp : lcb_RESP) : RGetCallback :=
  if rck.strategy = LCB_REPLICA_SELECT ∨ rck.strategy = LCB_REPLICA_ALL then
    let resp1 :=
      if rck.strategy = LCB_REPLICA_SELECT ∨ rck.remaining = 1 then
        { resp with rflags_FINAL := true }
      else resp
    { rck := rck.decref, trace := [Event.callback_getreplica resp1] }
  else
    let cq := inst.cmdq
    let cfg := cq.config.getD {}
    match rget_advance cq cfg rck.vbucket (rck.r_max - (rck.r_cur + 1)) rck.r_cur with
    | (r_cur, nextpl) =>
      let rck1 : RGetCookie := { rck with r_cur := r_cur }
      if err = LCB_SUCCESS ∨ r_cur = rck.r_max ∨ nextpl = none then
        let rck2 : RGetCookie := { rck1 with remaining := 1 }
        { rck := rck2.decref,
          trace := [Event.callback_getreplica { resp with rflags_FINAL := true }] }
      else if err ≠ LCB_SUCCESS then
        match nextpl with
        | some nextpl =>
          let newpkt := env.mcreq_renew_packet pkt
          let rck2 : RGetCookie := { rck1 with remaining := 2 }
          { rck := rck2.decref,
            trace := [Event.sched_add nextpl.index newpkt, Event.sched_leave] }
        | none => { rck := rck1.decref, trace := [] }
      else
        { rck := rck1.decref, trace := [] }

/-! ## A replica read in progress

The packets of a request that were handed to a pipeline and not yet answered, and the
delivery of responses to them. -/

/-- The packets that a trace handed to a pipeline, each with the index of the pipeline. -/
def events_sched (trace : List Event) : List (Nat × mc_PACKET) :=
  trace.filterMap (fun e => match e with
    | Event.sched_add pl pkt => some (pl, pkt)
    | _ => none)

/-- The responses that a trace delivered to the user's replica-read callback. -/
def events_callbacks (trace : List Event) : List lcb_RESP :=
  trace.filterMap (fun e => match e with
    | Event.callback_getreplica resp => some resp
    | _ => none)

/-- What the packet handler passes to `rget_callback` for one answered packet. -/
structure RGetResponse where
  err : lcb_STATUS := LCB_SUCCESS
  resp : lcb_RESP := {}
  deriving DecidableEq, Repr, Inhabited

/-- A replica read between two events: its cookie (`none` once deleted) and its packets
in flight. -/
structure RGetRequest where
  rck : Option RGetCookie
  inflight : List (Nat × mc_PACKET)
  deriving DecidableEq, Repr, Inhabited

/-- The request as `lcb_getreplica` leaves it. -/
def rget_request (o : Outcome) : RGetRequest :=
  { rck := o.rck, inflight := events_sched o.trace }

/-- One response arrives: it answers the packet in flight at position
`which % inflight.length` (responses of different servers arrive in any order), the
packet leaves the pipeline and `rget_callback` runs; a packet that the callback hands to
a pipeline is in flight afterwards. Nothing happens when no packet is in flight. -/
def rget_deliver (env : Env) (inst : lcb_INSTANCE) (st : RGetRequest) (which : Nat)
    (r : RGetResponse) : RGetRequest × List Event :=
  match st.rck with
  | none => (st, [])
  | some rck =>
    if st.inflight = [] then (st, [])
    else
      let i := which % st.inflight.length
      let pkt := (st.inflight.getD i (0, {})).2
      let cb := rget_callback env inst rck pkt r.err r.resp
      ({ rck := cb.rck, inflight := st.inflight.eraseIdx i ++ events_sched cb.trace },
        cb.trace)

/-- A sequence of responses arrives, one after the other. -/
def rget_run (env : Env) (inst : lcb_INSTANCE) :
    RGetRequest → List (Nat × RGetResponse) → RGetRequest × List Event
  | st, [] => (st, [])
  | st, (which, r) :: rest =>
    let step := rget_deliver env inst st which r
    let run := rget_run env inst step.1 rest
    (run.1, step.2 ++ run.2)

/-- The responses with `LCB_RESP_F_FINAL` set in the last one. -/
def mark_last : List lcb_RESP → List lcb_RESP
  | [] => []
  | [resp] => [{ resp with rflags_FINAL := true }]
  | resp :: rest => resp :: mark_last rest

/-- Whether replica `r` of the vbucket has a server with a pipeline, the test that
`rget_callback` makes. -/
def replica_usable (cq : mc_CMDQUEUE) (cfg : lcbvb_CONFIG) (vbucket r : Nat) : Prop :=
  lcbvb_vbreplica cfg vbucket r > -1 ∧ lcbvb_vbreplica cfg vbucket r < (cq.npipelines : Int)

instance (cq : mc_CMDQUEUE) (cfg : lcbvb_CONFIG) (vbucket r : Nat) :
    Decidable (replica_usable cq cfg vbucket r) := by
  unfold replica_usable
  infer_instance

/-- The pipeline of replica `r` of the vbucket, as both `lcb_getreplica` and
`rget_callback` look it up. -/
def replica_pipeline (cq : mc_CMDQUEUE) (cfg : lcbvb_CONFIG) (vbucket r : Nat) : Server :=
  cq.pipelines.getD (lcbvb_vbreplica cfg vbucket r).toNat {}

/-- The start time recorded in the request data of a packet (that of the cookie for a
replica read, which the packet does not hold itself). -/
def mc_PACKET.start (pkt : mc_PACKET) : Nat :=
  match pkt.u_rdata with
  | ReqData.reqdata _ start _ => start
  | ReqData.durstore dctx => dctx.start
  | ReqData.rget => 0

/-- The deadline recorded in the request data of a packet. -/
def mc_PACKET.deadline (pkt : mc_PACKET) : Nat :=
  match pkt.u_rdata with
  | ReqData.reqdata _ _ deadline => deadline
  | ReqData.durstore dctx => dctx.deadline
  | ReqData.rget => 0

/-! ## More concrete inputs -/

/-- The environment `testEnv` with an allocator that has no packet left on server 2. -/
def testEnvNoMemory : Env :=
  { testEnv with
    mcreq_allocate_packet := fun pl => if pl.index = 2 then none else some (pl.index + 1) }

/-- The cluster of `testInstance` with replica 0 of the vbucket offline. -/
def testInstanceOffline : lcb_INSTANCE where
  cmdq :=
    { config := some { nrepl := 3, vbuckets := [[0, -1, 2, 3]] },
      pipelines := [{ index := 0 }, { index := 1 }, { index := 2 }, { index := 3 }] }

/-- A replica read of `"k"` from the first replica that answers. -/
def getreplica_first : lcb_CMDGETREPLICA := { key := key_k, strategy := LCB_REPLICA_FIRST }

/-- A replica read of `"k"` from replica 1. -/
def getreplica_select_1 : lcb_CMDGETREPLICA :=
  { key := key_k, strategy := LCB_REPLICA_SELECT, index := 1 }

/-- A successful response with value for key `"k"`. -/
def response_ok : RGetResponse :=
  { err := LCB_SUCCESS, resp := { rc := LCB_SUCCESS, key := key_k, cookie := 7 } }

/-- A failed response (timeout) for key `"k"`. -/
def response_timeout : RGetResponse :=
  { err := LCB_ERR_TIMEOUT, resp := { rc := LCB_ERR_TIMEOUT, key := key_k, cookie := 7 } }


/-- The packet that one iteration of the loop of `lcb_getreplica` builds on pipeline `pl`
once `mcreq_allocate_packet` returned a packet with opaque `opq`. -/
def replica_packet (env : Env) (pl : Server) (cmd : lcb_CMDGETREPLICA)
    (req : protocol_binary_request_header) (opq : Nat) : mc_PACKET :=
  let reserved := env.mcreq_reserve_key pl MCREQ_PKT_BASESIZE cmd.key cmd.cid
  let nkey := reserved.1 - MCREQ_PKT_BASESIZE + reserved.2.1
  { opaque_ := opq, flags := { MCREQ_F_REQEXT := true },
    hdr := { req with keylen := nkey % 65536, bodylen := nkey % 4294967296, opaque_ := opq },
    body := [], key := reserved.2.2, kh_span_size := reserved.1, extlen := reserved.2.1,
    u_rdata := ReqData.rget }


/-- `upsert("k","x")` with a timeout of 1000 microseconds, below the default operation
timeout of the instance (2.5 seconds). -/
def upsert_timeout_1ms : lcb_CMDSTORE :=
  { operation := LCB_STORE_UPSERT, key := key_k, value := value_x, timeout := 1000 }

/-- A replica read of `"k"` from all replicas with a timeout of 1000 microseconds. -/
def getreplica_all_timeout_1ms : lcb_CMDGETREPLICA :=
  { key := key_k, strategy := LCB_REPLICA_ALL, timeout := 1000 }

/-- A cluster like `testInstance` whose server 0 supports JSON and snappy. -/
def testInstanceJson : lcb_INSTANCE where
  cmdq :=
    { config := some { nrepl := 3, vbuckets := [[0, 1, 2, 3]] },
      pipelines := [{ index := 0, supports_json := true, supports_compression := true },
                    { index := 1 }, { index := 2 }, { index := 3 }] }

/-- `upsert("k","x")` of a value flagged as JSON. -/
def upsert_json : lcb_CMDSTORE :=
  { operation := LCB_STORE_UPSERT, key := key_k, value := value_x, datatype := 1 }


/-- Lines 477-483 of `lcb_store`: the options with which the poll criteria are validated. -/
def store_duropts (env : Env) (cmd : lcb_CMDSTORE) : Nat :=
  if cmd.replicate_to = -1 ∨ cmd.persist_to = -1 then env.LCB_DURABILITY_VALIDATE_CAPMAX else 0

/-- Line 485 of `lcb_store`: the call of `lcb_durability_validate` and its answer, the
status and the criteria as the validator left them. -/
def store_durability_answer (env : Env) (inst : lcb_INSTANCE) (cmd : lcb_CMDSTORE) :
    lcb_STATUS × Nat × Nat :=
  env.lcb_durability_validate inst (char_to_U16 cmd.persist_to) (char_to_U16 cmd.replicate_to)
    (store_duropts env cmd)

/-- `replace("k","x")` with poll durability `persist_to = 100`, `replicate_to = 100`. -/
def replace_poll_100 : lcb_CMDSTORE :=
  { operation := LCB_STORE_REPLACE, key := key_k, value := value_x,
    durability_mode := LCB_DURABILITY_POLL, persist_to := 100, replicate_to := 100 }

/-- `replace("k","x")` with poll durability `persist_to = 0`, `replicate_to = 0`. -/
def replace_poll_0 : lcb_CMDSTORE :=
  { operation := LCB_STORE_REPLACE, key := key_k, value := value_x,
    durability_mode := LCB_DURABILITY_POLL, persist_to := 0, replicate_to := 0 }

/-- `replace("k","x")` with poll durability `persist_to = -1`, `replicate_to = -1`. -/
def replace_poll_capmax : lcb_CMDSTORE :=
  { operation := LCB_STORE_REPLACE, key := key_k, value := value_x,
    durability_mode := LCB_DURABILITY_POLL, persist_to := -1, replicate_to := -1 }


/-- Replica `b` is the usable replica of the smallest index greater than `a`: what the
search loop of `rget_callback` looks for, starting from the current replica `a`. -/
def replica_next (cq : mc_CMDQUEUE) (cfg : lcbvb_CONFIG) (vbucket a b : Nat) : Prop :=
  a < b ∧ replica_usable cq cfg vbucket b ∧
    ∀ i, i < b → a < i → ¬ replica_usable cq cfg vbucket i

instance (cq : mc_CMDQUEUE) (cfg : lcbvb_CONFIG) (vbucket a b : Nat) :
    Decidable (replica_next cq cfg vbucket a b) := by
  unfold replica_next
  infer_instance


/-- The cookie that a call left (a default cookie if it left none). -/
def left_cookie (o : Outcome) : RGetCookie := o.rck.getD {}

/-- A cluster with two replicas of which only replica 0 has a server. -/
def testInstanceOneReplica : lcb_INSTANCE where
  cmdq :=
    { config := some { nrepl := 2, vbuckets := [[0, 1, -1]] },
      pipelines := [{ index := 0 }, { index := 1 }, { index := 2 }] }


/-- The reference-count invariant of a replica read: while the cookie exists its counter
`remaining` is the number of packets in flight, which is not zero, and one for the
strategies that send one packet at a time; once the cookie is deleted no packet is in
flight. -/
def refcount_invariant (st : RGetRequest) : Prop :=
  match st.rck with
  | none => st.inflight = []
  | some c =>
    c.remaining = (st.inflight.length : Int) ∧ st.inflight ≠ [] ∧
      (c.strategy ≠ LCB_REPLICA_ALL → st.inflight.length = 1)

instance (st : RGetRequest) : Decidable (refcount_invariant st) := by
  unfold refcount_invariant
  cases st.rck <;> infer_instance


/-! ## store.cc: building a store command -/

/-- The function `lcb_cmdstore_create` of the source: `calloc` leaves every field zero,
then the operation is stored. -/
def lcb_cmdstore_create (operation : lcb_STORE_OPERATION) : lcb_STATUS × lcb_CMDSTORE :=
  (LCB_SUCCESS, { operation := operation })

/-- The function `lcb_cmdstore_clone` of the source (the macro it expands copies the
command with its key and value). -/
def lcb_cmdstore_clone (cmd : lcb_CMDSTORE) : lcb_STATUS × lcb_CMDSTORE :=
  (LCB_SUCCESS, cmd)

/-- The function `lcb_cmdstore_timeout` of the source. -/
def lcb_cmdstore_timeout (cmd : lcb_CMDSTORE) (timeout : Nat) : lcb_STATUS × lcb_CMDSTORE :=
  (LCB_SUCCESS, { cmd with timeout := timeout })

/-- The function `lcb_cmdstore_parent_span` of the source. -/
def lcb_cmdstore_parent_span (cmd : lcb_CMDSTORE) (span : Nat) : lcb_STATUS × lcb_CMDSTORE :=
  (LCB_SUCCESS, { cmd with pspan := span })

/-- The function `lcb_cmdstore_collection` of the source (a name and its length are one
byte string here). -/
def lcb_cmdstore_collection (cmd : lcb_CMDSTORE) (scope collection : List Nat) :
    lcb_STATUS × lcb_CMDSTORE :=
  (LCB_SUCCESS, { cmd with scope := scope, collection := collection })

/-- The function `lcb_cmdstore_key` of the source. -/
def lcb_cmdstore_key (cmd : lcb_CMDSTORE) (key : List Nat) : lcb_STATUS × lcb_CMDSTORE :=
  (LCB_SUCCESS, { cmd with key := key })

/-- The function `lcb_cmdstore_value` of the source. -/
def lcb_cmdstore_value (cmd : lcb_CMDSTORE) (value : List Nat) : lcb_STATUS × lcb_CMDSTORE :=
  (LCB_SUCCESS, { cmd with value := value })

/-- The function `lcb_cmdstore_value_iov` of the source; the record keeps the bytes of
the fragments, one after the other. -/
def lcb_cmdstore_value_iov (cmd : lcb_CMDSTORE) (value : List (List Nat)) :
    lcb_STATUS × lcb_CMDSTORE :=
  (LCB_SUCCESS, { cmd with value := value.flatten })

/-- The function `lcb_cmdstore_expiry` of the source. -/
def lcb_cmdstore_expiry (cmd : lcb_CMDSTORE) (expiration : Nat) : lcb_STATUS × lcb_CMDSTORE :=
  (LCB_SUCCESS, { cmd with exptime := expiration })

/-- The function `lcb_cmdstore_cas` of the source. -/
def lcb_cmdstore_cas (cmd : lcb_CMDSTORE) (cas : Nat) : lcb_STATUS × lcb_CMDSTORE :=
  if cmd.operation = LCB_STORE_UPSERT ∨ cmd.operation = LCB_STORE_INSERT then
    (LCB_ERR_INVALID_ARGUMENT, cmd)
  else
    (LCB_SUCCESS, { cmd with cas := cas })

/-- The function `lcb_cmdstore_flags` of the source. -/
def lcb_cmdstore_flags (cmd : lcb_CMDSTORE) (flags : Nat) : lcb_STATUS × lcb_CMDSTORE :=
  (LCB_SUCCESS, { cmd with flags := flags })

/-- The function `lcb_cmdstore_datatype` of the source. -/
def lcb_cmdstore_datatype (cmd : lcb_CMDSTORE) (datatype : Nat) : lcb_STATUS × lcb_CMDSTORE :=
  (LCB_SUCCESS, { cmd with datatype := datatype })

/-- The function `lcb_cmdstore_durability` of the source. -/
def lcb_cmdstore_durability (cmd : lcb_CMDSTORE) (level : Nat) : lcb_STATUS × lcb_CMDSTORE :=
  (LCB_SUCCESS, { cmd with durability_mode := LCB_DURABILITY_SYNC, dur_level := level })

/-- The function `lcb_cmdstore_durability_observe` of the source; the `int` arguments are
stored in fields of type `char`. -/
def lcb_cmdstore_durability_observe (cmd : lcb_CMDSTORE) (persist_to replicate_to : Int) :
    lcb_STATUS × lcb_CMDSTORE :=
  (LCB_SUCCESS, { cmd with durability_mode := LCB_DURABILITY_POLL,
                           persist_to := Int.bmod persist_to 256,
                           replicate_to := Int.bmod replicate_to 256 })

/-- One call of a function of the `lcb_cmdstore_*` family on a command, with its
arguments. -/
inductive cmdstore_call where
  | clone
  | timeout (timeout : Nat)
  | parent_span (span : Nat)
  | collection (scope collection : List Nat)
  | key (key : List Nat)
  | value (value : List Nat)
  | value_iov (value : List (List Nat))
  | expiry (expiration : Nat)
  | cas (cas : Nat)
  | flags (flags : Nat)
  | datatype (datatype : Nat)
  | durability (level : Nat)
  | durability_observe (persist_to replicate_to : Int)
  deriving DecidableEq, Repr, Inhabited

/-- The status that a call returns and the command it leaves. -/
def cmdstore_apply (cmd : lcb_CMDSTORE) : cmdstore_call → lcb_STATUS × lcb_CMDSTORE
  | cmdstore_call.clone => lcb_cmdstore_clone cmd
  | cmdstore_call.timeout t => lcb_cmdstore_timeout cmd t
  | cmdstore_call.parent_span s => lcb_cmdstore_parent_span cmd s
  | cmdstore_call.collection s c => lcb_cmdstore_collection cmd s c
  | cmdstore_call.key k => lcb_cmdstore_key cmd k
  | cmdstore_call.value v => lcb_cmdstore_value cmd v
  | cmdstore_call.value_iov v => lcb_cmdstore_value_iov cmd v
  | cmdstore_call.expiry e => lcb_cmdstore_expiry cmd e
  | cmdstore_call.cas c => lcb_cmdstore_cas cmd c
  | cmdstore_call.flags f => lcb_cmdstore_flags cmd f
  | cmdstore_call.datatype d => lcb_cmdstore_datatype cmd d
  | cmdstore_call.durability l => lcb_cmdstore_durability cmd l
  | cmdstore_call.durability_observe p r => lcb_cmdstore_durability_observe cmd p r

/-- The command that `lcb_cmdstore_create` followed by a sequence of calls leaves. -/
def cmdstore_build (operation : lcb_STORE_OPERATION) (calls : List cmdstore_call) :
    lcb_CMDSTORE :=
  calls.foldl (fun cmd call => (cmdstore_apply cmd call).2) (lcb_cmdstore_create operation).2


/-! ## store.cc: the completion of a store with poll durability -/

/-- A mutation token. -/
structure lcb_MUTATION_TOKEN where
  uuid_ : Nat := 0
  seqno_ : Nat := 0
  vbid_ : Nat := 0
  deriving DecidableEq, Repr, Inhabited

/-- The function `lcb_mutation_token_is_valid` of the source (`none` is the null
pointer); the macro `LCB_MUTATION_TOKEN_ISVALID` makes the same test. -/
def lcb_mutation_token_is_valid (token : Option lcb_MUTATION_TOKEN) : Bool :=
  match token with
  | none => false
  | some token => !(token.uuid_ = 0 ∧ token.seqno_ = 0 ∧ token.vbid_ = 0)

/-- The fields of `lcb_RESPSTORE` that `handle_dur_storecb` reads and writes. `dur_resp`
tells whether a durability response is attached (`dur_resp != nullptr`). -/
structure lcb_RESPSTORE where
  rc : lcb_STATUS := LCB_SUCCESS
  key : List Nat := []
  cas : Nat := 0
  cookie : Nat := 0
  mt : lcb_MUTATION_TOKEN := {}
  store_ok : Nat := 0
  dur_resp : Bool := false
  deriving DecidableEq, Repr, Inhabited

/-- The fields of `lcb_CMDENDURE` that `handle_dur_storecb` fills in. -/
structure lcb_CMDENDURE where
  key : List Nat := []
  cas : Nat := 0
  mutation_token : Option lcb_MUTATION_TOKEN := none
  deriving DecidableEq, Repr, Inhabited

/-- One effect of `handle_dur_storecb`, in program order. -/
inductive DurStoreEvent where
  | endure_ctxnew (persist_to replicate_to : Nat)
  | setspan
  | set_durstore
  | add_endure (dcmd : lcb_CMDENDURE)
  | fail
  | sched_enter
  | done (cookie : Nat)
  | sched_leave
  | callback_store (resp : lcb_RESPSTORE)
  | dctx_deleted
  deriving DecidableEq, Repr, Inhabited

/-- The durability poll that `handle_dur_storecb` starts; it is defined in files that
are not among the translated sources. -/
structure EndureEnv where
  /-- Creates the poll context for the criteria: whether the returned pointer is
  non-null, and the value that the call leaves in `err` (which is `SUCCESS` before). -/
  lcb_endure3_ctxnew : lcb_INSTANCE → Nat → Nat → Bool × lcb_STATUS
  /-- The method `add_endure` of the context. -/
  add_endure : lcb_CMDENDURE → lcb_STATUS
  /-- The method `done` of the context, with the cookie. -/
  done : Nat → lcb_STATUS

/-- The block `GT_BAIL` of `handle_dur_storecb`: the user's store callback gets a
response with the key and cookie of the store response, the error, the `store_ok` set so
far and a durability response attached; then the context is deleted. -/
def dur_storecb_bail (store_ok : Nat) (err : lcb_STATUS) (sresp : lcb_RESPSTORE) :
    List DurStoreEvent :=
  [DurStoreEvent.callback_store
     { rc := err, key := sresp.key, cookie := sresp.cookie, store_ok := store_ok,
       dur_resp := true },
   DurStoreEvent.dctx_deleted]

/-- The function `handle_dur_storecb` of the source. `span` tells whether the request
data of the packet holds a span, `dctx` is the context the packet points to, `sresp`
the store response. -/
def handle_dur_storecb (eenv : EndureEnv) (inst : lcb_INSTANCE) (span : Bool)
    (dctx : DurStoreCtx) (err : lcb_STATUS) (sresp : lcb_RESPSTORE) : List DurStoreEvent :=
  if err ≠ LCB_SUCCESS then
    dur_storecb_bail 0 err sresp
  else if sresp.rc ≠ LCB_SUCCESS then
    dur_storecb_bail 0 sresp.rc sresp
  else
    let dcmd : lcb_CMDENDURE :=
      { key := sresp.key, cas := sresp.cas,
        mutation_token := if lcb_mutation_token_is_valid (some sresp.mt) then some sresp.mt
          else none }
    let t0 := [DurStoreEvent.endure_ctxnew dctx.persist_to dctx.replicate_to]
    match eenv.lcb_endure3_ctxnew inst dctx.persist_to dctx.replicate_to with
    | (false, err1) => t0 ++ dur_storecb_bail 1 err1 sresp
    | (true, _) =>
      let t1 := t0 ++ (if span then [DurStoreEvent.setspan] else []) ++
        [DurStoreEvent.set_durstore, DurStoreEvent.add_endure dcmd]
      let err2 := eenv.add_endure dcmd
      if err2 ≠ LCB_SUCCESS then
        t1 ++ [DurStoreEvent.fail] ++ dur_storecb_bail 1 err2 sresp
      else
        let t2 := t1 ++ [DurStoreEvent.sched_enter, DurStoreEvent.done sresp.cookie,
          DurStoreEvent.sched_leave]
        let err3 := eenv.done sresp.cookie
        if err3 = LCB_SUCCESS then
          t2 ++ [DurStoreEvent.dctx_deleted]
        else
          t2 ++ dur_storecb_bail 1 err3 sresp

/-- The responses that a trace of `handle_dur_storecb` delivered to the user's store
callback. -/
def durstore_callbacks (trace : List DurStoreEvent) : List lcb_RESPSTORE :=
  trace.filterMap (fun e => match e with
    | DurStoreEvent.callback_store resp => some resp
    | _ => none)

/-- Whether the durability poll is started for a store response: the context is created,
the key is added and `done` succeeds. -/
def endure_started (eenv : EndureEnv) (inst : lcb_INSTANCE) (dctx : DurStoreCtx)
    (sresp : lcb_RESPSTORE) : Bool :=
  (eenv.lcb_endure3_ctxnew inst dctx.persist_to dctx.replicate_to).1 &&
  decide (eenv.add_endure
    { key := sresp.key, cas := sresp.cas,
      mutation_token := if lcb_mutation_token_is_valid (some sresp.mt) then some sresp.mt
        else none } = LCB_SUCCESS) &&
  decide (eenv.done sresp.cookie = LCB_SUCCESS)

/-- The error of a durability poll that is not started: what `lcb_endure3_ctxnew` left in
`err` when it returned no context, else the status of `add_endure` when it failed, else
the status of `done`. -/
def endure_error (eenv : EndureEnv) (inst : lcb_INSTANCE) (dctx : DurStoreCtx)
    (sresp : lcb_RESPSTORE) : lcb_STATUS :=
  if (eenv.lcb_endure3_ctxnew inst dctx.persist_to dctx.replicate_to).1 = false then
    (eenv.lcb_endure3_ctxnew inst dctx.persist_to dctx.replicate_to).2
  else if eenv.add_endure
      { key := sresp.key, cas := sresp.cas,
        mutation_token := if lcb_mutation_token_is_valid (some sresp.mt) then some sresp.mt
          else none } ≠ LCB_SUCCESS then
    eenv.add_endure
      { key := sresp.key, cas := sresp.cas,
        mutation_token := if lcb_mutation_token_is_valid (some sresp.mt) then some sresp.mt
          else none }
  else eenv.done sresp.cookie

/-- A poll environment in which `done` times out for cookie 9, and everything else
succeeds. -/
def testEndureEnv : EndureEnv where
  lcb_endure3_ctxnew := fun _ _ _ => (true, LCB_SUCCESS)
  add_endure := fun _ => LCB_SUCCESS
  done := fun cookie => if cookie = 9 then LCB_ERR_TIMEOUT else LCB_SUCCESS

/-- The context of a store that asks for persistence on one node. -/
def testDurStoreCtx : DurStoreCtx := { cookie := 7, persist_to := 1, replicate_to := 0 }


/-- The responses that a trace delivered to the user's get callback. -/
def events_get_callbacks (trace : List Event) : List lcb_RESP :=
  trace.filterMap (fun e => match e with
    | Event.callback_get resp => some resp
    | _ => none)

/-- An instance that has no cluster map yet. -/
def testInstanceNoConfig : lcb_INSTANCE := {}


/-! ## analytics.cc

The analytics request of `src/analytics/analytics.cc`: the handling of the chunks of
its HTTP response, of the rows its parser finds, its retry test and its destruction.
The file uses the status type `lcb_error_t` of the older interface. -/

/-- The status codes of `lcb_error_t` that `analytics.cc` names; `other code` stands for
every other code, none of which is `LCB_SUCCESS` (which is zero). -/
inductive lcb_error_t where
  | LCB_SUCCESS
  | LCB_EINVAL
  | LCB_HTTP_ERROR
  | LCB_PROTOCOL_ERROR
  | LCB_CLIENT_ENOMEM
  | other (code : Nat)
  deriving DecidableEq, Repr, Inhabited

/-- The JSON library (`Json::Value`, `Json::Reader`, `Json::FastWriter`), which is not
among the translated sources, over the type `J` of its values: each field is the method
of that name. -/
structure JsonApi (J : Type) where
  /-- `Json::Reader().parse`: `none` when it returns false. -/
  parse : List Nat → Option J
  isObject : J → Bool
  isArray : J → Bool
  isNumeric : J → Bool
  isString : J → Bool
  isNull : J → Bool
  /-- `operator[]` with a member name. -/
  member : J → String → J
  /-- The elements that the iteration from `begin()` to `end()` visits, in order. -/
  elements : J → List J
  asUInt : J → Nat

/-- The fields of an HTTP response chunk (`lcb_RESPHTTP`) that `chunk_callback` reads. -/
structure lcb_RESPHTTP where
  rc : lcb_error_t := lcb_error_t.LCB_SUCCESS
  htstatus : Nat := 0
  rflags_FINAL : Bool := false
  body : List Nat := []
  deriving DecidableEq, Repr, Inhabited

/-- The response handed to the user's analytics callback (`lcb_RESPANALYTICS`); the two
booleans are the bits `LCB_RESP_F_FINAL` and `LCB_RESP_F_EXTDATA` of `rflags`. -/
structure lcb_RESPANALYTICS where
  rc : lcb_error_t := lcb_error_t.LCB_SUCCESS
  cookie : Nat := 0
  rflags_FINAL : Bool := false
  rflags_EXTDATA : Bool := false
  row : List Nat := []
  htresp : Option lcb_RESPHTTP := none
  deriving DecidableEq, Repr, Inhabited

/-- The row parser of a request (`lcb::jsparse::Parser`, not among the translated
sources), as far as the request can tell: its mode and the bytes fed to it so far. -/
structure jsparse_Parser where
  analytics_deferred : Bool := false
  fed : List Nat := []
  deriving DecidableEq, Repr, Inhabited

/-- What the parser reports to the request while it is fed (`Parser::Actions`). -/
inductive jsparse_Action where
  | on_row (row : List Nat)
  | on_error
  | on_complete
  deriving DecidableEq, Repr, Inhabited

/-- The state of an analytics request (`struct lcb_ANALYTICSREQ`). `htreq` and `callback`
tell whether the pointer is non-null. The request body, the statement and the timeout
are handed to the HTTP layer and are not read by the functions translated here. -/
structure lcb_ANALYTICSREQ where
  cur_htresp : Option lcb_RESPHTTP := none
  htreq : Bool := false
  parser : jsparse_Parser := {}
  cookie : Nat := 0
  callback : Bool := false
  lasterr : lcb_error_t := lcb_error_t.LCB_SUCCESS
  nrows : Nat := 0
  was_retried : Bool := false
  deferred_handle : List Nat := []
  deriving DecidableEq, Repr, Inhabited

/-- One effect of the request on the user and on the HTTP layer, in program order. -/
inductive AnalyticsEvent where
  | callback (resp : lcb_RESPANALYTICS)
  | cancel_http_request
  | destroyed
  deriving DecidableEq, Repr, Inhabited

/-- The code that `analytics.cc` calls and does not contain. -/
structure AnalyticsEnv (J : Type) where
  json : JsonApi J
  /-- The actions that `Parser::feed` reports, in order, for a parser and a chunk. -/
  jsparse_feed : jsparse_Parser → List Nat → List jsparse_Action
  /-- `Parser::get_postmortem`: the response without its rows. -/
  get_postmortem : jsparse_Parser → List Nat
  /-- Whether the user's callback, given this response, calls `lcb_analytics_cancel` on
  the handle of the request. -/
  user_cancels : lcb_RESPANALYTICS → Bool
  /-- The status of `lcb_http3` for the request. -/
  lcb_http3 : lcb_ANALYTICSREQ → lcb_error_t

/-- The function `parse_json` of the source. -/
def parse_json {J : Type} (js : JsonApi J) (s : List Nat) : Option J := js.parse s

/-- The loop of `has_retriable_error` over the elements of `errors`. -/
def has_retriable_error_loop {J : Type} (js : JsonApi J) : List J → Bool
  | [] => false
  | cur :: rest =>
    if js.isObject cur = false then
      has_retriable_error_loop js rest
    else
      let jcode := js.member cur "code"
      if js.isNumeric jcode then
        let code := js.asUInt jcode
        if code = 23000 ∨ code = 23003 ∨ code = 23007 then true
        else has_retriable_error_loop js rest
      else has_retriable_error_loop js rest

/-- The method `has_retriable_error` of the source. -/
def has_retriable_error {J : Type} (js : JsonApi J) (root : J) : Bool :=
  if js.isObject root = false then
    false
  else
    let errors := js.member root "errors"
    if js.isArray errors = false then
      false
    else
      has_retriable_error_loop js (js.elements errors)

/-- The method `maybe_retry` of the source: its result and the request as it leaves
it. -/
def maybe_retry {J : Type} (env : AnalyticsEnv J) (req : lcb_ANALYTICSREQ) :
    Bool × lcb_ANALYTICSREQ :=
  if req.callback = false then
    (false, req)
  else if req.nrows ≠ 0 then
    (false, req)
  else if req.was_retried then
    (false, req)
  else
    let req1 := { req with was_retried := true }
    let meta := env.get_postmortem req1.parser
    match parse_json env.json meta with
    | none => (false, req1)
    | some root =>
      if has_retriable_error env.json root then (true, req1) else (false, req1)

/-- The method `invoke_row` of the source: the request as it leaves it and its effects.
While the user's callback runs it may cancel the request, which clears `callback`. -/
def invoke_row {J : Type} (env : AnalyticsEnv J) (req : lcb_ANALYTICSREQ)
    (resp : lcb_RESPANALYTICS) (is_last : Bool) : lcb_ANALYTICSREQ × List AnalyticsEvent :=
  let resp1 := { resp with cookie := req.cookie, htresp := req.cur_htresp }
  let resp2 :=
    if is_last then
      { resp1 with rflags_FINAL := true, rc := req.lasterr,
                   row := env.get_postmortem req.parser,
                   rflags_EXTDATA := if req.deferred_handle ≠ [] then true
                     else resp1.rflags_EXTDATA }
    else resp1
  let called : lcb_ANALYTICSREQ × List AnalyticsEvent :=
    if req.callback then
      ({ req with callback := !env.user_cancels resp2 }, [AnalyticsEvent.callback resp2])
    else (req, [])
  if is_last then ({ called.1 with callback := false }, called.2) else called

/-- The parser override `JSPARSE_on_row` of the source. -/
def JSPARSE_on_row {J : Type} (env : AnalyticsEnv J) (req : lcb_ANALYTICSREQ)
    (row : List Nat) : lcb_ANALYTICSREQ × List AnalyticsEvent :=
  let resp : lcb_RESPANALYTICS := { row := row }
  invoke_row env { req with nrows := req.nrows + 1 } resp false

/-- The parser override `JSPARSE_on_error` of the source. -/
def JSPARSE_on_error (req : lcb_ANALYTICSREQ) : lcb_ANALYTICSREQ :=
  { req with lasterr := lcb_error_t.LCB_PROTOCOL_ERROR }

/-- The parser override `JSPARSE_on_complete` of the source. -/
def JSPARSE_on_complete (req : lcb_ANALYTICSREQ) : lcb_ANALYTICSREQ := req


/-- The destructor of `lcb_ANALYTICSREQ`: its effects, ending with the destruction of the
object (the tracing span and the parser go with it). -/
def lcb_ANALYTICSREQ_dtor {J : Type} (env : AnalyticsEnv J) (req : lcb_ANALYTICSREQ) :
    List AnalyticsEvent :=
  let t1 := if req.htreq then [AnalyticsEvent.cancel_http_request] else []
  let req1 := { req with htreq := false }
  let t2 := if req1.callback then (invoke_row env req1 {} true).2 else []
  t1 ++ t2 ++ [AnalyticsEvent.destroyed]

/-- The calls that `Parser::feed` makes on the request, one action after the other. -/
def jsparse_dispatch {J : Type} (env : AnalyticsEnv J) :
    lcb_ANALYTICSREQ → List jsparse_Action → lcb_ANALYTICSREQ × List AnalyticsEvent
  | req, [] => (req, [])
  | req, jsparse_Action.on_row row :: rest =>
    let step := JSPARSE_on_row env req row
    let run := jsparse_dispatch env step.1 rest
    (run.1, step.2 ++ run.2)
  | req, jsparse_Action.on_error :: rest => jsparse_dispatch env (JSPARSE_on_error req) rest
  | req, jsparse_Action.on_complete :: rest =>
    jsparse_dispatch env (JSPARSE_on_complete req) rest

/-- The call `req->parser->feed(body, nbody)`: the parser has the bytes, and its actions
run on the request. -/
def jsparse_feed {J : Type} (env : AnalyticsEnv J) (req : lcb_ANALYTICSREQ)
    (body : List Nat) : lcb_ANALYTICSREQ × List AnalyticsEvent :=
  let actions := env.jsparse_feed req.parser body
  jsparse_dispatch env { req with parser := { req.parser with fed := req.parser.fed ++ body } }
    actions

/-- The first statements of `chunk_callback`: the chunk becomes the current HTTP
response of the request and its status is recorded in `lasterr`. -/
def chunk_callback_status (req : lcb_ANALYTICSREQ) (rh : lcb_RESPHTTP) : lcb_ANALYTICSREQ :=
  let req1 := { req with cur_htresp := some rh }
  if rh.rc ≠ lcb_error_t.LCB_SUCCESS ∨ rh.htstatus ≠ 200 then
    if req1.lasterr = lcb_error_t.LCB_SUCCESS ∨ rh.htstatus ≠ 200 then
      { req1 with lasterr :=
          if rh.rc ≠ lcb_error_t.LCB_SUCCESS then rh.rc else lcb_error_t.LCB_HTTP_ERROR }
    else req1
  else req1

/-- The function `chunk_callback` of the source: the request as it leaves it (`none`
once deleted) and its effects. -/
def chunk_callback {J : Type} (env : AnalyticsEnv J) (req : lcb_ANALYTICSREQ)
    (rh : lcb_RESPHTTP) : Option lcb_ANALYTICSREQ × List AnalyticsEvent :=
  let req2 := chunk_callback_status req rh
  if rh.rflags_FINAL then
    let req3 := { req2 with htreq := false }
    let retry := maybe_retry env req3
    if retry.1 = false then (none, lcb_ANALYTICSREQ_dtor env retry.2)
    else (some retry.2, [])
  else if req2.callback = false then
    (none, lcb_ANALYTICSREQ_dtor env req2)
  else
    let fed := jsparse_feed env req2 rh.body
    (some fed.1, fed.2)

/-- The function `lcb_analytics_cancel` of the source. -/
def lcb_analytics_cancel (handle : lcb_ANALYTICSREQ) : lcb_ANALYTICSREQ :=
  { handle with callback := false }

/-- The fields of `lcb_CMDANALYTICS` that `lcb_analytics_query` reads: the JSON text that
`encode` produces from `root`, and whether `callback` is non-null. -/
structure lcb_CMDANALYTICS where
  encoded : List Nat := []
  callback : Bool := false
  deriving DecidableEq, Repr, Inhabited

/-- The constructor of `lcb_ANALYTICSREQ` from a command: the new request, with `lasterr`
set when the body of the command is not acceptable. -/
def lcb_ANALYTICSREQ_new {J : Type} (env : AnalyticsEnv J) (user_cookie : Nat)
    (cmd : lcb_CMDANALYTICS) : lcb_ANALYTICSREQ :=
  let req : lcb_ANALYTICSREQ :=
    { cur_htresp := none, htreq := false, parser := { analytics_deferred := false },
      cookie := user_cookie, callback := cmd.callback,
      lasterr := lcb_error_t.LCB_SUCCESS, nrows := 0, was_retried := false,
      deferred_handle := [] }
  match parse_json env.json cmd.encoded with
  | none => { req with lasterr := lcb_error_t.LCB_EINVAL }
  | some json =>
    let j_statement := env.json.member json "statement"
    if env.json.isString j_statement = false ∧ env.json.isNull j_statement = false then
      { req with lasterr := lcb_error_t.LCB_EINVAL }
    else
      let tmoval := env.json.member json "timeout"
      if env.json.isNull tmoval then req
      else if env.json.isString tmoval then req
      else { req with lasterr := lcb_error_t.LCB_EINVAL }

/-- The function `lcb_analytics_query` of the source: the status it returns, the request
it leaves (`none` when it destroyed it or made none) and its effects. On success
`lcb_http3` has stored the handle of the HTTP request in `htreq`. -/
def lcb_analytics_query {J : Type} (env : AnalyticsEnv J) (cookie : Nat)
    (cmd : lcb_CMDANALYTICS) :
    lcb_error_t × Option lcb_ANALYTICSREQ × List AnalyticsEvent :=
  if cmd.callback = false then
    (lcb_error_t.LCB_EINVAL, none, [])
  else
    let req := lcb_ANALYTICSREQ_new env cookie cmd
    if req.lasterr ≠ lcb_error_t.LCB_SUCCESS then
      (req.lasterr, none, lcb_ANALYTICSREQ_dtor env { req with callback := false })
    else
      let err := env.lcb_http3 req
      if err ≠ lcb_error_t.LCB_SUCCESS then
        (err, none, lcb_ANALYTICSREQ_dtor env { req with callback := false })
      else
        (lcb_error_t.LCB_SUCCESS, some { req with htreq := true }, [])

/-! ## An analytics request over time -/

/-- What happens to a request from outside: a chunk of its HTTP response arrives, or the
user cancels it. -/
inductive AnalyticsInput where
  | chunk (rh : lcb_RESPHTTP)
  | cancel
  deriving DecidableEq, Repr, Inhabited

/-- One input: a chunk runs `chunk_callback`, a cancellation `lcb_analytics_cancel`; a
request that is destroyed receives nothing more. -/
def analytics_step {J : Type} (env : AnalyticsEnv J) (st : Option lcb_ANALYTICSREQ)
    (input : AnalyticsInput) : Option lcb_ANALYTICSREQ × List AnalyticsEvent :=
  match st with
  | none => (none, [])
  | some req =>
    match input with
    | AnalyticsInput.chunk rh => chunk_callback env req rh
    | AnalyticsInput.cancel => (some (lcb_analytics_cancel req), [])

/-- A sequence of inputs, one after the other. -/
def analytics_run {J : Type} (env : AnalyticsEnv J) :
    Option lcb_ANALYTICSREQ → List AnalyticsInput →
      Option lcb_ANALYTICSREQ × List AnalyticsEvent
  | st, [] => (st, [])
  | st, input :: rest =>
    let step := analytics_step env st input
    let run := analytics_run env step.1 rest
    (run.1, step.2 ++ run.2)

/-- The responses that a trace delivered to the user's analytics callback. -/
def analytics_callbacks (trace : List AnalyticsEvent) : List lcb_RESPANALYTICS :=
  trace.filterMap (fun e => match e with
    | AnalyticsEvent.callback resp => some resp
    | _ => none)


/-- A request has used up its retry test: it is cancelled, has rows, or was examined
before. In each case `maybe_retry` returns false. -/
def retry_spent (req : lcb_ANALYTICSREQ) : Prop :=
  req.callback = false ∨ req.nrows ≠ 0 ∨ req.was_retried = true

instance (req : lcb_ANALYTICSREQ) : Decidable (retry_spent req) := by
  unfold retry_spent
  infer_instance

/-! ## A concrete analytics environment -/

/-- JSON values for the concrete environment. -/
inductive TestJson where
  | null
  | number (n : Nat)
  | string (s : List Nat)
  | array (xs : List TestJson)
  | object (members : List (String × TestJson))

/-- The response text `{"errors":[{"code":23000}]}`. -/
def test_meta_stale : List Nat :=
  [123, 34, 101, 114, 114, 111, 114, 115, 34, 58, 91, 123, 34, 99, 111, 100, 101, 34, 58,
   50, 51, 48, 48, 48, 125, 93, 125]

/-- The response text `{"status":"success"}`. -/
def test_meta_success : List Nat :=
  [123, 34, 115, 116, 97, 116, 117, 115, 34, 58, 34, 115, 117, 99, 99, 101, 115, 115, 34,
   125]

/-- The row text `{"id":1}`. -/
def test_row : List Nat := [123, 34, 105, 100, 34, 58, 49, 125]

/-- A JSON library that reads the two response texts above and nothing else. -/
def testJsonApi : JsonApi TestJson where
  parse := fun s =>
    if s = test_meta_stale then
      some (TestJson.object
        [("errors", TestJson.array [TestJson.object [("code", TestJson.number 23000)]])])
    else if s = test_meta_success then
      some (TestJson.object [("status", TestJson.string [115, 117, 99, 99, 101, 115, 115])])
    else none
  isObject := fun v => match v with
    | TestJson.object _ => true
    | _ => false
  isArray := fun v => match v with
    | TestJson.array _ => true
    | _ => false
  isNumeric := fun v => match v with
    | TestJson.number _ => true
    | _ => false
  isString := fun v => match v with
    | TestJson.string _ => true
    | _ => false
  isNull := fun v => match v with
    | TestJson.null => true
    | _ => false
  member := fun v k => match v with
    | TestJson.object members => (members.lookup k).getD TestJson.null
    | _ => TestJson.null
  elements := fun v => match v with
    | TestJson.array xs => xs
    | _ => []
  asUInt := fun v => match v with
    | TestJson.number n => n
    | _ => 0

/-- A concrete environment: the parser reports a chunk that is the row text as one row,
its postmortem is all that it was fed, the user never cancels from within the callback,
and the HTTP request is always accepted. -/
def testAnalyticsEnv : AnalyticsEnv TestJson where
  json := testJsonApi
  jsparse_feed := fun _ body => if body = test_row then [jsparse_Action.on_row body] else []
  get_postmortem := fun p => p.fed
  user_cancels := fun _ => false
  lcb_http3 := fun _ => lcb_error_t.LCB_SUCCESS

/-- An analytics command with a callback and the body `{"status":"success"}` (which has
neither statement nor timeout). -/
def test_cmd_analytics : lcb_CMDANALYTICS := { encoded := test_meta_success, callback := true }

/-- The request that `lcb_analytics_query` leaves for `test_cmd_analytics` (a default
request if it left none). -/
def test_analytics_request : lcb_ANALYTICSREQ :=
  (lcb_analytics_query testAnalyticsEnv 7 test_cmd_analytics).2.1.getD {}

/-- A chunk of a response with status 200. -/
def test_chunk (body : List Nat) : lcb_RESPHTTP := { htstatus := 200, body := body }

/-- The final chunk of a response with status 200; it has no body. -/
def test_chunk_final : lcb_RESPHTTP := { htstatus := 200, rflags_FINAL := true }


/-- A chunk of a response with HTTP status 503. -/
def test_chunk_503 (body : List Nat) : lcb_RESPHTTP := { htstatus := 503, body := body }

/-- The final chunk of a response with HTTP status 503; it has no body. -/
def test_chunk_503_final : lcb_RESPHTTP := { htstatus := 503, rflags_FINAL := true }


/-! ## cbc-proxy.cc: the read callback of a client connection

The function `conn_readcb` of `src/tools/cbc-proxy.cc`. The input buffer of the
connection is a list of bytes; the packet that the function copies out of it is the list
of its first `pktlen` bytes, and a read at an offset past its end reads the memory
behind the allocation. -/

/-- The opcode `VERSION` of the binary protocol (the declaring header,
`memcached/protocol_binary.h`, is not among the translated sources). -/
def PROTOCOL_BINARY_CMD_VERSION : Nat := 0x0b

/-- The opcode `STAT` of the binary protocol (declaration missing). -/
def PROTOCOL_BINARY_CMD_STAT : Nat := 0x10

/-- Modelled from the spec: the response magic, `RES=0x81` (declaration missing). -/
def PROTOCOL_BINARY_RES : Nat := 0x81

/-- The value of a 16-bit field whose two bytes lie in memory in this order, as the host
reads it. -/
def load_u16 (little_endian : Bool) (b0 b1 : Nat) : Nat :=
  if little_endian then b0 + 256 * b1 else 256 * b0 + b1

/-- The value of a 32-bit field whose four bytes lie in memory in this order, as the host
reads it. -/
def load_u32 (little_endian : Bool) (b0 b1 b2 b3 : Nat) : Nat :=
  if little_endian then b0 + 256 * b1 + 65536 * b2 + 16777216 * b3
  else 16777216 * b0 + 65536 * b1 + 256 * b2 + b3

/-- The function `ntohs` of the platform on a 16-bit value: the two bytes are swapped on a
little-endian host and kept on a big-endian one. -/
def ntohs (little_endian : Bool) (x : Nat) : Nat :=
  if little_endian then x % 256 * 256 + x / 256 % 256 else x % 65536

/-- The function `ntohl` of the platform on a 32-bit value. -/
def ntohl (little_endian : Bool) (x : Nat) : Nat :=
  if little_endian then
    x % 256 * 16777216 + x / 256 % 256 * 65536 + x / 65536 % 256 * 256 + x / 16777216 % 256
  else x % 4294967296

/-- The text `query ` (6 bytes) that `conn_readcb` compares the key with. -/
def stat_query : List Nat := [113, 117, 101, 114, 121, 32]

/-- The text `search ` (7 bytes) that `conn_readcb` compares the key with. -/
def stat_search : List Nat := [115, 101, 97, 114, 99, 104, 32]

/-- One effect of `conn_readcb`, in program order. `read offset length` is a read of
`length` bytes at `offset` from the start of the packet (by `memcmp`, or of the bytes
handed on as statement or payload). -/
inductive ProxyEvent where
  | sched_enter
  | sched_leave
  | output (bytes : List Nat)
  | read (offset length : Nat)
  | cmdquery_statement (statement : List Nat) (rc : lcb_STATUS)
  | query (statement : List Nat) (rc : lcb_STATUS)
  | search (payload : List Nat) (rc : lcb_STATUS)
  | pktfwd (bytes : List Nat) (rc : lcb_STATUS)
  | exit_failure
  deriving DecidableEq, Repr, Inhabited

/-- What `conn_readcb` uses and `cbc-proxy.cc` does not define: the byte order of the
host, the allocator, the memory behind an allocation, the version string, and the
library calls it makes. -/
structure ProxyEnv where
  little_endian : Bool
  /-- Whether `malloc` returns the null pointer for this size. -/
  malloc_fails : Nat → Bool
  /-- The byte that lies at this offset from the start of the packet, for an offset past
  the end of the allocation. -/
  heap_after : Nat → Nat
  /-- The array `app_version`, with its terminating zero byte. -/
  app_version : List Nat
  lcb_cmdquery_statement : List Nat → lcb_STATUS
  lcb_query : List Nat → lcb_STATUS
  lcb_search : List Nat → lcb_STATUS
  lcb_pktfwd3 : List Nat → lcb_STATUS

/-- The `length` bytes of memory at `offset` from the start of the packet. -/
def pkt_read (env : ProxyEnv) (pkt : List Nat) (offset length : Nat) : List Nat :=
  (List.range length).map (fun i => pkt.getD (offset + i) (env.heap_after (offset + i)))

/-- The blocks `FWD` and `DONE` of `conn_readcb`: the packet is forwarded, and the
process exits when that fails; otherwise the scheduling context is left. -/
def conn_readcb_fwd (env : ProxyEnv) (pkt : List Nat) : List ProxyEvent :=
  let rc := env.lcb_pktfwd3 pkt
  if rc ≠ LCB_SUCCESS then [ProxyEvent.pktfwd pkt rc, ProxyEvent.exit_failure]
  else [ProxyEvent.pktfwd pkt rc, ProxyEvent.sched_leave]

/-- The case `PROTOCOL_BINARY_CMD_VERSION` of the switch of `conn_readcb`: a response
header and the version string are written to the client, and the function returns. -/
def conn_readcb_version (env : ProxyEnv) : List ProxyEvent :=
  let hdr : List Nat :=
    [PROTOCOL_BINARY_RES, PROTOCOL_BINARY_CMD_VERSION, 0, 0, 0, 0, 0, 0]
      ++ htonl env.app_version.length ++ List.replicate 12 0
  [ProxyEvent.output hdr, ProxyEvent.output env.app_version]

/-- The case `PROTOCOL_BINARY_CMD_STAT` of the switch of `conn_readcb`, with what follows
it. `header` holds the 24 bytes copied out of the input. The length handed to
`lcb_cmdsearch_payload` is `keylen - 7` converted to `size_t`. -/
def conn_readcb_stat (env : ProxyEnv) (header pkt : List Nat) : List ProxyEvent :=
  let extlen := ntohs env.little_endian (header.getD 4 0) % 256
  let keylen := ntohs env.little_endian
    (load_u16 env.little_endian (header.getD 2 0) (header.getD 3 0))
  if keylen < 6 then
    conn_readcb_fwd env pkt
  else
    let key := 24 + extlen
    if pkt_read env pkt key 6 = stat_query then
      let statement := pkt_read env pkt (key + 6) (keylen - 6)
      let rc := env.lcb_cmdquery_statement statement
      let t := [ProxyEvent.read key 6, ProxyEvent.read (key + 6) (keylen - 6),
        ProxyEvent.cmdquery_statement statement rc]
      if rc ≠ LCB_SUCCESS then
        t ++ conn_readcb_fwd env pkt
      else
        let rc2 := env.lcb_query statement
        if rc2 ≠ LCB_SUCCESS then
          t ++ [ProxyEvent.query statement rc2] ++ conn_readcb_fwd env pkt
        else
          t ++ [ProxyEvent.query statement rc2, ProxyEvent.sched_leave]
    else if pkt_read env pkt key 7 = stat_search then
      let payload_len := (keylen + 18446744073709551616 - 7) % 18446744073709551616
      let payload := pkt_read env pkt (key + 7) payload_len
      let rc := env.lcb_search payload
      let t := [ProxyEvent.read key 6, ProxyEvent.read key 7,
        ProxyEvent.read (key + 7) payload_len, ProxyEvent.search payload rc]
      if rc ≠ LCB_SUCCESS then
        t ++ conn_readcb_fwd env pkt
      else
        t ++ [ProxyEvent.sched_leave]
    else
      [ProxyEvent.read key 6, ProxyEvent.read key 7] ++ conn_readcb_fwd env pkt

/-- The function `conn_readcb` of the source: the input buffer as it leaves it and its
effects. The logging of `dump_bytes` is not part of the embedding. -/
def conn_readcb (env : ProxyEnv) (input : List Nat) : List Nat × List ProxyEvent :=
  let len := input.length
  if len < 24 then
    (input, [])
  else
    let header := input.take 24
    let bodylen := ntohl env.little_endian
      (load_u32 env.little_endian (header.getD 8 0) (header.getD 9 0) (header.getD 10 0)
        (header.getD 11 0))
    let pktlen := 24 + bodylen
    if len < pktlen then
      (input, [])
    else if env.malloc_fails pktlen then
      (input, [])
    else
      let pkt := input.take pktlen
      let input1 := input.drop pktlen
      let opcode := header.getD 1 0
      if opcode = PROTOCOL_BINARY_CMD_VERSION then
        (input1, [ProxyEvent.sched_enter] ++ conn_readcb_version env)
      else if opcode = PROTOCOL_BINARY_CMD_STAT then
        (input1, [ProxyEvent.sched_enter] ++ conn_readcb_stat env header pkt)
      else
        (input1, [ProxyEvent.sched_enter] ++ conn_readcb_fwd env pkt)


/-! ## A concrete proxy -/

/-- A proxy on a little-endian host: allocations succeed, the memory behind an allocation
is zero, the version string is `cbc-proxy/3.0.0`, an empty statement is refused, and
every query, search and forward is accepted. -/
def testProxyEnv : ProxyEnv where
  little_endian := true
  malloc_fails := fun _ => false
  heap_after := fun _ => 0
  app_version := [99, 98, 99, 45, 112, 114, 111, 120, 121, 47, 51, 46, 48, 46, 48, 0]
  lcb_cmdquery_statement := fun s => if s = [] then LCB_ERR_INVALID_ARGUMENT else LCB_SUCCESS
  lcb_query := fun _ => LCB_SUCCESS
  lcb_search := fun _ => LCB_SUCCESS
  lcb_pktfwd3 := fun _ => LCB_SUCCESS

/-- The same proxy on a big-endian host. -/
def testProxyEnvBigEndian : ProxyEnv := { testProxyEnv with little_endian := false }

/-- The 24 bytes of a request header with the given opcode, key length, extras length and
body length (vbucket, opaque and CAS zero). -/
def frame_header (opcode keylen extlen bodylen : Nat) : List Nat :=
  [PROTOCOL_BINARY_REQ, opcode] ++ htons keylen ++ [extlen, 0, 0, 0] ++ htonl bodylen
    ++ List.replicate 12 0

/-- A `VERSION` request: a header without body. -/
def frame_version : List Nat := frame_header PROTOCOL_BINARY_CMD_VERSION 0 0 0

/-- A `STAT` request with the 6-byte key `search` and no extras. -/
def frame_stat_search6 : List Nat :=
  frame_header PROTOCOL_BINARY_CMD_STAT 6 0 6 ++ [115, 101, 97, 114, 99, 104]

/-- A `STAT` request with 4 bytes of extras and the key `query x`. -/
def frame_stat_query_extras : List Nat :=
  frame_header PROTOCOL_BINARY_CMD_STAT 7 4 11 ++ [0, 0, 0, 0] ++ stat_query ++ [120]

/-- A `STAT` request without extras and with the key `query SELECT 1`. -/
def frame_stat_query : List Nat :=
  frame_header PROTOCOL_BINARY_CMD_STAT 14 0 14 ++ stat_query
    ++ [83, 69, 76, 69, 67, 84, 32, 49]

/-- A `STAT` request without extras and with the key `search x`. -/
def frame_stat_search : List Nat :=
  frame_header PROTOCOL_BINARY_CMD_STAT 8 0 8 ++ stat_search ++ [120]

/-- A `GET` request for the key `k`. -/
def frame_get : List Nat := frame_header PROTOCOL_BINARY_CMD_GET 1 0 1 ++ key_k

/-- The reads of packet memory in a trace, each with its offset and length. -/
def proxy_reads (trace : List ProxyEvent) : List (Nat × Nat) :=
  trace.filterMap (fun e => match e with
    | ProxyEvent.read offset length => some (offset, length)
    | _ => none)

/-- The packets that a trace forwarded. -/
def proxy_forwarded (trace : List ProxyEvent) : List (List Nat) :=
  trace.filterMap (fun e => match e with
    | ProxyEvent.pktfwd bytes _ => some bytes
    | _ => none)

/-- The statements of the queries that a trace issued. -/
def proxy_queries (trace : List ProxyEvent) : List (List Nat) :=
  trace.filterMap (fun e => match e with
    | ProxyEvent.query statement _ => some statement
    | _ => none)

/-- The payloads of the searches that a trace issued. -/
def proxy_searches (trace : List ProxyEvent) : List (List Nat) :=
  trace.filterMap (fun e => match e with
    | ProxyEvent.search payload _ => some payload
    | _ => none)


/-- Whether an effect is a read of packet memory or a call that issues a query or a
search: the effects that precede forwarding or leaving in the `STAT` case. -/
def ProxyEvent.is_redirect : ProxyEvent → Bool
  | ProxyEvent.read _ _ => true
  | ProxyEvent.cmdquery_statement _ _ => true
  | ProxyEvent.query _ _ => true
  | ProxyEvent.search _ _ => true
  | _ => false


/-- A `STAT` request whose header announces a key of 100 bytes and a body of none. -/
def frame_stat_keylen_100 : List Nat := frame_header PROTOCOL_BINARY_CMD_STAT 100 0 0

end Lcb

/-! # Theorems -/

namespace Lcb
open lcb_STATUS lcb_STORE_OPERATION lcb_DURABILITY_MODE lcb_replica_t

/-! ## Validation of a store command -/

/-- When `store_validate` rejects the command, `lcb_store` returns that status and has no
effect at all. -/
theorem lcb_store_of_validate_ne (env : Env) (inst : lcb_INSTANCE) (cookie : Nat)
    (cmd : lcb_CMDSTORE) (h : store_validate env inst cmd ≠ LCB_SUCCESS) :
    lcb_store env inst cookie cmd = { rc := store_validate env inst cmd } := by
  unfold lcb_store
  simp [h]

/-- C1, as stated, fails: `store_validate` makes other checks before it looks at the
operation. `append("k","x", expiry=5)` that also asks for synchronous durability level 1
of a cluster without synchronous replication is answered with `UNSUPPORTED_OPERATION`,
and an append with expiry 5 and an empty key with `EMPTY_KEY`; neither with
`OPTIONS_CONFLICT`. -/
theorem append_expiry_counterexample :
    (lcb_store testEnv testInstance 7
        { operation := LCB_STORE_APPEND, key := key_k, value := value_x, exptime := 5,
          durability_mode := LCB_DURABILITY_SYNC, dur_level := 1 }).rc
      = LCB_ERR_UNSUPPORTED_OPERATION
    ∧ (lcb_store testEnv testInstance 7
        { operation := LCB_STORE_APPEND, key := [], value := value_x, exptime := 5 }).rc
      = LCB_ERR_EMPTY_KEY := by
  decide

/-- C1 (amended): for every append or prepend command with a non-zero expiry or non-zero
flags, `lcb_store` returns an error synchronously and neither allocates nor schedules a
packet; the error is `OPTIONS_CONFLICT` whenever the command passes the checks that
`store_validate` makes first (collection qualifier valid, key non-empty, no synchronous
durability level asked of a server without synchronous replication). -/
theorem store_append_prepend_options_conflict (env : Env) (inst : lcb_INSTANCE) (cookie : Nat)
    (cmd : lcb_CMDSTORE)
    (hop : cmd.operation = LCB_STORE_APPEND ∨ cmd.operation = LCB_STORE_PREPEND)
    (hopt : cmd.exptime ≠ 0 ∨ cmd.flags ≠ 0) :
    ((lcb_store env inst cookie cmd).rc ≠ LCB_SUCCESS ∧
      (lcb_store env inst cookie cmd).trace = []) ∧
    (env.lcb_is_collection_valid inst cmd.scope cmd.collection = LCB_SUCCESS →
      cmd.key ≠ [] →
      ¬ (cmd.durability_mode = LCB_DURABILITY_SYNC ∧ cmd.dur_level ≠ 0 ∧
          inst.support_syncreplication = false) →
      lcb_store env inst cookie cmd = { rc := LCB_ERR_OPTIONS_CONFLICT }) := by
  have hv : store_validate env inst cmd ≠ LCB_SUCCESS := by
    unfold store_validate
    rcases hop with h | h <;> simp only [h] <;> split_ifs <;> simp_all
  refine ⟨?_, ?_⟩
  · rw [lcb_store_of_validate_ne env inst cookie cmd hv]
    exact ⟨hv, rfl⟩
  · intro hc hk hs
    rw [lcb_store_of_validate_ne env inst cookie cmd hv]
    have hk' : cmd.key.length ≠ 0 := by
      simpa [List.length_eq_zero] using hk
    unfold store_validate
    rcases hop with h | h <;> simp [h, hc, hk', hs, hopt]

/-- Witness of C1 (amended) at the spec's scenario `append("k","x", expiry=5)`: the call
returns `OPTIONS_CONFLICT` and has no effect. -/
theorem store_append_prepend_options_conflict_witness :
    lcb_store testEnv testInstance 7
        { operation := LCB_STORE_APPEND, key := key_k, value := value_x, exptime := 5 }
      = { rc := LCB_ERR_OPTIONS_CONFLICT } :=
  (store_append_prepend_options_conflict testEnv testInstance 7
      { operation := LCB_STORE_APPEND, key := key_k, value := value_x, exptime := 5 }
      (Or.inl rfl) (Or.inl (by decide))).2 (by decide) (by decide) (by decide)

/-- C2, as stated, fails: `insert("k","x")` with CAS 99 that also asks for synchronous
durability level 1 of a cluster without synchronous replication is answered with
`UNSUPPORTED_OPERATION`, and an insert with CAS 99 and an empty key with `EMPTY_KEY`;
neither with `OPTIONS_CONFLICT`. -/
theorem insert_cas_counterexample :
    (lcb_store testEnv testInstance 7
        { operation := LCB_STORE_INSERT, key := key_k, value := value_x, cas := 99,
          durability_mode := LCB_DURABILITY_SYNC, dur_level := 1 }).rc
      = LCB_ERR_UNSUPPORTED_OPERATION
    ∧ (lcb_store testEnv testInstance 7
        { operation := LCB_STORE_INSERT, key := [], value := value_x, cas := 99 }).rc
      = LCB_ERR_EMPTY_KEY := by
  decide

/-- C2 (amended): for every insert command with a non-zero CAS, `lcb_store` returns an
error synchronously and schedules nothing; the error is `OPTIONS_CONFLICT` whenever the
command passes the checks that `store_validate` makes first (collection qualifier valid,
key non-empty, no synchronous durability level asked of a server without synchronous
replication). -/
theorem store_insert_cas_options_conflict (env : Env) (inst : lcb_INSTANCE) (cookie : Nat)
    (cmd : lcb_CMDSTORE) (hop : cmd.operation = LCB_STORE_INSERT) (hcas : cmd.cas ≠ 0) :
    ((lcb_store env inst cookie cmd).rc ≠ LCB_SUCCESS ∧
      (lcb_store env inst cookie cmd).trace = []) ∧
    (env.lcb_is_collection_valid inst cmd.scope cmd.collection = LCB_SUCCESS →
      cmd.key ≠ [] →
      ¬ (cmd.durability_mode = LCB_DURABILITY_SYNC ∧ cmd.dur_level ≠ 0 ∧
          inst.support_syncreplication = false) →
      lcb_store env inst cookie cmd = { rc := LCB_ERR_OPTIONS_CONFLICT }) := by
  have hv : store_validate env inst cmd ≠ LCB_SUCCESS := by
    unfold store_validate
    simp only [hop]
    split_ifs <;> simp_all
  refine ⟨?_, ?_⟩
  · rw [lcb_store_of_validate_ne env inst cookie cmd hv]
    exact ⟨hv, rfl⟩
  · intro hc hk hs
    rw [lcb_store_of_validate_ne env inst cookie cmd hv]
    have hk' : cmd.key.length ≠ 0 := by
      simpa [List.length_eq_zero] using hk
    unfold store_validate
    simp [hop, hc, hk', hs, hcas]

/-- Witness of C2 (amended): `insert("k","x")` with CAS 99. -/
theorem store_insert_cas_options_conflict_witness :
    lcb_store testEnv testInstance 7
        { operation := LCB_STORE_INSERT, key := key_k, value := value_x, cas := 99 }
      = { rc := LCB_ERR_OPTIONS_CONFLICT } :=
  (store_insert_cas_options_conflict testEnv testInstance 7
      { operation := LCB_STORE_INSERT, key := key_k, value := value_x, cas := 99 }
      rfl (by decide)).2 (by decide) (by decide) (by decide)

/-! ## Empty keys -/

/-- C3, as stated, fails: `lcb_store` and `lcb_getreplica` check the collection qualifier
before the key, so an empty key with a qualifier that the instance refuses is answered
with the status of that check (here `SDK_FEATURE_UNAVAILABLE`), not with `EMPTY_KEY`. -/
theorem empty_key_invalid_collection_counterexample :
    (lcb_store testEnv testInstance 7 { key := [], scope := [115], collection := [99] }).rc
      = LCB_ERR_SDK_FEATURE_UNAVAILABLE
    ∧ (lcb_getreplica testEnv testInstance 7
        { key := [], scope := [115], collection := [99] }).rc
      = LCB_ERR_SDK_FEATURE_UNAVAILABLE := by
  decide

/-- C3 (amended): an empty key is never scheduled. `lcb_get` answers every command with
an empty key with `EMPTY_KEY`, whatever its other fields and the instance state.
`lcb_store` and `lcb_getreplica` first check the collection qualifier: when that check
passes they answer an empty key with `EMPTY_KEY`, and when it fails they return its
status; in all cases the call has no effect. -/
theorem empty_key_rejected (env : Env) (inst : lcb_INSTANCE) (cookie : Nat) :
    (∀ cmd : lcb_CMDGET, cmd.key = [] →
      lcb_get env inst cookie cmd = { rc := LCB_ERR_EMPTY_KEY }) ∧
    (∀ cmd : lcb_CMDSTORE, cmd.key = [] →
      (env.lcb_is_collection_valid inst cmd.scope cmd.collection = LCB_SUCCESS →
        lcb_store env inst cookie cmd = { rc := LCB_ERR_EMPTY_KEY }) ∧
      (env.lcb_is_collection_valid inst cmd.scope cmd.collection ≠ LCB_SUCCESS →
        lcb_store env inst cookie cmd
          = { rc := env.lcb_is_collection_valid inst cmd.scope cmd.collection })) ∧
    (∀ cmd : lcb_CMDGETREPLICA, cmd.key = [] →
      (env.lcb_is_collection_valid inst cmd.scope cmd.collection = LCB_SUCCESS →
        lcb_getreplica env inst cookie cmd = { rc := LCB_ERR_EMPTY_KEY }) ∧
      (env.lcb_is_collection_valid inst cmd.scope cmd.collection ≠ LCB_SUCCESS →
        lcb_getreplica env inst cookie cmd
          = { rc := env.lcb_is_collection_valid inst cmd.scope cmd.collection })) := by
  refine ⟨?_, ?_, ?_⟩
  · intro cmd hk
    simp [lcb_get, get_validate, hk]
  · intro cmd hk
    constructor
    · intro hc
      simp [lcb_store, store_validate, hk, hc]
    · intro hc
      simp [lcb_store, store_validate, hc]
  · intro cmd hk
    constructor
    · intro hc
      simp [lcb_getreplica, getreplica_validate, hk, hc]
    · intro hc
      simp [lcb_getreplica, getreplica_validate, hc]

/-- Witness of C3 (amended): a get, a store and a replica read with an empty key and
the default collection are each answered with `EMPTY_KEY`. -/
theorem empty_key_rejected_witness :
    lcb_get testEnv testInstance 7 { key := [] } = { rc := LCB_ERR_EMPTY_KEY } ∧
    lcb_store testEnv testInstance 7 { key := [], value := value_x }
      = { rc := LCB_ERR_EMPTY_KEY } ∧
    lcb_getreplica testEnv testInstance 7 { key := [], strategy := LCB_REPLICA_ALL }
      = { rc := LCB_ERR_EMPTY_KEY } :=
  ⟨(empty_key_rejected testEnv testInstance 7).1 { key := [] } rfl,
   ((empty_key_rejected testEnv testInstance 7).2.1 { key := [], value := value_x } rfl).1
     (by decide),
   ((empty_key_rejected testEnv testInstance 7).2.2
      { key := [], strategy := LCB_REPLICA_ALL } rfl).1 (by decide)⟩

/-! ## Opcode and extras length of a store -/

/-- C5: `get_esize_and_opcode` maps upsert to SET (0x01), insert to ADD (0x02), replace to
REPLACE (0x03), append to APPEND (0x0e) and prepend to PREPEND (0x0f), with extras length
8 for the first three and 0 for the last two; for every other operation value it returns
`INVALID_ARGUMENT` and leaves the opcode and the extras length as they were. -/
theorem get_esize_and_opcode_table :
    (∀ opcode esize, get_esize_and_opcode LCB_STORE_UPSERT opcode esize
        = (LCB_SUCCESS, 0x01, 8)) ∧
    (∀ opcode esize, get_esize_and_opcode LCB_STORE_INSERT opcode esize
        = (LCB_SUCCESS, 0x02, 8)) ∧
    (∀ opcode esize, get_esize_and_opcode LCB_STORE_REPLACE opcode esize
        = (LCB_SUCCESS, 0x03, 8)) ∧
    (∀ opcode esize, get_esize_and_opcode LCB_STORE_APPEND opcode esize
        = (LCB_SUCCESS, 0x0e, 0)) ∧
    (∀ opcode esize, get_esize_and_opcode LCB_STORE_PREPEND opcode esize
        = (LCB_SUCCESS, 0x0f, 0)) ∧
    (∀ raw opcode esize, get_esize_and_opcode (lcb_STORE_OPERATION.other raw) opcode esize
        = (LCB_ERR_INVALID_ARGUMENT, opcode, esize)) := by
  refine ⟨?_, ?_, ?_, ?_, ?_, ?_⟩ <;> intros <;> rfl

/-! ## Synchronous durability without server support -/

/-- C7, as stated, fails: an upsert with synchronous durability level 1, sent to a
cluster whose servers do not support synchronous replication, is rejected with
`UNSUPPORTED_OPERATION`; nothing is allocated, scheduled or polled. -/
theorem sync_durability_unsupported_counterexample :
    lcb_store testEnv testInstance 7
        { operation := LCB_STORE_UPSERT, key := key_k, value := value_x,
          durability_mode := LCB_DURABILITY_SYNC, dur_level := 1 }
      = { rc := LCB_ERR_UNSUPPORTED_OPERATION, trace := [] } := by
  decide

/-- C7 (amended): for every store command with a non-zero synchronous durability level
submitted to an instance whose server does not support synchronous replication,
`lcb_store` rejects the command synchronously and has no effect, so the level is not
honored through the polling path either (no durability context is created). The status is
`UNSUPPORTED_OPERATION` whenever the collection qualifier is valid and the key is not
empty; it is the status of the collection check when that check fails, and `EMPTY_KEY`
when the collection qualifier is valid and the key is empty. -/
theorem store_sync_durability_unsupported (env : Env) (inst : lcb_INSTANCE) (cookie : Nat)
    (cmd : lcb_CMDSTORE) (hmode : cmd.durability_mode = LCB_DURABILITY_SYNC)
    (hlevel : cmd.dur_level ≠ 0) (hsup : inst.support_syncreplication = false) :
    ((lcb_store env inst cookie cmd).rc ≠ LCB_SUCCESS ∧
      (lcb_store env inst cookie cmd).trace = []) ∧
    (env.lcb_is_collection_valid inst cmd.scope cmd.collection = LCB_SUCCESS →
      cmd.key ≠ [] →
      lcb_store env inst cookie cmd = { rc := LCB_ERR_UNSUPPORTED_OPERATION }) ∧
    (env.lcb_is_collection_valid inst cmd.scope cmd.collection ≠ LCB_SUCCESS →
      lcb_store env inst cookie cmd
        = { rc := env.lcb_is_collection_valid inst cmd.scope cmd.collection }) ∧
    (env.lcb_is_collection_valid inst cmd.scope cmd.collection = LCB_SUCCESS →
      cmd.key = [] →
      lcb_store env inst cookie cmd = { rc := LCB_ERR_EMPTY_KEY }) ∧
    (∀ ctx, Event.durctx_new ctx ∉ (lcb_store env inst cookie cmd).trace) := by
  have hv : store_validate env inst cmd ≠ LCB_SUCCESS := by
    unfold store_validate
    by_cases hc : env.lcb_is_collection_valid inst cmd.scope cmd.collection = LCB_SUCCESS
    · by_cases hk : cmd.key.length = 0
      · simp [hc, hk]
      · simp [hc, hk, hmode, hlevel, hsup]
    · simp [hc]
  refine ⟨?_, ?_, ?_, ?_, ?_⟩
  · rw [lcb_store_of_validate_ne env inst cookie cmd hv]
    exact ⟨hv, rfl⟩
  · intro hc hk
    rw [lcb_store_of_validate_ne env inst cookie cmd hv]
    have hk' : cmd.key.length ≠ 0 := by
      simpa [List.length_eq_zero] using hk
    unfold store_validate
    simp [hc, hk', hmode, hlevel, hsup]
  · intro hc
    rw [lcb_store_of_validate_ne env inst cookie cmd hv]
    unfold store_validate
    simp [hc]
  · intro hc hk
    rw [lcb_store_of_validate_ne env inst cookie cmd hv]
    unfold store_validate
    simp [hc, hk]
  · intro ctx
    rw [lcb_store_of_validate_ne env inst cookie cmd hv]
    simp

/-- Witness of C7 (amended): `upsert("k","x")` with synchronous level 1 on a cluster
without synchronous replication. -/
theorem store_sync_durability_unsupported_witness :
    lcb_store testEnv testInstance 7
        { operation := LCB_STORE_UPSERT, key := key_k, value := value_x,
          durability_mode := LCB_DURABILITY_SYNC, dur_level := 1 }
      = { rc := LCB_ERR_UNSUPPORTED_OPERATION } :=
  (store_sync_durability_unsupported testEnv testInstance 7
      { operation := LCB_STORE_UPSERT, key := key_k, value := value_x,
        durability_mode := LCB_DURABILITY_SYNC, dur_level := 1 }
      rfl (by decide) rfl).2.1 (by decide) (by decide)

/-! ## Packets built by `lcb_store` -/

/-- The durability branch schedules nothing by itself: its only effect is the creation
of the durability context. -/
theorem store_durability_events (env : Env) (inst : lcb_INSTANCE) (cookie : Nat)
    (cmd : lcb_CMDSTORE) (d : StoreDurability)
    (h : store_durability env inst cookie cmd = Except.ok d) :
    ∀ pl pkt, Event.sched_add pl pkt ∉ d.events := by
  intro pl pkt
  unfold store_durability at h
  simp only [] at h
  split_ifs at h <;> cases h <;> simp

/-- Every packet that `store_schedule` hands to a pipeline is the packet that
`store_packet` builds from the results of the steps before it. -/
theorem store_schedule_sched (env : Env) (inst : lcb_INSTANCE) (cookie : Nat)
    (cmd : lcb_CMDSTORE) (pl : Nat) (pkt : mc_PACKET)
    (h : Event.sched_add pl pkt ∈ (store_schedule env inst cookie cmd).trace) :
    ∃ opcode extlen bp u_value should_compress d,
      get_esize_and_opcode cmd.operation 0 0 = (LCB_SUCCESS, opcode, extlen) ∧
      store_value env inst bp.pipeline cmd = some (u_value, should_compress) ∧
      store_durability env inst cookie cmd = Except.ok d ∧
      pkt = store_packet env cmd
        (if store_use_alt inst cmd then PROTOCOL_BINARY_AREQ else PROTOCOL_BINARY_REQ)
        opcode extlen (if store_use_alt inst cmd then 4 else 0) bp u_value should_compress d := by
  unfold store_schedule at h
  simp only [] at h
  generalize hg : get_esize_and_opcode cmd.operation 0 0 = g at h
  obtain ⟨err, opcode, extlen⟩ := g
  simp only [] at h
  split at h
  · simp at h
  · rename_i herr
    have herr' : err = LCB_SUCCESS := by simpa using herr
    subst herr'
    split at h
    · simp at h
    · rename_i bp hbp
      split at h
      · simp at h
      · rename_i u_value should_compress hv
        split at h
        · simp at h
        · rename_i d hd
          have hev := store_durability_events env inst cookie cmd d hd pl pkt
          simp only [List.mem_append, List.mem_singleton, List.mem_cons, List.not_mem_nil,
            or_false, false_or, hev] at h
          simp only [reduceCtorEq, false_or, Event.sched_add.injEq] at h
          exact ⟨opcode, extlen, bp, u_value, should_compress, d, rfl, hv, hd, h.2⟩

/-- A packet scheduled by `lcb_store` is scheduled by `store_schedule` for the command
itself or for its clone with the collection id filled in. -/
theorem lcb_store_sched (env : Env) (inst : lcb_INSTANCE) (cookie : Nat)
    (cmd : lcb_CMDSTORE) (pl : Nat) (pkt : mc_PACKET)
    (h : Event.sched_add pl pkt ∈ (lcb_store env inst cookie cmd).trace) :
    ∃ cid, Event.sched_add pl pkt ∈
      (store_schedule env inst cookie { cmd with cid := cid }).trace := by
  unfold lcb_store at h
  simp only [] at h
  split at h
  · simp at h
  · split at h
    · exact ⟨cmd.cid, by simpa [store_operation] using h⟩
    · split at h
      · rename_i cid _
        exact ⟨cid, by simpa [store_operation] using h⟩
      · simp at h

/-- The flags set at the end of `lcb_store` leave the IOV bit of the packet alone. -/
theorem store_packet_flags_iov (env : Env) (cmd : lcb_CMDSTORE) (flags1 : PacketFlags) :
    (store_packet_flags env cmd flags1).MCREQ_F_VALUE_IOV = flags1.MCREQ_F_VALUE_IOV := by
  unfold store_packet_flags
  simp only []
  split <;> split_ifs <;> rfl

/-- The header and body of every packet that `lcb_store` schedules, in terms of the
command: magic and frame-extras length follow `store_use_alt`, opcode and extras length
are those of `get_esize_and_opcode`, the body length is computed from the other lengths,
and the bytes after the header are the first `extlen + ffextlen` bytes of the body that
the durability branch prepared. -/
theorem lcb_store_packet (env : Env) (inst : lcb_INSTANCE) (cookie : Nat)
    (cmd : lcb_CMDSTORE) (pl : Nat) (pkt : mc_PACKET)
    (h : Event.sched_add pl pkt ∈ (lcb_store env inst cookie cmd).trace) :
    ∃ d, store_durability env inst cookie cmd = Except.ok d ∧
      get_esize_and_opcode cmd.operation 0 0 = (LCB_SUCCESS, pkt.hdr.opcode, pkt.hdr.extlen) ∧
      pkt.hdr.magic
        = (if store_use_alt inst cmd then PROTOCOL_BINARY_AREQ else PROTOCOL_BINARY_REQ) ∧
      pkt.hdr.ffextlen = (if store_use_alt inst cmd then 4 else 0) ∧
      pkt.hdr.bodylen
        = (pkt.hdr.extlen + pkt.hdr.ffextlen + pkt.hdr.keylen + get_value_size pkt)
            % 4294967296 ∧
      pkt.body = d.body.take (pkt.hdr.extlen + pkt.hdr.ffextlen) := by
  obtain ⟨cid, hs⟩ := lcb_store_sched env inst cookie cmd pl pkt h
  obtain ⟨opcode, extlen, bp, u_value, sc, d, hg, _, hd, hpkt⟩ :=
    store_schedule_sched env inst cookie _ pl pkt hs
  refine ⟨d, ?_, ?_, ?_, ?_, ?_, ?_⟩
  · simpa [store_durability] using hd
  · subst hpkt
    simpa [store_packet] using hg
  · subst hpkt
    simp [store_packet, store_use_alt]
  · subst hpkt
    simp [store_packet, store_use_alt]
  · subst hpkt
    simp [store_packet, get_value_size, store_packet_flags_iov]
  · subst hpkt
    simp only [store_packet, MCREQ_PKT_BASESIZE]
    congr 1
    omega

/-- The body that the durability branch prepares: all zero with poll durability (nothing
is written), otherwise flags and expiry in the alt or the normal layout. -/
theorem store_durability_body (env : Env) (inst : lcb_INSTANCE) (cookie : Nat)
    (cmd : lcb_CMDSTORE) (d : StoreDurability)
    (h : store_durability env inst cookie cmd = Except.ok d) :
    d.body =
      if cmd.durability_mode = LCB_DURABILITY_POLL then store_body_zero
      else if cmd.dur_level ≠ 0 ∧ inst.support_syncreplication = true then
        store_body_alt 0x13 cmd.dur_level (env.lcb_durability_timeout inst cmd.timeout)
          cmd.flags cmd.exptime
      else store_body_norm cmd.flags cmd.exptime := by
  unfold store_durability at h
  simp only [] at h
  by_cases hp : cmd.durability_mode = LCB_DURABILITY_POLL
  · rw [if_pos hp] at h ⊢
    split_ifs at h <;> cases h <;> rfl
  · rw [if_neg hp] at h ⊢
    cases h
    rfl

/-- C6: a packet scheduled by `lcb_store` has the alt-request magic (0x08) and a
frame-extras length of 4 exactly when the command's durability mode is sync, its level is
non-zero and the server supports synchronous replication; in every other case the magic
is the normal request magic (0x80) and the frame-extras length is 0. In the alt case the
frame extras are the byte 0x13 (id 1, size 3), the durability level (as a byte) and the
durability timeout as a 16-bit network-order integer. -/
theorem store_magic_and_frame_extras (env : Env) (inst : lcb_INSTANCE) (cookie : Nat)
    (cmd : lcb_CMDSTORE) (pl : Nat) (pkt : mc_PACKET)
    (h : Event.sched_add pl pkt ∈ (lcb_store env inst cookie cmd).trace) :
    ((pkt.hdr.magic = 0x08 ∧ pkt.hdr.ffextlen = 4) ↔
      (cmd.durability_mode = LCB_DURABILITY_SYNC ∧ cmd.dur_level ≠ 0 ∧
        inst.support_syncreplication = true)) ∧
    (¬ (cmd.durability_mode = LCB_DURABILITY_SYNC ∧ cmd.dur_level ≠ 0 ∧
        inst.support_syncreplication = true) →
      pkt.hdr.magic = 0x80 ∧ pkt.hdr.ffextlen = 0) ∧
    ((cmd.durability_mode = LCB_DURABILITY_SYNC ∧ cmd.dur_level ≠ 0 ∧
        inst.support_syncreplication = true) →
      pkt.frame_extras
        = [0x13, cmd.dur_level % 256] ++ htons (env.lcb_durability_timeout inst cmd.timeout)) := by
  obtain ⟨d, hd, _, hmagic, hff, _, hbody⟩ := lcb_store_packet env inst cookie cmd pl pkt h
  have hdb := store_durability_body env inst cookie cmd d hd
  by_cases halt : cmd.durability_mode = LCB_DURABILITY_SYNC ∧ cmd.dur_level ≠ 0 ∧
      inst.support_syncreplication = true
  · have hu : store_use_alt inst cmd = true := by simp [store_use_alt, halt]
    rw [hu] at hmagic hff
    simp only [if_true] at hmagic hff
    refine ⟨⟨fun _ => halt, fun _ => ⟨by rw [hmagic]; rfl, hff⟩⟩, fun hn => absurd halt hn, ?_⟩
    intro _
    have hpoll : cmd.durability_mode ≠ LCB_DURABILITY_POLL := by
      rw [halt.1]; decide
    rw [if_neg hpoll, if_pos ⟨halt.2.1, halt.2.2⟩] at hdb
    unfold mc_PACKET.frame_extras
    rw [hbody, hff, hdb, List.take_take]
    have hmin : min 4 (pkt.hdr.extlen + 4) = 4 := by omega
    rw [hmin]
    rfl
  · have hu : store_use_alt inst cmd = false := by simp [store_use_alt, halt]
    rw [hu] at hmagic hff
    simp only [Bool.false_eq_true, if_false] at hmagic hff
    refine ⟨⟨fun hm => ?_, fun ha => absurd ha halt⟩, fun _ => ⟨by rw [hmagic]; rfl, hff⟩, ?_⟩
    · rw [hff] at hm
      exact absurd hm.2 (by decide)
    · intro ha
      exact absurd ha halt

/-- Witness of C6: an upsert with synchronous durability level 1 on a cluster that
supports synchronous replication is sent as an alt request whose frame extras are
`13 01 09 c4` (timeout 2500 ms). -/
theorem store_magic_and_frame_extras_witness :
    (first_scheduled (lcb_store testEnv testInstanceSync 7 upsert_sync)).hdr.magic = 0x08 ∧
    (first_scheduled (lcb_store testEnv testInstanceSync 7 upsert_sync)).hdr.ffextlen = 4 ∧
    (first_scheduled (lcb_store testEnv testInstanceSync 7 upsert_sync)).frame_extras
      = [0x13, 1, 9, 196] :=
  have h := store_magic_and_frame_extras testEnv testInstanceSync 7 upsert_sync 0
    (first_scheduled (lcb_store testEnv testInstanceSync 7 upsert_sync)) (by decide)
  ⟨(h.1.2 (by decide)).1, (h.1.2 (by decide)).2, h.2.2 (by decide)⟩

/-! ## Extras of a store -/

/-- With poll durability no branch of `lcb_store` writes flags or expiry into the body of
the request: the extras of the scheduled packet are all zero. -/
theorem store_extras_poll (env : Env) (inst : lcb_INSTANCE) (cookie : Nat)
    (cmd : lcb_CMDSTORE) (pl : Nat) (pkt : mc_PACKET)
    (h : Event.sched_add pl pkt ∈ (lcb_store env inst cookie cmd).trace)
    (hpoll : cmd.durability_mode = LCB_DURABILITY_POLL) :
    pkt.extras = (List.replicate 12 0).take pkt.hdr.extlen := by
  obtain ⟨d, hd, _, _, hff, _, hbody⟩ := lcb_store_packet env inst cookie cmd pl pkt h
  have hdb := store_durability_body env inst cookie cmd d hd
  rw [if_pos hpoll] at hdb
  have hu : store_use_alt inst cmd = false := by simp [store_use_alt, hpoll]
  rw [hu] at hff
  simp only [Bool.false_eq_true, if_false] at hff
  unfold mc_PACKET.extras
  rw [hbody, hff, hdb]
  simp [store_body_zero]

/-- Without poll durability the 8 bytes of extras of an upsert, insert or replace hold
the flags and the expiry, each as a 32-bit network-order integer (for a command built
with the setters, which leave the level zero unless the mode is sync). -/
theorem store_extras_without_poll (env : Env) (inst : lcb_INSTANCE) (cookie : Nat)
    (cmd : lcb_CMDSTORE) (pl : Nat) (pkt : mc_PACKET)
    (h : Event.sched_add pl pkt ∈ (lcb_store env inst cookie cmd).trace)
    (hop : cmd.operation = LCB_STORE_UPSERT ∨ cmd.operation = LCB_STORE_INSERT ∨
      cmd.operation = LCB_STORE_REPLACE)
    (hpoll : cmd.durability_mode ≠ LCB_DURABILITY_POLL)
    (hnone : cmd.durability_mode = LCB_DURABILITY_NONE → cmd.dur_level = 0) :
    pkt.extras = htonl cmd.flags ++ htonl cmd.exptime := by
  obtain ⟨d, hd, hg, _, hff, _, hbody⟩ := lcb_store_packet env inst cookie cmd pl pkt h
  have hdb := store_durability_body env inst cookie cmd d hd
  rw [if_neg hpoll] at hdb
  have hext : pkt.hdr.extlen = 8 := by
    rcases hop with ho | ho | ho <;> rw [ho] at hg <;>
      simp [get_esize_and_opcode] at hg <;> exact hg.2.symm
  unfold mc_PACKET.extras
  rw [hbody, hext]
  by_cases halt : cmd.dur_level ≠ 0 ∧ inst.support_syncreplication = true
  · have hsync : cmd.durability_mode = LCB_DURABILITY_SYNC := by
      cases hm : cmd.durability_mode with
      | LCB_DURABILITY_NONE => exact absurd (hnone hm) halt.1
      | LCB_DURABILITY_POLL => exact absurd hm hpoll
      | LCB_DURABILITY_SYNC => rfl
    have hu : store_use_alt inst cmd = true := by simp [store_use_alt, hsync, halt]
    rw [hu] at hff
    simp only [if_true] at hff
    rw [hff, hdb, if_pos halt]
    rfl
  · have hu : store_use_alt inst cmd = false := by
      simp only [store_use_alt, decide_eq_false_iff_not]
      exact fun hc => halt ⟨hc.2.1, hc.2.2⟩
    rw [hu] at hff
    simp only [Bool.false_eq_true, if_false] at hff
    rw [hff, hdb, if_neg halt]
    rfl

/-- C4 at its failing input: `upsert("k","x")` with flags `0xCAFE0001`, expiry 5 and poll
durability `(1, 0)` is accepted and scheduled as a SET with 8 bytes of extras, and these
bytes are all zero, while flags and expiry in network order are `ca fe 00 01 00 00 00 05`
(which is what the same command carries without the durability requirement). -/
theorem store_poll_extras_lost :
    (lcb_store testEnv testInstance 7 upsert_poll).rc = LCB_SUCCESS ∧
    (first_scheduled (lcb_store testEnv testInstance 7 upsert_poll)).hdr.opcode = 0x01 ∧
    (first_scheduled (lcb_store testEnv testInstance 7 upsert_poll)).hdr.extlen = 8 ∧
    (first_scheduled (lcb_store testEnv testInstance 7 upsert_poll)).extras
      = [0, 0, 0, 0, 0, 0, 0, 0] ∧
    htonl upsert_poll.flags ++ htonl upsert_poll.exptime
      = [0xca, 0xfe, 0x00, 0x01, 0x00, 0x00, 0x00, 0x05] ∧
    (first_scheduled (lcb_store testEnv testInstance 7 upsert_plain)).extras
      = [0xca, 0xfe, 0x00, 0x01, 0x00, 0x00, 0x00, 0x05] := by
  decide

/-! ## Packets built by `get_schedule` -/

/-- The header and body of every packet that `get_schedule` hands to a pipeline. -/
theorem get_schedule_packet (env : Env) (inst : lcb_INSTANCE) (cmd : lcb_CMDGET)
    (pl : Nat) (pkt : mc_PACKET)
    (h : Event.sched_add pl pkt ∈ (get_schedule env inst cmd).trace) :
    pkt.hdr.magic = PROTOCOL_BINARY_REQ ∧ pkt.hdr.cas = 0 ∧
    pkt.hdr.datatype = PROTOCOL_BINARY_RAW_BYTES ∧ pkt.hdr.ffextlen = 0 ∧
    pkt.hdr.opcode = (if cmd.with_lock then PROTOCOL_BINARY_CMD_GET_LOCKED
      else if cmd.with_touch then PROTOCOL_BINARY_CMD_GAT else PROTOCOL_BINARY_CMD_GET) ∧
    pkt.hdr.extlen = (if cmd.with_lock then 4 else if cmd.with_touch then 4 else 0) ∧
    pkt.hdr.bodylen = (pkt.hdr.extlen + pkt.hdr.keylen) % 4294967296 ∧
    get_value_size pkt = 0 ∧
    pkt.body = (if pkt.hdr.extlen ≠ 0 then htonl cmd.expiry
      else if cmd.with_lock then htonl cmd.lock_time else [0, 0, 0, 0]).take pkt.hdr.extlen := by
  unfold get_schedule at h
  simp only [] at h
  split at h
  · simp at h
  · simp only [List.mem_cons, reduceCtorEq, Event.sched_add.injEq, List.mem_singleton,
      List.not_mem_nil, or_false, false_or] at h
    obtain ⟨_, hpkt⟩ := h
    subst hpkt
    simp [get_value_size, MCREQ_PKT_BASESIZE]

/-- C9: `get_schedule` selects opcode GET_LOCKED (0x94) with 4 bytes of extras when the
command requests a lock, otherwise GAT (0x1d) with 4 bytes of extras when it requests a
touch, otherwise GET (0x00) with no extras; in all three cases the magic is the normal
request magic (0x80), the CAS is 0 and the datatype is raw (0x00). -/
theorem get_schedule_opcode_and_extras (env : Env) (inst : lcb_INSTANCE) (cmd : lcb_CMDGET)
    (pl : Nat) (pkt : mc_PACKET)
    (h : Event.sched_add pl pkt ∈ (get_schedule env inst cmd).trace) :
    (cmd.with_lock = true →
      pkt.hdr.opcode = 0x94 ∧ pkt.hdr.extlen = 4 ∧ pkt.extras.length = 4) ∧
    (cmd.with_lock = false → cmd.with_touch = true →
      pkt.hdr.opcode = 0x1d ∧ pkt.hdr.extlen = 4 ∧ pkt.extras.length = 4) ∧
    (cmd.with_lock = false → cmd.with_touch = false →
      pkt.hdr.opcode = 0x00 ∧ pkt.hdr.extlen = 0 ∧ pkt.extras = []) ∧
    pkt.hdr.magic = 0x80 ∧ pkt.hdr.cas = 0 ∧ pkt.hdr.datatype = 0x00 := by
  obtain ⟨hmagic, hcas, hdt, hff, hop, hext, _, _, hbody⟩ :=
    get_schedule_packet env inst cmd pl pkt h
  refine ⟨?_, ?_, ?_, hmagic, hcas, hdt⟩
  · intro hl
    rw [hl] at hop hext
    simp only [if_true] at hop hext
    refine ⟨hop, hext, ?_⟩
    unfold mc_PACKET.extras
    rw [hbody, hff, hext]
    simp [htonl]
  · intro hl ht
    rw [hl, ht] at hop hext
    simp only [Bool.false_eq_true, if_false, if_true] at hop hext
    refine ⟨hop, hext, ?_⟩
    unfold mc_PACKET.extras
    rw [hbody, hff, hext]
    simp [htonl]
  · intro hl ht
    rw [hl, ht] at hop hext
    simp only [Bool.false_eq_true, if_false] at hop hext
    refine ⟨hop, hext, ?_⟩
    unfold mc_PACKET.extras
    rw [hbody, hff, hext]
    simp

/-- Witness of C9: `get("k")` with a lock is scheduled as GET_LOCKED with four bytes of
extras, with the normal request magic, CAS 0 and raw datatype. -/
theorem get_schedule_opcode_and_extras_witness :
    (first_scheduled (get_schedule testEnv testInstance get_lock_30)).hdr.opcode = 0x94 ∧
    (first_scheduled (get_schedule testEnv testInstance get_lock_30)).hdr.extlen = 4 ∧
    (first_scheduled (get_schedule testEnv testInstance get_lock_30)).extras.length = 4 ∧
    (first_scheduled (get_schedule testEnv testInstance get_lock_30)).hdr.magic = 0x80 ∧
    (first_scheduled (get_schedule testEnv testInstance get_lock_30)).hdr.cas = 0 ∧
    (first_scheduled (get_schedule testEnv testInstance get_lock_30)).hdr.datatype = 0x00 :=
  have h := get_schedule_opcode_and_extras testEnv testInstance get_lock_30 0
    (first_scheduled (get_schedule testEnv testInstance get_lock_30)) (by decide)
  ⟨(h.1 rfl).1, (h.1 rfl).2.1, (h.1 rfl).2.2, h.2.2.2.1, h.2.2.2.2.1, h.2.2.2.2.2⟩

/-- Whenever `get_schedule` sends extras, they hold the expiry of the command: the lock
time that is written first for a get-and-lock is overwritten by the statement that
follows it. -/
theorem get_schedule_extras_expiry (env : Env) (inst : lcb_INSTANCE) (cmd : lcb_CMDGET)
    (pl : Nat) (pkt : mc_PACKET)
    (h : Event.sched_add pl pkt ∈ (get_schedule env inst cmd).trace)
    (hx : cmd.with_lock = true ∨ cmd.with_touch = true) :
    pkt.extras = htonl cmd.expiry := by
  obtain ⟨_, _, _, hff, _, hext, _, _, hbody⟩ := get_schedule_packet env inst cmd pl pkt h
  have hext4 : pkt.hdr.extlen = 4 := by
    rw [hext]
    rcases hx with hx | hx <;> simp [hx]
  unfold mc_PACKET.extras
  rw [hbody, hff, hext4]
  simp [htonl]

/-- C10 at its failing input: `get("k")` with a lock time of 30 seconds is scheduled as
GET_LOCKED, and its four bytes of extras are `00 00 00 00` (the expiry of the command),
not the lock time `00 00 00 1e`. A get-and-touch with expiry 30 does carry
`00 00 00 1e`. -/
theorem get_lock_time_lost :
    (get_schedule testEnv testInstance get_lock_30).rc = LCB_SUCCESS ∧
    (first_scheduled (get_schedule testEnv testInstance get_lock_30)).hdr.opcode = 0x94 ∧
    (first_scheduled (get_schedule testEnv testInstance get_lock_30)).extras = [0, 0, 0, 0] ∧
    htonl get_lock_30.lock_time = [0, 0, 0, 0x1e] ∧
    (first_scheduled (get_schedule testEnv testInstance get_touch_30)).hdr.opcode = 0x1d ∧
    (first_scheduled (get_schedule testEnv testInstance get_touch_30)).extras
      = [0, 0, 0, 0x1e] := by
  decide

/-! ## Packets built by `lcb_getreplica` -/

/-- Every packet scheduled by the loop of `lcb_getreplica` is a `ReplicaPacket`. -/
theorem getreplica_loop_sched (env : Env) (cq : mc_CMDQUEUE) (cfg : lcbvb_CONFIG)
    (vbid : Nat) (cmd : lcb_CMDGETREPLICA) (req : protocol_binary_request_header)
    (more : Nat) :
    ∀ (r0 : Nat) (rck : RGetCookie) (trace : List Event),
      (∀ pl pkt, Event.sched_add pl pkt ∈ trace → ReplicaPacket req pkt) →
      ∀ pl pkt,
        Event.sched_add pl pkt ∈ (getreplica_loop env cq cfg vbid cmd req more r0 rck trace).trace →
        ReplicaPacket req pkt := by
  induction more with
  | zero =>
    intro r0 rck trace ht pl pkt h
    unfold getreplica_loop at h
    simp only [] at h
    split at h
    · simp only [List.mem_append, List.mem_singleton, reduceCtorEq, or_false] at h
      exact ht pl pkt h
    · simp only [List.mem_append, List.mem_cons, List.mem_singleton, reduceCtorEq,
        Event.sched_add.injEq, List.not_mem_nil, or_false, false_or] at h
      rcases h with h | h
      · exact ht pl pkt h
      · obtain ⟨_, hpkt⟩ := h
        subst hpkt
        simp [ReplicaPacket, get_value_size]
  | succ m ih =>
    intro r0 rck trace ht pl pkt h
    unfold getreplica_loop at h
    simp only [] at h
    split at h
    · simp only [List.mem_append, List.mem_singleton, reduceCtorEq, or_false] at h
      exact ht pl pkt h
    · refine ih _ _ _ ?_ pl pkt h
      intro pl' pkt' h'
      simp only [List.mem_append, List.mem_cons, reduceCtorEq, Event.sched_add.injEq,
        List.not_mem_nil, or_false, false_or] at h'
      rcases h' with h' | h'
      · exact ht pl' pkt' h'
      · obtain ⟨_, hpkt⟩ := h'
        subst hpkt
        simp [ReplicaPacket, get_value_size]

/-- Every packet scheduled by `lcb_getreplica` carries the header that the function
prepares before its loop, completed by the loop. -/
theorem lcb_getreplica_sched (env : Env) (inst : lcb_INSTANCE) (cookie : Nat)
    (cmd : lcb_CMDGETREPLICA) (pl : Nat) (pkt : mc_PACKET)
    (h : Event.sched_add pl pkt ∈ (lcb_getreplica env inst cookie cmd).trace) :
    ReplicaPacket
      { magic := PROTOCOL_BINARY_REQ, opcode := PROTOCOL_BINARY_CMD_GET_REPLICA,
        datatype := PROTOCOL_BINARY_RAW_BYTES,
        vbucket := (env.mcreq_map_key inst.cmdq cmd.key).1 % 65536, cas := 0, extlen := 0 }
      pkt := by
  have key : ∀ c : lcb_CMDGETREPLICA, c.key = cmd.key →
      Event.sched_add pl pkt ∈ (getreplica_schedule env inst cookie c).trace →
      ReplicaPacket
        { magic := PROTOCOL_BINARY_REQ, opcode := PROTOCOL_BINARY_CMD_GET_REPLICA,
          datatype := PROTOCOL_BINARY_RAW_BYTES,
          vbucket := (env.mcreq_map_key inst.cmdq cmd.key).1 % 65536, cas := 0, extlen := 0 }
        pkt := by
    intro c hc hs
    unfold getreplica_schedule at hs
    simp only [] at hs
    split at hs
    · simp at hs
    · rw [hc] at hs
      refine getreplica_loop_sched env _ _ _ _ _ _ _ _ _ ?_ pl pkt hs
      intro pl' pkt' h'
      simp at h'
  unfold lcb_getreplica at h
  simp only [] at h
  split at h
  · simp at h
  · split at h
    · exact key cmd rfl (by simpa [getreplica_operation] using h)
    · split at h
      · rename_i cid _
        exact key { cmd with cid := cid } rfl (by simpa [getreplica_operation] using h)
      · simp at h

/-! ## Body length -/

/-- C8: in every packet built by `lcb_store`, `get_schedule` and `lcb_getreplica` the body
length of the header is the sum of frame-extras length, extras length, key size and value
size, as a 32-bit quantity (so equal to the sum whenever the sum fits the field). For a
store the sum is `extlen + ffextlen + key size + value size` with the value as stored
(possibly compressed); for a get there are no frame extras and no value, so it is
`extlen + key length`; for a replica read there are no extras either, and body length and
key length are both the size of the key span. -/
theorem packet_body_length (env : Env) (inst : lcb_INSTANCE) (cookie : Nat) :
    (∀ (cmd : lcb_CMDSTORE) (pl : Nat) (pkt : mc_PACKET),
      Event.sched_add pl pkt ∈ (lcb_store env inst cookie cmd).trace →
      pkt.hdr.bodylen
        = (pkt.hdr.ffextlen + pkt.hdr.extlen + pkt.hdr.keylen + get_value_size pkt)
            % 4294967296 ∧
      (pkt.hdr.ffextlen + pkt.hdr.extlen + pkt.hdr.keylen + get_value_size pkt < 4294967296 →
        pkt.hdr.bodylen
          = pkt.hdr.ffextlen + pkt.hdr.extlen + pkt.hdr.keylen + get_value_size pkt)) ∧
    (∀ (cmd : lcb_CMDGET) (pl : Nat) (pkt : mc_PACKET),
      Event.sched_add pl pkt ∈ (get_schedule env inst cmd).trace →
      pkt.hdr.ffextlen = 0 ∧ get_value_size pkt = 0 ∧
      pkt.hdr.bodylen = (pkt.hdr.extlen + pkt.hdr.keylen) % 4294967296 ∧
      (pkt.hdr.extlen + pkt.hdr.keylen < 4294967296 →
        pkt.hdr.bodylen = pkt.hdr.extlen + pkt.hdr.keylen)) ∧
    (∀ (cmd : lcb_CMDGETREPLICA) (pl : Nat) (pkt : mc_PACKET),
      Event.sched_add pl pkt ∈ (lcb_getreplica env inst cookie cmd).trace →
      pkt.hdr.ffextlen = 0 ∧ pkt.hdr.extlen = 0 ∧ get_value_size pkt = 0 ∧
      pkt.hdr.bodylen = (pkt.kh_span_size - 24 + pkt.extlen) % 4294967296 ∧
      pkt.hdr.keylen = (pkt.kh_span_size - 24 + pkt.extlen) % 65536 ∧
      (pkt.kh_span_size - 24 + pkt.extlen < 65536 →
        pkt.hdr.bodylen = pkt.hdr.keylen ∧
        pkt.hdr.bodylen = pkt.kh_span_size - 24 + pkt.extlen)) := by
  refine ⟨?_, ?_, ?_⟩
  · intro cmd pl pkt h
    obtain ⟨_, _, _, _, _, hlen, _⟩ := lcb_store_packet env inst cookie cmd pl pkt h
    have hcomm : pkt.hdr.ffextlen + pkt.hdr.extlen = pkt.hdr.extlen + pkt.hdr.ffextlen :=
      Nat.add_comm _ _
    rw [hcomm]
    exact ⟨hlen, fun hlt => by rw [hlen, Nat.mod_eq_of_lt hlt]⟩
  · intro cmd pl pkt h
    obtain ⟨_, _, _, hff, _, _, hlen, hval, _⟩ := get_schedule_packet env inst cmd pl pkt h
    exact ⟨hff, hval, hlen, fun hlt => by rw [hlen, Nat.mod_eq_of_lt hlt]⟩
  · intro cmd pl pkt h
    obtain ⟨hhdr, _, hval⟩ := lcb_getreplica_sched env inst cookie cmd pl pkt h
    rw [hhdr]
    refine ⟨rfl, rfl, hval, rfl, rfl, ?_⟩
    intro hlt
    simp only [MCREQ_PKT_BASESIZE]
    omega

/-- Witness of C8: the body lengths of `upsert("k","x")` with synchronous durability
(4 + 8 + 1 + 1), of `get("k")` with a lock (4 + 1) and of a replica read of `"k"` (1). -/
theorem packet_body_length_witness :
    (first_scheduled (lcb_store testEnv testInstanceSync 7 upsert_sync)).hdr.bodylen = 14 ∧
    (first_scheduled (get_schedule testEnv testInstance get_lock_30)).hdr.bodylen = 5 ∧
    (first_scheduled (lcb_getreplica testEnv testInstance 7 getreplica_all)).hdr.bodylen = 1 :=
  have h := packet_body_length testEnv testInstanceSync 7
  have h' := packet_body_length testEnv testInstance 7
  ⟨((h.1 upsert_sync 0
      (first_scheduled (lcb_store testEnv testInstanceSync 7 upsert_sync))
      (by decide)).2 (by decide)),
   ((h'.2.1 get_lock_30 0
      (first_scheduled (get_schedule testEnv testInstance get_lock_30))
      (by decide)).2.2.2 (by decide)),
   ((h'.2.2 getreplica_all 1
      (first_scheduled (lcb_getreplica testEnv testInstance 7 getreplica_all))
      (by decide)).2.2.2.2.2 (by decide)).2⟩


/-! ## Compression and datatype of a store -/

/-- C11: `can_compress` returns non-zero if and only if the instance's `compressopts` has
the OUT bit, and the server supports snappy compression or `compressopts` has the FORCE
bit, and the command's datatype does not already carry the snappy-compressed flag. -/
theorem can_compress_iff (env : Env) (inst : lcb_INSTANCE) (pipeline : Server)
    (datatype : Nat) :
    can_compress env inst pipeline datatype ≠ 0 ↔
      (inst.settings.compressopts &&& env.LCB_COMPRESS_OUT ≠ 0 ∧
        (pipeline.supports_compression = true ∨
          inst.settings.compressopts &&& env.LCB_COMPRESS_FORCE ≠ 0) ∧
        datatype &&& env.LCB_VALUE_F_SNAPPYCOMP = 0) := by
  unfold can_compress
  simp only []
  cases hs : pipeline.supports_compression <;> split_ifs <;> simp_all

/-- Like `store_schedule_sched`, with the pipeline of the event: the packet is handed to
the pipeline that `mcreq_basic_packet` chose. -/
theorem store_schedule_sched_server (env : Env) (inst : lcb_INSTANCE) (cookie : Nat)
    (cmd : lcb_CMDSTORE) (pl : Nat) (pkt : mc_PACKET)
    (h : Event.sched_add pl pkt ∈ (store_schedule env inst cookie cmd).trace) :
    ∃ opcode extlen bp u_value should_compress d,
      pl = bp.pipeline.index ∧
      env.mcreq_basic_packet inst.cmdq cmd.key cmd.cid extlen
        (if store_use_alt inst cmd then 4 else 0) = Except.ok bp ∧
      get_esize_and_opcode cmd.operation 0 0 = (LCB_SUCCESS, opcode, extlen) ∧
      store_value env inst bp.pipeline cmd = some (u_value, should_compress) ∧
      store_durability env inst cookie cmd = Except.ok d ∧
      pkt = store_packet env cmd
        (if store_use_alt inst cmd then PROTOCOL_BINARY_AREQ else PROTOCOL_BINARY_REQ)
        opcode extlen (if store_use_alt inst cmd then 4 else 0) bp u_value should_compress d := by
  unfold store_schedule at h
  simp only [] at h
  generalize hg : get_esize_and_opcode cmd.operation 0 0 = g at h
  obtain ⟨err, opcode, extlen⟩ := g
  simp only [] at h
  split at h
  · simp at h
  · rename_i herr
    have herr' : err = LCB_SUCCESS := by simpa using herr
    subst herr'
    split at h
    · simp at h
    · rename_i bp hbp
      split at h
      · simp at h
      · rename_i u_value should_compress hv
        split at h
        · simp at h
        · rename_i d hd
          have hev := store_durability_events env inst cookie cmd d hd pl pkt
          simp only [List.mem_append, List.mem_singleton, List.mem_cons, List.not_mem_nil,
            or_false, false_or, hev] at h
          simp only [reduceCtorEq, false_or, Event.sched_add.injEq] at h
          exact ⟨opcode, extlen, bp, u_value, should_compress, d, h.1, hbp, rfl, hv, hd, h.2⟩

/-- The datatype that `store_datatype` computes has the JSON bit exactly when the command
is flagged as JSON and the server supports JSON, the compressed bit exactly when the
value was compressed or the command was flagged as compressed, and no other bit. -/
theorem store_datatype_bits (env : Env) (pipeline : Server) (should_compress : Nat)
    (cmd : lcb_CMDSTORE) :
    (store_datatype env pipeline should_compress cmd &&& 0x01 ≠ 0 ↔
      (cmd.datatype &&& env.LCB_VALUE_F_JSON ≠ 0 ∧ pipeline.supports_json = true)) ∧
    (store_datatype env pipeline should_compress cmd &&& 0x02 ≠ 0 ↔
      (should_compress ≠ 0 ∨ cmd.datatype &&& env.LCB_VALUE_F_SNAPPYCOMP ≠ 0)) ∧
    store_datatype env pipeline should_compress cmd &&& 0x03
      = store_datatype env pipeline should_compress cmd := by
  unfold store_datatype
  simp only [PROTOCOL_BINARY_RAW_BYTES, PROTOCOL_BINARY_DATATYPE_COMPRESSED,
    PROTOCOL_BINARY_DATATYPE_JSON]
  by_cases hc : should_compress ≠ 0 ∨ cmd.datatype &&& env.LCB_VALUE_F_SNAPPYCOMP ≠ 0
  · by_cases hj : cmd.datatype &&& env.LCB_VALUE_F_JSON ≠ 0 ∧ pipeline.supports_json = true
    · rw [if_pos hc, if_pos hj]
      exact ⟨⟨fun _ => hj, fun _ => by decide⟩, ⟨fun _ => hc, fun _ => by decide⟩, by decide⟩
    · rw [if_pos hc, if_neg hj]
      exact ⟨⟨fun h => absurd h (by decide), fun h => absurd h hj⟩,
        ⟨fun _ => hc, fun _ => by decide⟩, by decide⟩
  · by_cases hj : cmd.datatype &&& env.LCB_VALUE_F_JSON ≠ 0 ∧ pipeline.supports_json = true
    · rw [if_neg hc, if_pos hj]
      exact ⟨⟨fun _ => hj, fun _ => by decide⟩,
        ⟨fun h => absurd h (by decide), fun h => absurd h hc⟩, by decide⟩
    · rw [if_neg hc, if_neg hj]
      exact ⟨⟨fun h => absurd h (by decide), fun h => absurd h hj⟩,
        ⟨fun h => absurd h (by decide), fun h => absurd h hc⟩, by decide⟩

/-- C12: for every packet that `lcb_store` schedules, with `server` the pipeline it is
sent to and `should_compress` as the compression step left it (non-zero when the client
compressed the value): the header datatype has the JSON bit (0x01) exactly when the
command's datatype has the JSON flag and the server supports JSON, the compressed bit
(0x02) exactly when the client compressed the value or the command's datatype already
carried the snappy flag, and no other bit. -/
theorem store_header_datatype (env : Env) (inst : lcb_INSTANCE) (cookie : Nat)
    (cmd : lcb_CMDSTORE) (pl : Nat) (pkt : mc_PACKET)
    (h : Event.sched_add pl pkt ∈ (lcb_store env inst cookie cmd).trace) :
    ∃ (server : Server) (should_compress : Nat),
      server.index = pl ∧
      store_value env inst server cmd = some (pkt.u_value, should_compress) ∧
      (pkt.hdr.datatype &&& 0x01 ≠ 0 ↔
        (cmd.datatype &&& env.LCB_VALUE_F_JSON ≠ 0 ∧ server.supports_json = true)) ∧
      (pkt.hdr.datatype &&& 0x02 ≠ 0 ↔
        (should_compress ≠ 0 ∨ cmd.datatype &&& env.LCB_VALUE_F_SNAPPYCOMP ≠ 0)) ∧
      pkt.hdr.datatype &&& 0x03 = pkt.hdr.datatype := by
  obtain ⟨cid, hs⟩ := lcb_store_sched env inst cookie cmd pl pkt h
  obtain ⟨opcode, extlen, bp, u_value, sc, d, hpl, _, _, hv, _, hpkt⟩ :=
    store_schedule_sched_server env inst cookie _ pl pkt hs
  have hbits := store_datatype_bits env bp.pipeline sc cmd
  have hdt : pkt.hdr.datatype = store_datatype env bp.pipeline sc cmd := by
    subst hpkt
    simp [store_packet, store_datatype]
  have hu : pkt.u_value = u_value := by
    subst hpkt
    simp [store_packet]
  refine ⟨bp.pipeline, sc, hpl.symm, ?_, ?_⟩
  · rw [hu]
    simpa [store_value] using hv
  · rw [hdt]
    exact hbits


/-! ## Requests accepted by `lcb_getreplica` -/

/-- The packets of the concatenation of two traces. -/
theorem events_sched_append (t1 t2 : List Event) :
    events_sched (t1 ++ t2) = events_sched t1 ++ events_sched t2 := by
  simp [events_sched]

/-- The loop of `lcb_getreplica` when the allocation fails: the cookie is deleted and
the call returns `NO_MEMORY`, whatever was scheduled before. -/
theorem getreplica_loop_no_memory (env : Env) (cq : mc_CMDQUEUE) (cfg : lcbvb_CONFIG)
    (vbid : Nat) (cmd : lcb_CMDGETREPLICA) (req : protocol_binary_request_header)
    (more r0 : Nat) (rck : RGetCookie) (trace : List Event)
    (h : env.mcreq_allocate_packet (replica_pipeline cq cfg vbid r0) = none) :
    getreplica_loop env cq cfg vbid cmd req more r0 rck trace
      = { rc := LCB_ERR_NO_MEMORY, trace := trace ++ [Event.rck_deleted] } := by
  unfold replica_pipeline at h
  unfold getreplica_loop
  simp only [h]

/-- The last iteration of the loop of `lcb_getreplica` when the allocation succeeds. -/
theorem getreplica_loop_last (env : Env) (cq : mc_CMDQUEUE) (cfg : lcbvb_CONFIG)
    (vbid : Nat) (cmd : lcb_CMDGETREPLICA) (req : protocol_binary_request_header)
    (r0 opq : Nat) (rck : RGetCookie) (trace : List Event)
    (h : env.mcreq_allocate_packet (replica_pipeline cq cfg vbid r0) = some opq) :
    getreplica_loop env cq cfg vbid cmd req 0 r0 rck trace
      = { rc := LCB_SUCCESS,
          trace := trace ++
            [Event.packet_allocated (replica_pipeline cq cfg vbid r0).index opq,
             Event.sched_add (replica_pipeline cq cfg vbid r0).index
               (replica_packet env (replica_pipeline cq cfg vbid r0) cmd req opq)] ++
            [Event.maybe_schedleave],
          rck := some { rck with remaining := rck.remaining + 1 } } := by
  unfold replica_pipeline at h
  unfold getreplica_loop
  simp only [h]
  rfl

/-- An iteration of the loop of `lcb_getreplica` that is not the last, when the
allocation succeeds. -/
theorem getreplica_loop_next (env : Env) (cq : mc_CMDQUEUE) (cfg : lcbvb_CONFIG)
    (vbid : Nat) (cmd : lcb_CMDGETREPLICA) (req : protocol_binary_request_header)
    (m r0 opq : Nat) (rck : RGetCookie) (trace : List Event)
    (h : env.mcreq_allocate_packet (replica_pipeline cq cfg vbid r0) = some opq) :
    getreplica_loop env cq cfg vbid cmd req (m + 1) r0 rck trace
      = getreplica_loop env cq cfg vbid cmd req m (r0 + 1)
          { rck with remaining := rck.remaining + 1 }
          (trace ++
            [Event.packet_allocated (replica_pipeline cq cfg vbid r0).index opq,
             Event.sched_add (replica_pipeline cq cfg vbid r0).index
               (replica_packet env (replica_pipeline cq cfg vbid r0) cmd req opq)]) := by
  unfold replica_pipeline at h
  conv => lhs; unfold getreplica_loop
  simp only [h]
  rfl

/-- When the loop of `lcb_getreplica` leaves a cookie, every allocation succeeded: the
call returns `SUCCESS`, the counter of the cookie was incremented once per iteration, and
the loop handed one packet to the pipeline of each replica `r0, …, r0 + more`, in this
order, each packet pointing to the cookie. -/
theorem getreplica_loop_ok (env : Env) (cq : mc_CMDQUEUE) (cfg : lcbvb_CONFIG)
    (vbid : Nat) (cmd : lcb_CMDGETREPLICA) (req : protocol_binary_request_header)
    (more : Nat) :
    ∀ (r0 : Nat) (rck : RGetCookie) (trace : List Event) (rck' : RGetCookie),
      (getreplica_loop env cq cfg vbid cmd req more r0 rck trace).rck = some rck' →
      rck' = { rck with remaining := rck.remaining + ((more + 1 : Nat) : Int) } ∧
      (getreplica_loop env cq cfg vbid cmd req more r0 rck trace).rc = LCB_SUCCESS ∧
      (events_sched (getreplica_loop env cq cfg vbid cmd req more r0 rck trace).trace).map
          Prod.fst
        = (events_sched trace).map Prod.fst ++
          (List.range' r0 (more + 1)).map (fun r => (replica_pipeline cq cfg vbid r).index) ∧
      (∀ p ∈ events_sched (getreplica_loop env cq cfg vbid cmd req more r0 rck trace).trace,
        p ∈ events_sched trace ∨ p.2.u_rdata = ReqData.rget) := by
  induction more with
  | zero =>
    intro r0 rck trace rck' h
    cases halloc : env.mcreq_allocate_packet (replica_pipeline cq cfg vbid r0) with
    | none =>
      rw [getreplica_loop_no_memory env cq cfg vbid cmd req 0 r0 rck trace halloc] at h
      simp at h
    | some opq =>
      rw [getreplica_loop_last env cq cfg vbid cmd req r0 opq rck trace halloc] at h ⊢
      simp only [Option.some.injEq] at h
      subst h
      refine ⟨by simp, rfl, ?_, ?_⟩
      · simp [events_sched, List.range']
      · intro p hp
        simp only [events_sched_append, List.mem_append] at hp
        rcases hp with (hp | hp) | hp
        · exact Or.inl hp
        · simp [events_sched] at hp
          right
          rw [hp]
          rfl
        · simp [events_sched] at hp
  | succ m ih =>
    intro r0 rck trace rck' h
    cases halloc : env.mcreq_allocate_packet (replica_pipeline cq cfg vbid r0) with
    | none =>
      rw [getreplica_loop_no_memory env cq cfg vbid cmd req (m + 1) r0 rck trace halloc] at h
      simp at h
    | some opq =>
      rw [getreplica_loop_next env cq cfg vbid cmd req m r0 opq rck trace halloc] at h ⊢
      obtain ⟨h1, h2, h3, h4⟩ := ih _ _ _ rck' h
      refine ⟨?_, h2, ?_, ?_⟩
      · rw [h1]
        simp only [RGetCookie.mk.injEq, true_and, and_true]
        push_cast
        omega
      · rw [h3]
        simp [events_sched, List.range'_succ]
      · intro p hp
        rcases h4 p hp with hp' | hp'
        · simp only [events_sched_append, List.mem_append] at hp'
          rcases hp' with hp' | hp'
          · exact Or.inl hp'
          · simp [events_sched] at hp'
            right
            rw [hp']
            rfl
        · exact Or.inr hp'


/-- When the scheduling part of `lcb_getreplica` leaves a cookie: the range of replicas
was accepted, the call returns `SUCCESS`, the cookie holds the start time, the deadline,
the first replica, the replica count and one reference per packet, and one packet was
handed to the pipeline of each replica of the range, in order, each pointing to the
cookie. -/
theorem getreplica_schedule_accepted (env : Env) (inst : lcb_INSTANCE) (cookie : Nat)
    (cmd : lcb_CMDGETREPLICA) (rck : RGetCookie)
    (h : (getreplica_schedule env inst cookie cmd).rck = some rck) :
    ∃ r0 r1,
      replica_range inst (inst.cmdq.config.getD {}) (env.mcreq_map_key inst.cmdq cmd.key).1 cmd
        = Except.ok (r0, r1) ∧
      (getreplica_schedule env inst cookie cmd).rc = LCB_SUCCESS ∧
      rck = { cookie := cookie, start := env.gethrtime,
              deadline := env.gethrtime + LCB_US2NS
                (if cmd.timeout ≠ 0 then cmd.timeout else inst.settings.operation_timeout),
              r_cur := r0, r_max := LCBT_NREPLICAS inst,
              remaining := ((r1 - (r0 + 1) + 1 : Nat) : Int),
              vbucket := (env.mcreq_map_key inst.cmdq cmd.key).1, strategy := cmd.strategy } ∧
      (events_sched (getreplica_schedule env inst cookie cmd).trace).map Prod.fst
        = (List.range' r0 (r1 - (r0 + 1) + 1)).map (fun r =>
            (replica_pipeline inst.cmdq (inst.cmdq.config.getD {})
              (env.mcreq_map_key inst.cmdq cmd.key).1 r).index) ∧
      (∀ p ∈ events_sched (getreplica_schedule env inst cookie cmd).trace,
        p.2.u_rdata = ReqData.rget) := by
  unfold getreplica_schedule at h ⊢
  simp only [] at h ⊢
  cases hr : replica_range inst (inst.cmdq.config.getD {})
      (env.mcreq_map_key inst.cmdq cmd.key).1 cmd with
  | error e =>
    rw [hr] at h
    simp at h
  | ok r =>
    obtain ⟨r0, r1⟩ := r
    rw [hr] at h
    simp only [] at h ⊢
    obtain ⟨h1, h2, h3, h4⟩ := getreplica_loop_ok env _ _ _ _ _ _ _ _ _ rck h
    refine ⟨r0, r1, rfl, h2, ?_, ?_, ?_⟩
    · rw [h1]
      simp
    · rw [h3]
      simp [events_sched]
    · intro p hp
      rcases h4 p hp with hp' | hp'
      · simp [events_sched] at hp'
      · exact hp'

/-- A cookie left by `lcb_getreplica` was left by its scheduling part, run for the
command or for its clone with the collection id filled in, after `getreplica_validate`
accepted the command. -/
theorem lcb_getreplica_rck (env : Env) (inst : lcb_INSTANCE) (cookie : Nat)
    (cmd : lcb_CMDGETREPLICA) (rck : RGetCookie)
    (h : (lcb_getreplica env inst cookie cmd).rck = some rck) :
    getreplica_validate env inst cmd = LCB_SUCCESS ∧
    ∃ cid, lcb_getreplica env inst cookie cmd
      = getreplica_schedule env inst cookie { cmd with cid := cid } := by
  unfold lcb_getreplica at h ⊢
  simp only [] at h ⊢
  split at h
  · simp at h
  · rename_i hv
    have hv' : getreplica_validate env inst cmd = LCB_SUCCESS := by simpa using hv
    refine ⟨hv', ?_⟩
    rw [if_neg hv]
    split at h
    · rename_i hc
      rw [if_pos hc]
      exact ⟨cmd.cid, rfl⟩
    · rename_i hc
      rw [if_neg hc]
      split at h
      · rename_i cid hcid
        exact ⟨cid, rfl⟩
      · simp at h

/-- What `getreplica_validate` has checked when it accepts a command: there is a cluster
map with at least one replica. -/
theorem getreplica_validate_config (env : Env) (inst : lcb_INSTANCE)
    (cmd : lcb_CMDGETREPLICA) (h : getreplica_validate env inst cmd = LCB_SUCCESS) :
    ∃ cfg, inst.cmdq.config = some cfg ∧ LCBT_NREPLICAS inst ≠ 0 ∧ cmd.key ≠ [] := by
  unfold getreplica_validate at h
  simp only [] at h
  split at h
  · rename_i he
    exact absurd h he
  · split at h
    · simp at h
    · rename_i hk
      split at h
      · simp at h
      · rename_i cfg hcfg
        split at h
        · simp at h
        · rename_i hn
          exact ⟨cfg, hcfg, hn, by simpa [List.length_eq_zero] using hk⟩

/-- A request accepted by `lcb_getreplica`: the call returns `SUCCESS`, there is a
cluster map with at least one replica, the cookie holds start time, deadline, first
replica, replica count and one reference per packet, and one packet was handed to the
pipeline of each replica of the accepted range, in order, each pointing to the cookie. -/
theorem lcb_getreplica_accepted (env : Env) (inst : lcb_INSTANCE) (cookie : Nat)
    (cmd : lcb_CMDGETREPLICA) (rck : RGetCookie)
    (h : (lcb_getreplica env inst cookie cmd).rck = some rck) :
    ∃ cfg r0 r1,
      inst.cmdq.config = some cfg ∧ LCBT_NREPLICAS inst ≠ 0 ∧
      replica_range inst cfg (env.mcreq_map_key inst.cmdq cmd.key).1 cmd = Except.ok (r0, r1) ∧
      (lcb_getreplica env inst cookie cmd).rc = LCB_SUCCESS ∧
      rck = { cookie := cookie, start := env.gethrtime,
              deadline := env.gethrtime + LCB_US2NS
                (if cmd.timeout ≠ 0 then cmd.timeout else inst.settings.operation_timeout),
              r_cur := r0, r_max := LCBT_NREPLICAS inst,
              remaining := ((r1 - (r0 + 1) + 1 : Nat) : Int),
              vbucket := (env.mcreq_map_key inst.cmdq cmd.key).1, strategy := cmd.strategy } ∧
      (events_sched (lcb_getreplica env inst cookie cmd).trace).map Prod.fst
        = (List.range' r0 (r1 - (r0 + 1) + 1)).map (fun r =>
            (replica_pipeline inst.cmdq cfg (env.mcreq_map_key inst.cmdq cmd.key).1 r).index) ∧
      (∀ p ∈ events_sched (lcb_getreplica env inst cookie cmd).trace,
        p.2.u_rdata = ReqData.rget) := by
  obtain ⟨hv, cid, heq⟩ := lcb_getreplica_rck env inst cookie cmd rck h
  obtain ⟨cfg, hcfg, hn, _⟩ := getreplica_validate_config env inst cmd hv
  rw [heq] at h ⊢
  obtain ⟨r0, r1, hr, hrc, hrck, hs, hp⟩ :=
    getreplica_schedule_accepted env inst cookie _ rck h
  have hcfg' : inst.cmdq.config.getD {} = cfg := by rw [hcfg]; rfl
  rw [hcfg'] at hr hs
  refine ⟨cfg, r0, r1, hcfg, hn, ?_, hrc, hrck, hs, hp⟩
  simpa [replica_range] using hr


/-- Witness of C12: an upsert flagged as JSON, sent to a server that supports JSON by a
client that does not compress, carries datatype 0x01. -/
theorem store_header_datatype_witness :
    (first_scheduled (lcb_store testEnv testInstanceJson 7 upsert_json)).hdr.datatype = 0x01 ∧
    ∃ (server : Server) (should_compress : Nat),
      server.index = 0 ∧
      store_value testEnv testInstanceJson server upsert_json
        = some ((first_scheduled (lcb_store testEnv testInstanceJson 7 upsert_json)).u_value,
            should_compress) ∧
      ((first_scheduled (lcb_store testEnv testInstanceJson 7 upsert_json)).hdr.datatype
          &&& 0x01 ≠ 0 ↔
        (upsert_json.datatype &&& testEnv.LCB_VALUE_F_JSON ≠ 0 ∧ server.supports_json = true)) ∧
      ((first_scheduled (lcb_store testEnv testInstanceJson 7 upsert_json)).hdr.datatype
          &&& 0x02 ≠ 0 ↔
        (should_compress ≠ 0 ∨ upsert_json.datatype &&& testEnv.LCB_VALUE_F_SNAPPYCOMP ≠ 0)) ∧
      (first_scheduled (lcb_store testEnv testInstanceJson 7 upsert_json)).hdr.datatype &&& 0x03
        = (first_scheduled (lcb_store testEnv testInstanceJson 7 upsert_json)).hdr.datatype :=
  ⟨by decide,
   store_header_datatype testEnv testInstanceJson 7 upsert_json 0
     (first_scheduled (lcb_store testEnv testInstanceJson 7 upsert_json)) (by decide)⟩

/-! ## Deadlines -/

/-- The request data that the durability branch of `lcb_store` prepares records the
clock reading as start time and, as deadline, the start time plus the timeout of the
command, or the operation timeout of the instance when the command has none. -/
theorem store_durability_times (env : Env) (inst : lcb_INSTANCE) (cookie : Nat)
    (cmd : lcb_CMDSTORE) (d : StoreDurability)
    (h : store_durability env inst cookie cmd = Except.ok d) :
    ∀ pkt : mc_PACKET, pkt.u_rdata = d.u_rdata →
      pkt.start = env.gethrtime ∧
      pkt.deadline = pkt.start + LCB_US2NS
        (if cmd.timeout ≠ 0 then cmd.timeout else inst.settings.operation_timeout) := by
  intro pkt hp
  unfold store_durability at h
  simp only [] at h
  generalize (if cmd.timeout ≠ 0 then cmd.timeout else inst.settings.operation_timeout)
    = tmo at h ⊢
  by_cases hpoll : cmd.durability_mode = LCB_DURABILITY_POLL
  · rw [if_pos hpoll] at h
    split_ifs at h <;> cases h <;>
      simp [mc_PACKET.start, mc_PACKET.deadline, hp]
  · rw [if_neg hpoll] at h
    cases h
    simp [mc_PACKET.start, mc_PACKET.deadline, hp]

/-- Start time and deadline of every packet that `lcb_store` schedules. -/
theorem lcb_store_times (env : Env) (inst : lcb_INSTANCE) (cookie : Nat)
    (cmd : lcb_CMDSTORE) (pl : Nat) (pkt : mc_PACKET)
    (h : Event.sched_add pl pkt ∈ (lcb_store env inst cookie cmd).trace) :
    pkt.start = env.gethrtime ∧
    pkt.deadline = pkt.start + LCB_US2NS
      (if cmd.timeout ≠ 0 then cmd.timeout else inst.settings.operation_timeout) := by
  obtain ⟨cid, hs⟩ := lcb_store_sched env inst cookie cmd pl pkt h
  obtain ⟨opcode, extlen, bp, u_value, sc, d, _, _, hd, hpkt⟩ :=
    store_schedule_sched env inst cookie _ pl pkt hs
  have hd' : store_durability env inst cookie cmd = Except.ok d := by
    simpa [store_durability] using hd
  have hr : pkt.u_rdata = d.u_rdata := by
    subst hpkt
    simp [store_packet]
  exact store_durability_times env inst cookie cmd d hd' pkt hr

/-- C13: for every store and replica-get command, the deadline attached to the packet
(in its request data, in the durability context of a store with poll durability, or in
the cookie that the packets of a replica read share) equals its start time plus the
command's timeout converted from microseconds to nanoseconds when that timeout is
non-zero, and plus the instance's `operation_timeout` converted to nanoseconds when the
command's timeout is 0. -/
theorem deadline_of_store_and_getreplica (env : Env) (inst : lcb_INSTANCE) (cookie : Nat) :
    (∀ (cmd : lcb_CMDSTORE) (pl : Nat) (pkt : mc_PACKET),
      Event.sched_add pl pkt ∈ (lcb_store env inst cookie cmd).trace →
      (cmd.timeout ≠ 0 → pkt.deadline = pkt.start + cmd.timeout * 1000) ∧
      (cmd.timeout = 0 → pkt.deadline = pkt.start + inst.settings.operation_timeout * 1000)) ∧
    (∀ (cmd : lcb_CMDGETREPLICA) (rck : RGetCookie),
      (lcb_getreplica env inst cookie cmd).rck = some rck →
      (∀ p ∈ events_sched (lcb_getreplica env inst cookie cmd).trace,
        p.2.u_rdata = ReqData.rget) ∧
      (cmd.timeout ≠ 0 → rck.deadline = rck.start + cmd.timeout * 1000) ∧
      (cmd.timeout = 0 → rck.deadline = rck.start + inst.settings.operation_timeout * 1000)) := by
  refine ⟨?_, ?_⟩
  · intro cmd pl pkt h
    obtain ⟨_, hd⟩ := lcb_store_times env inst cookie cmd pl pkt h
    rw [hd]
    exact ⟨fun ht => by simp [ht, LCB_US2NS], fun ht => by simp [ht, LCB_US2NS]⟩
  · intro cmd rck h
    obtain ⟨cfg, r0, r1, _, _, _, _, hrck, _, hp⟩ :=
      lcb_getreplica_accepted env inst cookie cmd rck h
    refine ⟨hp, ?_, ?_⟩
    · intro ht
      rw [hrck]
      simp [ht, LCB_US2NS]
    · intro ht
      rw [hrck]
      simp [ht, LCB_US2NS]

/-- Witness of C13: an upsert with a timeout of 1000 µs has its deadline 1 000 000 ns
after its start, and a replica read without a timeout has it 2.5 s (the operation
timeout) after its start. -/
theorem deadline_of_store_and_getreplica_witness :
    (first_scheduled (lcb_store testEnv testInstance 7 upsert_timeout_1ms)).deadline
      = (first_scheduled (lcb_store testEnv testInstance 7 upsert_timeout_1ms)).start
        + 1000 * 1000 ∧
    (∀ rck, (lcb_getreplica testEnv testInstance 7 getreplica_all).rck = some rck →
      rck.deadline = rck.start + 2500000 * 1000) :=
  ⟨((deadline_of_store_and_getreplica testEnv testInstance 7).1 upsert_timeout_1ms 0
      (first_scheduled (lcb_store testEnv testInstance 7 upsert_timeout_1ms))
      (by decide)).1 (by decide),
   fun rck h =>
    ((deadline_of_store_and_getreplica testEnv testInstance 7).2 getreplica_all rck h).2.2
      (by decide)⟩

/-- C14, as stated, fails: an upsert with a timeout of 1000 µs on an instance whose
`operation_timeout` is 2 500 000 µs gets the deadline `start + 1 000 000` ns, which is
the command's own timeout and not the larger of the two (`start + 2 500 000 000` ns); the
same holds for a replica read. -/
theorem deadline_max_counterexample :
    testInstance.settings.operation_timeout = 2500000 ∧
    (first_scheduled (lcb_store testEnv testInstance 7 upsert_timeout_1ms)).deadline
      = (first_scheduled (lcb_store testEnv testInstance 7 upsert_timeout_1ms)).start
        + 1000000 ∧
    (first_scheduled (lcb_store testEnv testInstance 7 upsert_timeout_1ms)).deadline
      ≠ (first_scheduled (lcb_store testEnv testInstance 7 upsert_timeout_1ms)).start
        + LCB_US2NS (max upsert_timeout_1ms.timeout testInstance.settings.operation_timeout) ∧
    (lcb_getreplica testEnv testInstance 7 getreplica_all_timeout_1ms).rck.map
        (fun rck => rck.deadline - rck.start) = some 1000000 := by
  decide

/-- C14 (amended): for every store and replica-get command, the deadline the facade
computes is the start time plus the command's own timeout whenever that timeout is not
zero, and the start time plus the instance's `operation_timeout` only when it is zero
(both converted to nanoseconds). It is `start + max(command.timeout, operation_timeout)`
exactly when the command's timeout is zero or not smaller than `operation_timeout`. -/
theorem deadline_prefers_command_timeout (env : Env) (inst : lcb_INSTANCE) (cookie : Nat) :
    (∀ (cmd : lcb_CMDSTORE) (pl : Nat) (pkt : mc_PACKET),
      Event.sched_add pl pkt ∈ (lcb_store env inst cookie cmd).trace →
      pkt.deadline = pkt.start + LCB_US2NS
        (if cmd.timeout = 0 then inst.settings.operation_timeout else cmd.timeout) ∧
      (pkt.deadline = pkt.start + LCB_US2NS (max cmd.timeout inst.settings.operation_timeout) ↔
        (cmd.timeout = 0 ∨ inst.settings.operation_timeout ≤ cmd.timeout))) ∧
    (∀ (cmd : lcb_CMDGETREPLICA) (rck : RGetCookie),
      (lcb_getreplica env inst cookie cmd).rck = some rck →
      rck.deadline = rck.start + LCB_US2NS
        (if cmd.timeout = 0 then inst.settings.operation_timeout else cmd.timeout) ∧
      (rck.deadline = rck.start + LCB_US2NS (max cmd.timeout inst.settings.operation_timeout) ↔
        (cmd.timeout = 0 ∨ inst.settings.operation_timeout ≤ cmd.timeout))) := by
  have key : ∀ (t o s d : Nat), d = s + LCB_US2NS (if t ≠ 0 then t else o) →
      d = s + LCB_US2NS (if t = 0 then o else t) ∧
      (d = s + LCB_US2NS (max t o) ↔ (t = 0 ∨ o ≤ t)) := by
    intro t o s d hd
    subst hd
    unfold LCB_US2NS
    by_cases ht : t = 0
    · subst ht
      simp
    · simp only [ne_eq, ht, not_false_eq_true, if_true, if_false, false_or, true_and]
      constructor
      · intro h
        have : t = max t o := by omega
        omega
      · intro h
        rw [max_eq_left h]
  refine ⟨?_, ?_⟩
  · intro cmd pl pkt h
    obtain ⟨_, hd⟩ := lcb_store_times env inst cookie cmd pl pkt h
    exact key _ _ _ _ hd
  · intro cmd rck h
    obtain ⟨cfg, r0, r1, _, _, _, _, hrck, _, _⟩ :=
      lcb_getreplica_accepted env inst cookie cmd rck h
    apply key
    rw [hrck]

/-- Witness of C14 (amended): the deadline of an upsert with a timeout of 1000 µs is its
start time plus 1000 µs in nanoseconds. -/
theorem deadline_prefers_command_timeout_witness :
    (first_scheduled (lcb_store testEnv testInstance 7 upsert_timeout_1ms)).deadline
      = (first_scheduled (lcb_store testEnv testInstance 7 upsert_timeout_1ms)).start
        + LCB_US2NS 1000 :=
  ((deadline_prefers_command_timeout testEnv testInstance 7).1 upsert_timeout_1ms 0
      (first_scheduled (lcb_store testEnv testInstance 7 upsert_timeout_1ms))
      (by decide)).1


/-! ## Validation of poll durability -/

/-- With poll durability the durability branch of `lcb_store` is decided by the answer of
`lcb_durability_validate`, called with the criteria of the command and with the cap-max
option when one of them is -1: a rejection is returned as it is, otherwise a durability
context is created from the validated criteria. -/
theorem store_durability_poll (env : Env) (inst : lcb_INSTANCE) (cookie : Nat)
    (cmd : lcb_CMDSTORE) (hpoll : cmd.durability_mode = LCB_DURABILITY_POLL) :
    store_durability env inst cookie cmd =
      if (store_durability_answer env inst cmd).1 ≠ LCB_SUCCESS then
        Except.error (store_durability_answer env inst cmd).1
      else
        Except.ok
          { u_rdata := ReqData.durstore
              { cookie := cookie, persist_to := (store_durability_answer env inst cmd).2.1,
                replicate_to := (store_durability_answer env inst cmd).2.2,
                start := env.gethrtime,
                deadline := env.gethrtime + LCB_US2NS
                  (if cmd.timeout ≠ 0 then cmd.timeout else inst.settings.operation_timeout) },
            reqext := true, body := store_body_zero,
            events := [Event.durctx_new
              { cookie := cookie, persist_to := (store_durability_answer env inst cmd).2.1,
                replicate_to := (store_durability_answer env inst cmd).2.2,
                start := env.gethrtime,
                deadline := env.gethrtime + LCB_US2NS
                  (if cmd.timeout ≠ 0 then cmd.timeout else inst.settings.operation_timeout) }] } := by
  unfold store_durability store_durability_answer store_duropts
  simp only [hpoll, if_true]

/-- `store_schedule` for a command with poll durability, once the packet is allocated and
the value stored: a rejection by the validator wipes and releases the packet and is
returned; otherwise the packet is scheduled. -/
theorem store_schedule_poll (env : Env) (inst : lcb_INSTANCE) (cookie : Nat)
    (cmd : lcb_CMDSTORE) (opcode extlen : Nat) (bp : BasicPacket) (u_value : ValueSpan)
    (should_compress : Nat)
    (hpoll : cmd.durability_mode = LCB_DURABILITY_POLL)
    (hop : get_esize_and_opcode cmd.operation 0 0 = (LCB_SUCCESS, opcode, extlen))
    (hbp : env.mcreq_basic_packet inst.cmdq cmd.key cmd.cid extlen 0 = Except.ok bp)
    (hval : store_value env inst bp.pipeline cmd = some (u_value, should_compress)) :
    store_schedule env inst cookie cmd =
      match store_durability env inst cookie cmd with
      | Except.error err =>
        { rc := err,
          trace := [Event.packet_allocated bp.pipeline.index bp.opaque_,
                    Event.packet_wiped bp.pipeline.index bp.opaque_,
                    Event.packet_released bp.pipeline.index bp.opaque_] }
      | Except.ok d =>
        { rc := LCB_SUCCESS,
          trace := [Event.packet_allocated bp.pipeline.index bp.opaque_] ++ d.events ++
            [Event.sched_add bp.pipeline.index
              (store_packet env cmd PROTOCOL_BINARY_REQ opcode extlen 0 bp u_value
                should_compress d)] } := by
  have hu : store_use_alt inst cmd = false := by simp [store_use_alt, hpoll]
  unfold store_schedule
  simp only [hu, Bool.false_eq_true, if_false, hop, ne_eq, not_true_eq_false, hbp, hval]


/-- Once `store_validate` accepted the command and the collection id is known (the
instance has collections disabled, or the collection cache has the id), `lcb_store` is
`store_schedule` run for the command with that collection id. -/
theorem lcb_store_direct (env : Env) (inst : lcb_INSTANCE) (cookie : Nat)
    (cmd : lcb_CMDSTORE) (cid : Nat)
    (hv : store_validate env inst cmd = LCB_SUCCESS)
    (hcid : (inst.settings.use_collections = false ∧ cid = cmd.cid) ∨
      (inst.settings.use_collections = true ∧
        env.collcache_get inst cmd.scope cmd.collection = some cid)) :
    lcb_store env inst cookie cmd = store_schedule env inst cookie { cmd with cid := cid } := by
  unfold lcb_store
  simp only [hv, ne_eq, not_true_eq_false, if_false]
  rcases hcid with ⟨hc, hcid⟩ | ⟨hc, hcid⟩
  · subst hcid
    simp [hc, store_operation]
  · simp [hc, hcid, store_operation]

/-- C20: for a store command with poll durability that `lcb_store` accepted up to the
validation of the criteria (command valid, collection id known, packet allocated, value
stored): `lcb_store` asks `lcb_durability_validate` for cap-max clamping if and only if
`persist_to` or `replicate_to` is -1; when the validator rejects the criteria,
`lcb_store` returns that error, wipes and releases the packet it had allocated, creates
no durability context and schedules nothing; when it accepts them the store is
scheduled with a durability context holding the validated criteria. With the validator
of the spec, the criteria (0, 0) are rejected with `INVALID_ARGUMENT`, (100, 100) (more
than the replicas of the cluster) with `DURABILITY_TOO_MANY`, and with (-1, -1) the call
returns `SUCCESS`. -/
theorem store_poll_durability_validation (env : Env) (inst : lcb_INSTANCE) (cookie : Nat)
    (cmd : lcb_CMDSTORE) (cid opcode extlen : Nat) (bp : BasicPacket) (u_value : ValueSpan)
    (should_compress : Nat)
    (hpoll : cmd.durability_mode = LCB_DURABILITY_POLL)
    (hv : store_validate env inst cmd = LCB_SUCCESS)
    (hcid : (inst.settings.use_collections = false ∧ cid = cmd.cid) ∨
      (inst.settings.use_collections = true ∧
        env.collcache_get inst cmd.scope cmd.collection = some cid))
    (hop : get_esize_and_opcode cmd.operation 0 0 = (LCB_SUCCESS, opcode, extlen))
    (hbp : env.mcreq_basic_packet inst.cmdq cmd.key cid extlen 0 = Except.ok bp)
    (hval : store_value env inst bp.pipeline cmd = some (u_value, should_compress)) :
    (env.LCB_DURABILITY_VALIDATE_CAPMAX ≠ 0 →
      (store_duropts env cmd &&& env.LCB_DURABILITY_VALIDATE_CAPMAX ≠ 0 ↔
        (cmd.persist_to = -1 ∨ cmd.replicate_to = -1))) ∧
    ((store_durability_answer env inst cmd).1 ≠ LCB_SUCCESS →
      lcb_store env inst cookie cmd =
        { rc := (store_durability_answer env inst cmd).1,
          trace := [Event.packet_allocated bp.pipeline.index bp.opaque_,
                    Event.packet_wiped bp.pipeline.index bp.opaque_,
                    Event.packet_released bp.pipeline.index bp.opaque_] }) ∧
    ((store_durability_answer env inst cmd).1 = LCB_SUCCESS →
      (lcb_store env inst cookie cmd).rc = LCB_SUCCESS ∧
      ∃ pkt dctx, (lcb_store env inst cookie cmd).trace =
          [Event.packet_allocated bp.pipeline.index bp.opaque_, Event.durctx_new dctx,
           Event.sched_add bp.pipeline.index pkt] ∧
        pkt.u_rdata = ReqData.durstore dctx ∧ dctx.cookie = cookie ∧
        dctx.persist_to = (store_durability_answer env inst cmd).2.1 ∧
        dctx.replicate_to = (store_durability_answer env inst cmd).2.2) ∧
    (env.lcb_durability_validate = lcb_durability_validate env.LCB_DURABILITY_VALIDATE_CAPMAX →
      env.LCB_DURABILITY_VALIDATE_CAPMAX ≠ 0 →
      (cmd.persist_to = 0 → cmd.replicate_to = 0 →
        (store_durability_answer env inst cmd).1 = LCB_ERR_INVALID_ARGUMENT) ∧
      (cmd.persist_to = 100 → cmd.replicate_to = 100 → LCBT_NREPLICAS inst < 100 →
        (store_durability_answer env inst cmd).1 = LCB_ERR_DURABILITY_TOO_MANY) ∧
      (cmd.persist_to = -1 → cmd.replicate_to = -1 →
        (lcb_store env inst cookie cmd).rc = LCB_SUCCESS)) := by
  have hdirect := lcb_store_direct env inst cookie cmd cid hv hcid
  have hsched := store_schedule_poll env inst cookie { cmd with cid := cid } opcode extlen bp
    u_value should_compress hpoll hop hbp (by simpa [store_value] using hval)
  have hdur : store_durability env inst cookie { cmd with cid := cid }
      = store_durability env inst cookie cmd := by
    simp [store_durability]
  rw [hdur, store_durability_poll env inst cookie cmd hpoll] at hsched
  have hreject : (store_durability_answer env inst cmd).1 ≠ LCB_SUCCESS →
      lcb_store env inst cookie cmd =
        { rc := (store_durability_answer env inst cmd).1,
          trace := [Event.packet_allocated bp.pipeline.index bp.opaque_,
                    Event.packet_wiped bp.pipeline.index bp.opaque_,
                    Event.packet_released bp.pipeline.index bp.opaque_] } := by
    intro hrej
    rw [hdirect, hsched, if_pos hrej]
  have haccept : (store_durability_answer env inst cmd).1 = LCB_SUCCESS →
      (lcb_store env inst cookie cmd).rc = LCB_SUCCESS ∧
      ∃ pkt dctx, (lcb_store env inst cookie cmd).trace =
          [Event.packet_allocated bp.pipeline.index bp.opaque_, Event.durctx_new dctx,
           Event.sched_add bp.pipeline.index pkt] ∧
        pkt.u_rdata = ReqData.durstore dctx ∧ dctx.cookie = cookie ∧
        dctx.persist_to = (store_durability_answer env inst cmd).2.1 ∧
        dctx.replicate_to = (store_durability_answer env inst cmd).2.2 := by
    intro hacc
    have hn : ¬ (store_durability_answer env inst cmd).1 ≠ LCB_SUCCESS := by simp [hacc]
    rw [hdirect, hsched, if_neg hn]
    exact ⟨rfl, _, _, rfl, rfl, rfl, rfl, rfl⟩
  refine ⟨?_, hreject, haccept, ?_⟩
  · intro hcap
    unfold store_duropts
    by_cases hm : cmd.replicate_to = -1 ∨ cmd.persist_to = -1
    · rw [if_pos hm, Nat.and_self]
      exact ⟨fun _ => hm.symm, fun _ => hcap⟩
    · rw [if_neg hm, Nat.zero_and]
      exact ⟨fun h => absurd rfl h, fun h => absurd h.symm hm⟩
  · intro hspec hcap
    refine ⟨?_, ?_, ?_⟩
    · intro hp hr
      simp [store_durability_answer, hspec, lcb_durability_validate, hp, hr, char_to_U16]
    · intro hp hr hn
      have h0 : store_duropts env cmd = 0 := by
        simp [store_duropts, hp, hr]
      simp only [store_durability_answer, hspec, lcb_durability_validate, hp, hr, h0,
        char_to_U16, Nat.zero_and]
      have h100 : ((100 : Int) % 65536).toNat = 100 := by decide
      rw [h100]
      have hgt : 100 > LCBT_NREPLICAS inst + 1 ∨ 100 > LCBT_NREPLICAS inst := Or.inr hn
      simp [hgt]
    · intro hp hr
      apply (haccept _).1
      have hc : store_duropts env cmd = env.LCB_DURABILITY_VALIDATE_CAPMAX := by
        simp [store_duropts, hp]
      simp only [store_durability_answer, hspec, lcb_durability_validate, hp, hr, hc,
        char_to_U16, Nat.and_self]
      have hm1 : ((-1 : Int) % 65536).toNat = 65535 := by decide
      rw [hm1]
      simp [hcap]


/-- Witness of C20: on the test cluster (3 replicas) `replace("k","x")` with poll
criteria (0, 0) is rejected with `INVALID_ARGUMENT` and with (100, 100) with
`DURABILITY_TOO_MANY`, the allocated packet being wiped and released and nothing else
done; with (-1, -1) the call returns `SUCCESS`. -/
theorem store_poll_durability_validation_witness :
    lcb_store testEnv testInstance 7 replace_poll_0
      = { rc := LCB_ERR_INVALID_ARGUMENT,
          trace := [Event.packet_allocated 0 1, Event.packet_wiped 0 1,
                    Event.packet_released 0 1] } ∧
    lcb_store testEnv testInstance 7 replace_poll_100
      = { rc := LCB_ERR_DURABILITY_TOO_MANY,
          trace := [Event.packet_allocated 0 1, Event.packet_wiped 0 1,
                    Event.packet_released 0 1] } ∧
    (lcb_store testEnv testInstance 7 replace_poll_capmax).rc = LCB_SUCCESS :=
  ⟨(store_poll_durability_validation testEnv testInstance 7 replace_poll_0 0 3 8
      { pipeline := { index := 0 }, opaque_ := 1, keylen := 1, vbucket := 0, key := key_k }
      { single_size := 1, bytes := value_x } 0
      rfl (by decide) (Or.inl ⟨rfl, rfl⟩) rfl rfl rfl).2.1 (by decide),
   (store_poll_durability_validation testEnv testInstance 7 replace_poll_100 0 3 8
      { pipeline := { index := 0 }, opaque_ := 1, keylen := 1, vbucket := 0, key := key_k }
      { single_size := 1, bytes := value_x } 0
      rfl (by decide) (Or.inl ⟨rfl, rfl⟩) rfl rfl rfl).2.1 (by decide),
   ((store_poll_durability_validation testEnv testInstance 7 replace_poll_capmax 0 3 8
      { pipeline := { index := 0 }, opaque_ := 1, keylen := 1, vbucket := 0, key := key_k }
      { single_size := 1, bytes := value_x } 0
      rfl (by decide) (Or.inl ⟨rfl, rfl⟩) rfl rfl rfl).2.2.2 rfl (by decide)).2.2 rfl rfl⟩


/-! ## The callback of a replica read -/

/-- `decref` of a cookie with one reference deletes it. -/
theorem decref_last (rck : RGetCookie) (h : rck.remaining = 1) : rck.decref = none := by
  simp [RGetCookie.decref, h]

/-- `decref` of a cookie with another number of references keeps it, with one less. -/
theorem decref_more (rck : RGetCookie) (h : rck.remaining ≠ 1) :
    rck.decref = some { rck with remaining := rck.remaining - 1 } := by
  have h' : rck.remaining - 1 ≠ 0 := by omega
  simp [RGetCookie.decref, h']

/-- `rget_callback` for the strategy ALL: the response is delivered, with FINAL when the
cookie has one reference left, and one reference is dropped. -/
theorem rget_callback_all (env : Env) (inst : lcb_INSTANCE) (rck : RGetCookie)
    (pkt : mc_PACKET) (err : lcb_STATUS) (resp : lcb_RESP)
    (h : rck.strategy = LCB_REPLICA_ALL) :
    rget_callback env inst rck pkt err resp =
      { rck := rck.decref,
        trace := [Event.callback_getreplica
          (if rck.remaining = 1 then { resp with rflags_FINAL := true } else resp)] } := by
  unfold rget_callback
  simp [h]

/-- `rget_callback` for the strategy SELECT: the response is delivered with FINAL and
one reference is dropped. -/
theorem rget_callback_select (env : Env) (inst : lcb_INSTANCE) (rck : RGetCookie)
    (pkt : mc_PACKET) (err : lcb_STATUS) (resp : lcb_RESP)
    (h : rck.strategy = LCB_REPLICA_SELECT) :
    rget_callback env inst rck pkt err resp =
      { rck := rck.decref,
        trace := [Event.callback_getreplica { resp with rflags_FINAL := true }] } := by
  unfold rget_callback
  simp [h]

/-- What the search loop of `rget_callback` finds: either the usable replica of the
smallest index greater than `r_cur` among the `more + 1` indices it looks at, with its
pipeline, or nothing, when none of these indices is usable; in that case `r_cur` ends at
the last index looked at. -/
theorem rget_advance_spec (cq : mc_CMDQUEUE) (cfg : lcbvb_CONFIG) (vbucket : Nat)
    (more : Nat) :
    ∀ r_cur : Nat,
      (∀ pl, (rget_advance cq cfg vbucket more r_cur).2 = some pl →
        r_cur < (rget_advance cq cfg vbucket more r_cur).1 ∧
        (rget_advance cq cfg vbucket more r_cur).1 ≤ r_cur + more + 1 ∧
        replica_usable cq cfg vbucket (rget_advance cq cfg vbucket more r_cur).1 ∧
        pl = replica_pipeline cq cfg vbucket (rget_advance cq cfg vbucket more r_cur).1 ∧
        ∀ j, r_cur < j → j < (rget_advance cq cfg vbucket more r_cur).1 →
          ¬ replica_usable cq cfg vbucket j) ∧
      ((rget_advance cq cfg vbucket more r_cur).2 = none →
        (rget_advance cq cfg vbucket more r_cur).1 = r_cur + more + 1 ∧
        ∀ j, r_cur < j → j ≤ r_cur + more + 1 → ¬ replica_usable cq cfg vbucket j) := by
  induction more with
  | zero =>
    intro r_cur
    unfold rget_advance
    simp only []
    by_cases hu : lcbvb_vbreplica cfg vbucket (r_cur + 1) > -1 ∧
        lcbvb_vbreplica cfg vbucket (r_cur + 1) < (cq.npipelines : Int)
    · rw [if_pos hu]
      refine ⟨?_, ?_⟩
      · intro pl hpl
        simp only [Option.some.injEq] at hpl
        refine ⟨by omega, by omega, hu, ?_, ?_⟩
        · rw [← hpl]
          rfl
        · intro j h1 h2
          omega
      · intro h
        simp at h
    · rw [if_neg hu]
      refine ⟨?_, ?_⟩
      · intro pl hpl
        simp at hpl
      · intro _
        refine ⟨rfl, ?_⟩
        intro j h1 h2
        have hj : j = r_cur + 1 := by omega
        subst hj
        exact hu
  | succ m ih =>
    intro r_cur
    unfold rget_advance
    simp only []
    by_cases hu : lcbvb_vbreplica cfg vbucket (r_cur + 1) > -1 ∧
        lcbvb_vbreplica cfg vbucket (r_cur + 1) < (cq.npipelines : Int)
    · rw [if_pos hu]
      refine ⟨?_, ?_⟩
      · intro pl hpl
        simp only [Option.some.injEq] at hpl
        refine ⟨by omega, by omega, hu, ?_, ?_⟩
        · rw [← hpl]
          rfl
        · intro j h1 h2
          omega
      · intro h
        simp at h
    · rw [if_neg hu]
      obtain ⟨ih1, ih2⟩ := ih (r_cur + 1)
      refine ⟨?_, ?_⟩
      · intro pl hpl
        obtain ⟨h1, h2, h3, h4, h5⟩ := ih1 pl hpl
        refine ⟨by omega, by omega, h3, h4, ?_⟩
        intro j hj1 hj2
        by_cases hj : j = r_cur + 1
        · subst hj
          exact hu
        · exact h5 j (by omega) hj2
      · intro hn
        obtain ⟨h1, h2⟩ := ih2 hn
        refine ⟨by omega, ?_⟩
        intro j hj1 hj2
        by_cases hj : j = r_cur + 1
        · subst hj
          exact hu
        · exact h2 j (by omega) (by omega)


/-! ## The range of replicas per strategy -/

/-- The range accepted for the strategy ALL is `0..n` for the `n` replicas of the map:
every replica has a server and `n` is below the number of pipelines. -/
theorem replica_range_all (inst : lcb_INSTANCE) (cfg : lcbvb_CONFIG) (vbid : Nat)
    (cmd : lcb_CMDGETREPLICA) (r0 r1 : Nat) (hs : cmd.strategy = LCB_REPLICA_ALL)
    (h : replica_range inst cfg vbid cmd = Except.ok (r0, r1)) :
    r0 = 0 ∧ r1 = LCBT_NREPLICAS inst ∧
    (∀ r, r < LCBT_NREPLICAS inst → 0 ≤ lcbvb_vbreplica cfg vbid r) ∧
    LCBT_NREPLICAS inst < inst.cmdq.npipelines := by
  unfold replica_range at h
  simp only [hs] at h
  split_ifs at h with h1 h2
  simp only [Except.ok.injEq, Prod.mk.injEq] at h
  refine ⟨h.1.symm, h.2.symm, ?_, by omega⟩
  intro r hr
  by_contra hneg
  apply h1
  rw [List.any_eq_true]
  exact ⟨r, List.mem_range.mpr hr, by simpa using hneg⟩

/-- The strategy ALL accepts the range `0..n` when every replica has a server and `n` is
below the number of pipelines. -/
theorem replica_range_all_ok (inst : lcb_INSTANCE) (cfg : lcbvb_CONFIG) (vbid : Nat)
    (cmd : lcb_CMDGETREPLICA) (hs : cmd.strategy = LCB_REPLICA_ALL)
    (honline : ∀ r, r < LCBT_NREPLICAS inst → 0 ≤ lcbvb_vbreplica cfg vbid r)
    (hpl : LCBT_NREPLICAS inst < inst.cmdq.npipelines) :
    replica_range inst cfg vbid cmd = Except.ok (0, LCBT_NREPLICAS inst) := by
  unfold replica_range
  simp only [hs]
  have h1 : ¬ ((List.range (LCBT_NREPLICAS inst)).any
      (fun ii => decide (lcbvb_vbreplica cfg vbid ii < 0)) = true) := by
    rw [List.any_eq_true]
    rintro ⟨r, hr, hlt⟩
    have := honline r (List.mem_range.mp hr)
    simp at hlt
    omega
  rw [if_neg h1, if_neg (by omega)]

/-- The range accepted for the strategy SELECT is the selected index alone: the replica
has a server and the index is below the number of pipelines. -/
theorem replica_range_select (inst : lcb_INSTANCE) (cfg : lcbvb_CONFIG) (vbid : Nat)
    (cmd : lcb_CMDGETREPLICA) (r0 r1 : Nat) (hs : cmd.strategy = LCB_REPLICA_SELECT)
    (h : replica_range inst cfg vbid cmd = Except.ok (r0, r1)) :
    r0 = cmd.index ∧ r1 = cmd.index ∧ 0 ≤ lcbvb_vbreplica cfg vbid cmd.index ∧
    cmd.index < inst.cmdq.npipelines := by
  unfold replica_range at h
  simp only [hs] at h
  split_ifs at h with h1 h2
  simp only [Except.ok.injEq, Prod.mk.injEq] at h
  exact ⟨h.1.symm, h.2.symm, by omega, by omega⟩

/-- The strategy SELECT accepts the selected index when the replica has a server and the
index is below the number of pipelines. -/
theorem replica_range_select_ok (inst : lcb_INSTANCE) (cfg : lcbvb_CONFIG) (vbid : Nat)
    (cmd : lcb_CMDGETREPLICA) (hs : cmd.strategy = LCB_REPLICA_SELECT)
    (honline : 0 ≤ lcbvb_vbreplica cfg vbid cmd.index)
    (hpl : cmd.index < inst.cmdq.npipelines) :
    replica_range inst cfg vbid cmd = Except.ok (cmd.index, cmd.index) := by
  unfold replica_range
  simp only [hs]
  rw [if_neg (by omega), if_neg (by omega)]

/-- The strategy SELECT refuses a replica without a server. -/
theorem replica_range_select_none (inst : lcb_INSTANCE) (cfg : lcbvb_CONFIG) (vbid : Nat)
    (cmd : lcb_CMDGETREPLICA) (hs : cmd.strategy = LCB_REPLICA_SELECT)
    (hoff : lcbvb_vbreplica cfg vbid cmd.index < 0) :
    replica_range inst cfg vbid cmd = Except.error LCB_ERR_NO_MATCHING_SERVER := by
  unfold replica_range
  simp only [hs]
  rw [if_pos hoff]

/-- The range accepted for the strategy FIRST is the smallest index of a replica with a
server, alone; the index is below the replica count and the number of pipelines. -/
theorem replica_range_first (inst : lcb_INSTANCE) (cfg : lcbvb_CONFIG) (vbid : Nat)
    (cmd : lcb_CMDGETREPLICA) (r0 r1 : Nat) (hs : cmd.strategy = LCB_REPLICA_FIRST)
    (h : replica_range inst cfg vbid cmd = Except.ok (r0, r1)) :
    r1 = r0 ∧ r0 < LCBT_NREPLICAS inst ∧ lcbvb_vbreplica cfg vbid r0 > -1 ∧
    (∀ j, j < r0 → ¬ lcbvb_vbreplica cfg vbid j > -1) ∧
    r0 < inst.cmdq.npipelines := by
  unfold replica_range at h
  simp only [hs] at h
  cases hf : (List.range (LCBT_NREPLICAS inst)).find?
      (fun r0 => decide (lcbvb_vbreplica cfg vbid r0 > -1)) with
  | none =>
    rw [hf] at h
    simp at h
  | some r =>
    rw [hf] at h
    simp only [] at h
    split_ifs at h with h2
    simp only [Except.ok.injEq, Prod.mk.injEq] at h
    obtain ⟨rfl, rfl⟩ := h
    rw [List.find?_range_eq_some] at hf
    obtain ⟨hf1, hf2, hf3⟩ := hf
    refine ⟨rfl, List.mem_range.mp hf2, by simpa using hf1, ?_, by omega⟩
    intro j hj
    have := hf3 j hj
    simpa using this

/-- The range of replicas does not depend on the collection id of the command. -/
theorem replica_range_cid (inst : lcb_INSTANCE) (cfg : lcbvb_CONFIG) (vbid : Nat)
    (cmd : lcb_CMDGETREPLICA) (cid : Nat) :
    replica_range inst cfg vbid { cmd with cid := cid } = replica_range inst cfg vbid cmd := by
  simp [replica_range]


/-! ## Acceptance of a replica read -/

/-- With an allocator that never fails, the loop of `lcb_getreplica` leaves a cookie. -/
theorem getreplica_loop_total (env : Env) (cq : mc_CMDQUEUE) (cfg : lcbvb_CONFIG)
    (vbid : Nat) (cmd : lcb_CMDGETREPLICA) (req : protocol_binary_request_header)
    (halloc : ∀ pl, env.mcreq_allocate_packet pl ≠ none) (more : Nat) :
    ∀ (r0 : Nat) (rck : RGetCookie) (trace : List Event),
      ∃ rck', (getreplica_loop env cq cfg vbid cmd req more r0 rck trace).rck = some rck' := by
  induction more with
  | zero =>
    intro r0 rck trace
    cases ha : env.mcreq_allocate_packet (replica_pipeline cq cfg vbid r0) with
    | none => exact absurd ha (halloc _)
    | some opq =>
      rw [getreplica_loop_last env cq cfg vbid cmd req r0 opq rck trace ha]
      exact ⟨_, rfl⟩
  | succ m ih =>
    intro r0 rck trace
    cases ha : env.mcreq_allocate_packet (replica_pipeline cq cfg vbid r0) with
    | none => exact absurd ha (halloc _)
    | some opq =>
      rw [getreplica_loop_next env cq cfg vbid cmd req m r0 opq rck trace ha]
      exact ih _ _ _

/-- When `lcb_getreplica` accepts a request and leaves a cookie: the collection is valid,
the key is not empty, there is a cluster map with at least one replica, the strategy
accepts a range of replicas for the vbucket of the key, the collection id is known
(collections disabled, or the id is cached), and the allocator has a packet for every
pipeline. -/
theorem lcb_getreplica_accepts (env : Env) (inst : lcb_INSTANCE) (cookie : Nat)
    (cmd : lcb_CMDGETREPLICA) (cfg : lcbvb_CONFIG) (r0 r1 : Nat)
    (hcoll : env.lcb_is_collection_valid inst cmd.scope cmd.collection = LCB_SUCCESS)
    (hkey : cmd.key ≠ [])
    (hcfg : inst.cmdq.config = some cfg)
    (hn : LCBT_NREPLICAS inst ≠ 0)
    (hr : replica_range inst cfg (env.mcreq_map_key inst.cmdq cmd.key).1 cmd
      = Except.ok (r0, r1))
    (hcid : inst.settings.use_collections = false ∨
      ∃ cid, env.collcache_get inst cmd.scope cmd.collection = some cid)
    (halloc : ∀ pl, env.mcreq_allocate_packet pl ≠ none) :
    ∃ rck, (lcb_getreplica env inst cookie cmd).rck = some rck := by
  have hv : getreplica_validate env inst cmd = LCB_SUCCESS := by
    unfold getreplica_validate
    simp only [hcoll, hcfg, hr]
    have hk : ¬ cmd.key.length = 0 := by
      simpa [List.length_eq_zero] using hkey
    simp [hk, hn]
  have hsched : ∀ cid, ∃ rck,
      (getreplica_schedule env inst cookie { cmd with cid := cid }).rck = some rck := by
    intro cid
    unfold getreplica_schedule
    simp only [hcfg, Option.getD_some, replica_range_cid, hr]
    exact getreplica_loop_total env _ _ _ _ _ halloc _ _ _ _
  unfold lcb_getreplica
  simp only []
  rw [if_neg (by rw [hv]; simp)]
  by_cases hc : inst.settings.use_collections = false
  · rw [if_pos hc]
    exact hsched cmd.cid
  · rw [if_neg hc]
    rcases hcid with hcid | ⟨cid, hcid⟩
    · exact absurd hcid hc
    · rw [hcid]
      exact hsched cid


/-! ## Responses to a replica read: strategies ALL and SELECT -/

/-- Once the cookie is deleted, further responses do nothing. -/
theorem rget_run_done (env : Env) (inst : lcb_INSTANCE) (ds : List (Nat × RGetResponse)) :
    ∀ st : RGetRequest, st.rck = none → rget_run env inst st ds = (st, []) := by
  induction ds with
  | nil =>
    intro st _
    rfl
  | cons d rest ih =>
    intro st h
    obtain ⟨w, r⟩ := d
    have hstep : rget_deliver env inst st w r = (st, []) := by
      unfold rget_deliver
      rw [h]
    unfold rget_run
    simp only [hstep]
    rw [ih st h]
    rfl

/-- One response to a request of strategy ALL: the answered packet is no longer in
flight, the response is delivered, with FINAL when the cookie had one reference left,
and the cookie drops one reference. -/
theorem rget_deliver_all (env : Env) (inst : lcb_INSTANCE) (st : RGetRequest)
    (c : RGetCookie) (which : Nat) (r : RGetResponse)
    (hc : st.rck = some c) (hs : c.strategy = LCB_REPLICA_ALL) (hi : st.inflight ≠ []) :
    rget_deliver env inst st which r =
      ({ rck := c.decref, inflight := st.inflight.eraseIdx (which % st.inflight.length) },
       [Event.callback_getreplica
          (if c.remaining = 1 then { r.resp with rflags_FINAL := true } else r.resp)]) := by
  unfold rget_deliver
  rw [hc]
  simp only []
  rw [if_neg hi, rget_callback_all env inst c _ r.err r.resp hs]
  simp [events_sched]

/-- One response to a request of strategy SELECT: the answered packet is no longer in
flight, the response is delivered with FINAL and the cookie drops one reference. -/
theorem rget_deliver_select (env : Env) (inst : lcb_INSTANCE) (st : RGetRequest)
    (c : RGetCookie) (which : Nat) (r : RGetResponse)
    (hc : st.rck = some c) (hs : c.strategy = LCB_REPLICA_SELECT) (hi : st.inflight ≠ []) :
    rget_deliver env inst st which r =
      ({ rck := c.decref, inflight := st.inflight.eraseIdx (which % st.inflight.length) },
       [Event.callback_getreplica { r.resp with rflags_FINAL := true }]) := by
  unfold rget_deliver
  rw [hc]
  simp only []
  rw [if_neg hi, rget_callback_select env inst c _ r.err r.resp hs]
  simp [events_sched]

/-- Removing the answered packet from `k + 1` packets in flight leaves `k`. -/
theorem inflight_eraseIdx_length (l : List (Nat × mc_PACKET)) (which k : Nat)
    (h : l.length = k + 1) : (l.eraseIdx (which % l.length)).length = k := by
  have hlt : which % l.length < l.length := Nat.mod_lt _ (by omega)
  rw [List.length_eraseIdx, if_pos hlt]
  omega

/-- As many responses as references, for a request of strategy ALL with as many packets
in flight: each response is delivered in turn, FINAL is set in the last one, and
afterwards the cookie is deleted and no packet is in flight. -/
theorem rget_run_all (env : Env) (inst : lcb_INSTANCE) (ds : List (Nat × RGetResponse)) :
    ∀ (st : RGetRequest) (c : RGetCookie),
      st.rck = some c → c.strategy = LCB_REPLICA_ALL →
      c.remaining = (ds.length : Int) → st.inflight.length = ds.length → ds ≠ [] →
      (rget_run env inst st ds).1 = { rck := none, inflight := [] } ∧
      events_callbacks (rget_run env inst st ds).2 = mark_last (ds.map (fun d => d.2.resp)) := by
  induction ds with
  | nil =>
    intro st c _ _ _ _ hne
    exact absurd rfl hne
  | cons d rest ih =>
    intro st c hc hs hrem hlen _
    obtain ⟨w, r⟩ := d
    have hi : st.inflight ≠ [] := by
      intro h0
      rw [h0] at hlen
      simp at hlen
    have hlen' : (st.inflight.eraseIdx (w % st.inflight.length)).length = rest.length :=
      inflight_eraseIdx_length _ _ _ (by simpa using hlen)
    unfold rget_run
    simp only [rget_deliver_all env inst st c w r hc hs hi]
    cases rest with
    | nil =>
      have h1 : c.remaining = 1 := by simpa using hrem
      have he : st.inflight.eraseIdx (w % st.inflight.length) = [] :=
        List.length_eq_zero.mp (by simpa using hlen')
      rw [decref_last c h1, he, if_pos h1]
      refine ⟨rfl, ?_⟩
      simp [rget_run, events_callbacks, mark_last]
    | cons d2 rest2 =>
      have h1 : c.remaining ≠ 1 := by
        rw [hrem]
        simp only [List.length_cons]
        push_cast
        omega
      rw [decref_more c h1, if_neg h1]
      obtain ⟨ih1, ih2⟩ := ih
        { rck := some { c with remaining := c.remaining - 1 },
          inflight := st.inflight.eraseIdx (w % st.inflight.length) }
        { c with remaining := c.remaining - 1 } rfl hs
        (by
          simp only [hrem, List.length_cons]
          push_cast
          omega)
        hlen' (by simp)
      refine ⟨ih1, ?_⟩
      have hcb : ∀ (resp : lcb_RESP) (t : List Event),
          events_callbacks ([Event.callback_getreplica resp] ++ t)
            = resp :: events_callbacks t := by
        intro resp t
        simp [events_callbacks]
      rw [hcb, ih2]
      simp [mark_last]

/-- The flags of `mark_last`: of responses that come without FINAL, the last one has it
and no other has. -/
theorem mark_last_flags (rs : List lcb_RESP) (hne : rs ≠ [])
    (h : ∀ r ∈ rs, r.rflags_FINAL = false) :
    (mark_last rs).map (fun r => r.rflags_FINAL)
      = List.replicate (rs.length - 1) false ++ [true] := by
  induction rs with
  | nil => exact absurd rfl hne
  | cons a rest ih =>
    cases rest with
    | nil => simp [mark_last]
    | cons b rest2 =>
      have ih' := ih (by simp) (fun r hr => h r (List.mem_cons_of_mem _ hr))
      have ha : a.rflags_FINAL = false := h a (List.mem_cons_self _ _)
      simp only [mark_last, List.map_cons, List.length_cons] at ih' ⊢
      rw [ih', ha]
      simp [List.replicate_succ]

/-- The function `mark_last` keeps the number of responses. -/
theorem mark_last_length (rs : List lcb_RESP) : (mark_last rs).length = rs.length := by
  induction rs with
  | nil => rfl
  | cons a rest ih =>
    cases rest with
    | nil => rfl
    | cons b rest2 =>
      simp only [mark_last, List.length_cons] at ih ⊢
      rw [ih]


/-! ## C15: the strategy ALL -/

/-- C15. A replica read with strategy ALL on a vbucket whose `n ≥ 1` replicas all have a
server (valid collection, non-empty key, collection id known, `n` below the number of
pipelines as the source checks, allocator with a packet for every pipeline):
`lcb_getreplica` returns `SUCCESS` and hands exactly `n` packets to pipelines, the
`r`-th to the pipeline of replica `r`, for `r = 0, …, n - 1`. Whatever `n` responses
arrive, in whatever order and with whatever status, the user callback is invoked
exactly `n` times, once per response in the order of arrival, with FINAL set by the
callback in the `n`-th invocation only; afterwards the cookie is deleted and no packet
is in flight. -/
theorem getreplica_all_fan_out (env : Env) (inst : lcb_INSTANCE) (cookie : Nat)
    (cmd : lcb_CMDGETREPLICA) (cfg : lcbvb_CONFIG)
    (hs : cmd.strategy = LCB_REPLICA_ALL)
    (hcoll : env.lcb_is_collection_valid inst cmd.scope cmd.collection = LCB_SUCCESS)
    (hkey : cmd.key ≠ [])
    (hcfg : inst.cmdq.config = some cfg)
    (hn : cfg.nrepl ≠ 0)
    (honline : ∀ r, r < cfg.nrepl →
      0 ≤ lcbvb_vbreplica cfg (env.mcreq_map_key inst.cmdq cmd.key).1 r)
    (hpl : cfg.nrepl < inst.cmdq.npipelines)
    (hcid : inst.settings.use_collections = false ∨
      ∃ cid, env.collcache_get inst cmd.scope cmd.collection = some cid)
    (halloc : ∀ pl, env.mcreq_allocate_packet pl ≠ none) :
    (lcb_getreplica env inst cookie cmd).rc = LCB_SUCCESS ∧
    (events_sched (lcb_getreplica env inst cookie cmd).trace).length = cfg.nrepl ∧
    (events_sched (lcb_getreplica env inst cookie cmd).trace).map Prod.fst
      = (List.range cfg.nrepl).map (fun r =>
          (replica_pipeline inst.cmdq cfg (env.mcreq_map_key inst.cmdq cmd.key).1 r).index) ∧
    ∀ ds : List (Nat × RGetResponse), ds.length = cfg.nrepl →
      events_callbacks (rget_run env inst (rget_request (lcb_getreplica env inst cookie cmd)) ds).2
        = mark_last (ds.map (fun d => d.2.resp)) ∧
      (events_callbacks
        (rget_run env inst (rget_request (lcb_getreplica env inst cookie cmd)) ds).2).length
        = cfg.nrepl ∧
      ((∀ d ∈ ds, d.2.resp.rflags_FINAL = false) →
        (events_callbacks
          (rget_run env inst (rget_request (lcb_getreplica env inst cookie cmd)) ds).2).map
            (fun resp => resp.rflags_FINAL)
          = List.replicate (cfg.nrepl - 1) false ++ [true]) ∧
      (rget_run env inst (rget_request (lcb_getreplica env inst cookie cmd)) ds).1
        = { rck := none, inflight := [] } := by
  have hN : LCBT_NREPLICAS inst = cfg.nrepl := by
    unfold LCBT_NREPLICAS
    rw [hcfg]
  have hrange := replica_range_all_ok inst cfg (env.mcreq_map_key inst.cmdq cmd.key).1 cmd hs
    (by rw [hN]; exact honline) (by rw [hN]; exact hpl)
  obtain ⟨rck, hrck⟩ := lcb_getreplica_accepts env inst cookie cmd cfg 0 (LCBT_NREPLICAS inst)
    hcoll hkey hcfg (by rw [hN]; exact hn) hrange hcid halloc
  obtain ⟨cfg', r0, r1, hcfg', _, hr', hrc, hck, hsched, _⟩ :=
    lcb_getreplica_accepted env inst cookie cmd rck hrck
  have hcc : cfg' = cfg := by
    rw [hcfg] at hcfg'
    exact (Option.some.inj hcfg').symm
  subst hcc
  rw [hrange] at hr'
  simp only [Except.ok.injEq, Prod.mk.injEq] at hr'
  obtain ⟨rfl, rfl⟩ := hr'
  have hcount : LCBT_NREPLICAS inst - (0 + 1) + 1 = cfg'.nrepl := by
    rw [hN]
    omega
  rw [hcount, ← List.range_eq_range'] at hsched
  rw [hcount] at hck
  have hlen : (events_sched (lcb_getreplica env inst cookie cmd).trace).length = cfg'.nrepl := by
    have := congrArg List.length hsched
    simpa using this
  refine ⟨hrc, hlen, hsched, ?_⟩
  intro ds hds
  have hne : ds ≠ [] := by
    intro h0
    rw [h0] at hds
    exact hn hds.symm
  obtain ⟨h1, h2⟩ := rget_run_all env inst ds
    (rget_request (lcb_getreplica env inst cookie cmd)) rck
    (by simp only [rget_request]; exact hrck)
    (by rw [hck]; exact hs)
    (by rw [hck, hds])
    (by simp only [rget_request]; rw [hlen, hds])
    hne
  refine ⟨h2, ?_, ?_, h1⟩
  · rw [h2, mark_last_length]
    simpa using hds
  · intro hfin
    rw [h2, mark_last_flags _ (by simpa using hne)
      (by
        intro r hr
        obtain ⟨d, hd, rfl⟩ := List.mem_map.mp hr
        exact hfin d hd)]
    simp [hds]

/-- Witness of C15: three replicas, all online; the three packets go to servers 1, 2
and 3, and the responses success, failure, success are delivered in this order, FINAL
on the third only. -/
theorem getreplica_all_fan_out_witness :
    (events_sched (lcb_getreplica testEnv testInstance 7 getreplica_all).trace).map Prod.fst
      = [1, 2, 3] ∧
    events_callbacks
      (rget_run testEnv testInstance
        (rget_request (lcb_getreplica testEnv testInstance 7 getreplica_all))
        [(0, response_ok), (0, response_timeout), (0, response_ok)]).2
      = [response_ok.resp, response_timeout.resp,
         { response_ok.resp with rflags_FINAL := true }] :=
  ⟨(getreplica_all_fan_out testEnv testInstance 7 getreplica_all
      { nrepl := 3, vbuckets := [[0, 1, 2, 3]] } rfl (by decide) (by decide) rfl (by decide)
      (by decide) (by decide) (Or.inl rfl) (by intro pl; simp [testEnv])).2.2.1,
   ((getreplica_all_fan_out testEnv testInstance 7 getreplica_all
      { nrepl := 3, vbuckets := [[0, 1, 2, 3]] } rfl (by decide) (by decide) rfl (by decide)
      (by decide) (by decide) (Or.inl rfl) (by intro pl; simp [testEnv])).2.2.2
      [(0, response_ok), (0, response_timeout), (0, response_ok)] rfl).1⟩


/-! ## C18: the strategy SELECT -/

/-- C18. A replica read with strategy SELECT and index `i` (valid collection, non-empty
key, cluster map present). When replica `i` of the key's vbucket has a server (and `i`
is below the number of pipelines as the source checks, the collection id is known and
the allocator has a packet): `lcb_getreplica` returns `SUCCESS` and hands exactly one
packet to a pipeline, that of replica `i`; the response to it, whatever it is, is
delivered to the user with FINAL set, the cookie is deleted and no packet is left in
flight. When replica `i` has no server, the call returns `NO_MATCHING_SERVER` with no
effect at all: no packet, no cookie, no callback. -/
theorem getreplica_select_single (env : Env) (inst : lcb_INSTANCE) (cookie : Nat)
    (cmd : lcb_CMDGETREPLICA) (cfg : lcbvb_CONFIG)
    (hs : cmd.strategy = LCB_REPLICA_SELECT)
    (hcoll : env.lcb_is_collection_valid inst cmd.scope cmd.collection = LCB_SUCCESS)
    (hkey : cmd.key ≠ [])
    (hcfg : inst.cmdq.config = some cfg) :
    (0 ≤ lcbvb_vbreplica cfg (env.mcreq_map_key inst.cmdq cmd.key).1 cmd.index →
      cmd.index < inst.cmdq.npipelines →
      (inst.settings.use_collections = false ∨
        ∃ cid, env.collcache_get inst cmd.scope cmd.collection = some cid) →
      (∀ pl, env.mcreq_allocate_packet pl ≠ none) →
      (lcb_getreplica env inst cookie cmd).rc = LCB_SUCCESS ∧
      (events_sched (lcb_getreplica env inst cookie cmd).trace).map Prod.fst
        = [(replica_pipeline inst.cmdq cfg (env.mcreq_map_key inst.cmdq cmd.key).1
            cmd.index).index] ∧
      ∀ (which : Nat) (r : RGetResponse),
        rget_deliver env inst (rget_request (lcb_getreplica env inst cookie cmd)) which r
          = ({ rck := none, inflight := [] },
             [Event.callback_getreplica { r.resp with rflags_FINAL := true }])) ∧
    (lcbvb_vbreplica cfg (env.mcreq_map_key inst.cmdq cmd.key).1 cmd.index < 0 →
      lcb_getreplica env inst cookie cmd = { rc := LCB_ERR_NO_MATCHING_SERVER }) := by
  have hk : ¬ cmd.key.length = 0 := by
    simpa [List.length_eq_zero] using hkey
  refine ⟨?_, ?_⟩
  · intro honline hpl hcid halloc
    have hn : LCBT_NREPLICAS inst ≠ 0 := by
      unfold LCBT_NREPLICAS
      rw [hcfg]
      show cfg.nrepl ≠ 0
      intro h0
      unfold lcbvb_vbreplica at honline
      rw [if_neg (by omega)] at honline
      omega
    have hrange := replica_range_select_ok inst cfg
      (env.mcreq_map_key inst.cmdq cmd.key).1 cmd hs honline hpl
    obtain ⟨rck, hrck⟩ := lcb_getreplica_accepts env inst cookie cmd cfg cmd.index cmd.index
      hcoll hkey hcfg hn hrange hcid halloc
    obtain ⟨cfg', r0, r1, hcfg', _, hr', hrc, hck, hsched, _⟩ :=
      lcb_getreplica_accepted env inst cookie cmd rck hrck
    have hcc : cfg' = cfg := by
      rw [hcfg] at hcfg'
      exact (Option.some.inj hcfg').symm
    subst hcc
    rw [hrange] at hr'
    simp only [Except.ok.injEq, Prod.mk.injEq] at hr'
    obtain ⟨rfl, rfl⟩ := hr'
    have hcount : cmd.index - (cmd.index + 1) + 1 = 1 := by omega
    rw [hcount] at hsched hck
    have hsched' : (events_sched (lcb_getreplica env inst cookie cmd).trace).map Prod.fst
        = [(replica_pipeline inst.cmdq cfg' (env.mcreq_map_key inst.cmdq cmd.key).1
            cmd.index).index] := by
      rw [hsched]
      rfl
    have hlen : (events_sched (lcb_getreplica env inst cookie cmd).trace).length = 1 := by
      have := congrArg List.length hsched'
      simpa using this
    refine ⟨hrc, hsched', ?_⟩
    intro which r
    have hi : (rget_request (lcb_getreplica env inst cookie cmd)).inflight ≠ [] := by
      intro h0
      simp only [rget_request] at h0
      rw [h0] at hlen
      simp at hlen
    rw [rget_deliver_select env inst _ rck which r
      (by simp only [rget_request]; exact hrck) (by rw [hck]; exact hs) hi]
    have he : (rget_request (lcb_getreplica env inst cookie cmd)).inflight.eraseIdx
        (which % (rget_request (lcb_getreplica env inst cookie cmd)).inflight.length) = [] :=
      List.length_eq_zero.mp
        (inflight_eraseIdx_length _ _ 0 (by simp only [rget_request]; exact hlen))
    rw [he, decref_last rck (by rw [hck]; rfl)]
  · intro hoff
    have hrange := replica_range_select_none inst cfg
      (env.mcreq_map_key inst.cmdq cmd.key).1 cmd hs hoff
    have hv : getreplica_validate env inst cmd = LCB_ERR_NO_MATCHING_SERVER := by
      unfold getreplica_validate
      simp only [hcoll, hcfg, hrange]
      simp [hk]
    unfold lcb_getreplica
    simp only [hv]
    rfl

/-- Witness of C18: replica 1 of the test cluster is server 2; the packet goes there and
a failure that answers it is delivered with FINAL. With replica 0 offline, selecting it
is refused. -/
theorem getreplica_select_single_witness :
    (events_sched (lcb_getreplica testEnv testInstance 7 getreplica_select_1).trace).map
        Prod.fst = [2] ∧
    rget_deliver testEnv testInstance
        (rget_request (lcb_getreplica testEnv testInstance 7 getreplica_select_1)) 0
        response_timeout
      = ({ rck := none, inflight := [] },
         [Event.callback_getreplica { response_timeout.resp with rflags_FINAL := true }]) ∧
    lcb_getreplica testEnv testInstanceOffline 7
        { key := key_k, strategy := LCB_REPLICA_SELECT, index := 0 }
      = { rc := LCB_ERR_NO_MATCHING_SERVER } :=
  ⟨((getreplica_select_single testEnv testInstance 7 getreplica_select_1
      { nrepl := 3, vbuckets := [[0, 1, 2, 3]] } rfl (by decide) (by decide) rfl).1
      (by decide) (by decide) (Or.inl rfl) (by intro pl; simp [testEnv])).2.1,
   ((getreplica_select_single testEnv testInstance 7 getreplica_select_1
      { nrepl := 3, vbuckets := [[0, 1, 2, 3]] } rfl (by decide) (by decide) rfl).1
      (by decide) (by decide) (Or.inl rfl) (by intro pl; simp [testEnv])).2.2 0 response_timeout,
   (getreplica_select_single testEnv testInstanceOffline 7
      { key := key_k, strategy := LCB_REPLICA_SELECT, index := 0 }
      { nrepl := 3, vbuckets := [[0, -1, 2, 3]] } rfl (by decide) (by decide) rfl).2
      (by decide)⟩


/-! ## Responses to a replica read: strategy FIRST -/

/-- The replica count that the macro `LCBT_NREPLICAS` reads is that of the map that
`rget_callback` consults. -/
theorem LCBT_NREPLICAS_getD (inst : lcb_INSTANCE) :
    LCBT_NREPLICAS inst = (inst.cmdq.config.getD {}).nrepl := by
  unfold LCBT_NREPLICAS
  cases inst.cmdq.config <;> rfl

/-- A usable replica has an index below the replica count of the map. -/
theorem replica_usable_lt (cq : mc_CMDQUEUE) (cfg : lcbvb_CONFIG) (vbucket r : Nat)
    (h : replica_usable cq cfg vbucket r) : r < cfg.nrepl := by
  unfold replica_usable lcbvb_vbreplica at h
  by_contra hge
  rw [if_neg hge] at h
  omega

/-- `rget_callback` for the strategy FIRST, when the response is a success or the search
found no further replica: the response is delivered with FINAL and the cookie is
deleted; no packet is sent. -/
theorem rget_callback_first_final (env : Env) (inst : lcb_INSTANCE) (rck : RGetCookie)
    (pkt : mc_PACKET) (err : lcb_STATUS) (resp : lcb_RESP)
    (hs : rck.strategy = LCB_REPLICA_FIRST)
    (h : err = LCB_SUCCESS ∨
      (rget_advance inst.cmdq (inst.cmdq.config.getD {}) rck.vbucket
        (rck.r_max - (rck.r_cur + 1)) rck.r_cur).1 = rck.r_max ∨
      (rget_advance inst.cmdq (inst.cmdq.config.getD {}) rck.vbucket
        (rck.r_max - (rck.r_cur + 1)) rck.r_cur).2 = none) :
    rget_callback env inst rck pkt err resp =
      { rck := none,
        trace := [Event.callback_getreplica { resp with rflags_FINAL := true }] } := by
  unfold rget_callback
  rw [if_neg (by rw [hs]; decide)]
  simp only []
  cases hadv : rget_advance inst.cmdq (inst.cmdq.config.getD {}) rck.vbucket
      (rck.r_max - (rck.r_cur + 1)) rck.r_cur with
  | mk a b =>
    rw [hadv] at h
    simp only [] at h ⊢
    rw [if_pos h, decref_last _ rfl]

/-- `rget_callback` for the strategy FIRST, when the response is a failure and the
search found a further replica below `r_max`: the packet is renewed and handed to the
pipeline of that replica, the replica becomes the current one, nothing is delivered to
the user and the cookie keeps one reference. -/
theorem rget_callback_first_next (env : Env) (inst : lcb_INSTANCE) (rck : RGetCookie)
    (pkt : mc_PACKET) (err : lcb_STATUS) (resp : lcb_RESP) (pl : Server)
    (hs : rck.strategy = LCB_REPLICA_FIRST) (herr : err ≠ LCB_SUCCESS)
    (h1 : (rget_advance inst.cmdq (inst.cmdq.config.getD {}) rck.vbucket
        (rck.r_max - (rck.r_cur + 1)) rck.r_cur).1 ≠ rck.r_max)
    (h2 : (rget_advance inst.cmdq (inst.cmdq.config.getD {}) rck.vbucket
        (rck.r_max - (rck.r_cur + 1)) rck.r_cur).2 = some pl) :
    rget_callback env inst rck pkt err resp =
      { rck := some { rck with
          r_cur := (rget_advance inst.cmdq (inst.cmdq.config.getD {}) rck.vbucket
            (rck.r_max - (rck.r_cur + 1)) rck.r_cur).1,
          remaining := 1 },
        trace := [Event.sched_add pl.index (env.mcreq_renew_packet pkt), Event.sched_leave] } := by
  unfold rget_callback
  rw [if_neg (by rw [hs]; decide)]
  simp only []
  cases hadv : rget_advance inst.cmdq (inst.cmdq.config.getD {}) rck.vbucket
      (rck.r_max - (rck.r_cur + 1)) rck.r_cur with
  | mk a b =>
    rw [hadv] at h1 h2
    simp only [] at h1 h2 ⊢
    subst h2
    rw [if_neg (by simp [herr, h1]), if_pos herr]
    simp only []
    rw [decref_more _ (by show (2 : Int) ≠ 1; decide)]
    rfl

/-- One response to a request of strategy FIRST with one packet in flight and a current
replica below `r_max`, the replica count. Either the response is a success or no replica
after the current one is usable, and then the response is delivered with FINAL, the
cookie is deleted and nothing is in flight; or the response is a failure, and then a
renewed packet goes to the usable replica of the smallest index greater than the
current one, which becomes the current one, and nothing is delivered. -/
theorem rget_deliver_first (env : Env) (inst : lcb_INSTANCE) (st : RGetRequest)
    (c : RGetCookie) (p : Nat × mc_PACKET) (which : Nat) (r : RGetResponse)
    (hc : st.rck = some c) (hs : c.strategy = LCB_REPLICA_FIRST)
    (hmax : c.r_max = LCBT_NREPLICAS inst) (hcur : c.r_cur < c.r_max)
    (hi : st.inflight = [p]) :
    ((r.err = LCB_SUCCESS ∨ ∀ j, c.r_cur < j → j < c.r_max →
        ¬ replica_usable inst.cmdq (inst.cmdq.config.getD {}) c.vbucket j) ∧
      rget_deliver env inst st which r
        = ({ rck := none, inflight := [] },
           [Event.callback_getreplica { r.resp with rflags_FINAL := true }])) ∨
    (r.err ≠ LCB_SUCCESS ∧ ∃ j, c.r_cur < j ∧ j < c.r_max ∧
      replica_usable inst.cmdq (inst.cmdq.config.getD {}) c.vbucket j ∧
      (∀ i, c.r_cur < i → i < j →
        ¬ replica_usable inst.cmdq (inst.cmdq.config.getD {}) c.vbucket i) ∧
      rget_deliver env inst st which r
        = ({ rck := some { c with r_cur := j, remaining := 1 },
             inflight := [((replica_pipeline inst.cmdq (inst.cmdq.config.getD {}) c.vbucket
                j).index, env.mcreq_renew_packet p.2)] },
           [Event.sched_add
              (replica_pipeline inst.cmdq (inst.cmdq.config.getD {}) c.vbucket j).index
              (env.mcreq_renew_packet p.2),
            Event.sched_leave])) := by
  have hdel : rget_deliver env inst st which r
      = ({ rck := (rget_callback env inst c p.2 r.err r.resp).rck,
           inflight := events_sched (rget_callback env inst c p.2 r.err r.resp).trace },
         (rget_callback env inst c p.2 r.err r.resp).trace) := by
    unfold rget_deliver
    rw [hc, hi]
    simp [Nat.mod_one]
  obtain ⟨hsome, hnone⟩ := rget_advance_spec inst.cmdq (inst.cmdq.config.getD {}) c.vbucket
    (c.r_max - (c.r_cur + 1)) c.r_cur
  have hfinal : r.err = LCB_SUCCESS ∨
      (rget_advance inst.cmdq (inst.cmdq.config.getD {}) c.vbucket
        (c.r_max - (c.r_cur + 1)) c.r_cur).2 = none →
      rget_deliver env inst st which r
        = ({ rck := none, inflight := [] },
           [Event.callback_getreplica { r.resp with rflags_FINAL := true }]) := by
    intro h
    rw [hdel, rget_callback_first_final env inst c p.2 r.err r.resp hs
      (by rcases h with h | h
          · exact Or.inl h
          · exact Or.inr (Or.inr h))]
    simp [events_sched]
  by_cases herr : r.err = LCB_SUCCESS
  · exact Or.inl ⟨Or.inl herr, hfinal (Or.inl herr)⟩
  · cases hadv : (rget_advance inst.cmdq (inst.cmdq.config.getD {}) c.vbucket
        (c.r_max - (c.r_cur + 1)) c.r_cur).2 with
    | none =>
      refine Or.inl ⟨Or.inr ?_, hfinal (Or.inr hadv)⟩
      intro j hj1 hj2
      exact (hnone hadv).2 j hj1 (by omega)
    | some pl =>
      obtain ⟨h1, _, h3, h4, h5⟩ := hsome pl hadv
      have hlt := replica_usable_lt _ _ _ _ h3
      rw [← LCBT_NREPLICAS_getD, ← hmax] at hlt
      refine Or.inr ⟨herr, _, h1, hlt, h3, h5, ?_⟩
      rw [hdel, rget_callback_first_next env inst c p.2 r.err r.resp pl hs herr
        (by omega) hadv, h4]
      simp [events_sched]


/-- The responses that the concatenation of two traces delivered. -/
theorem events_callbacks_append (t1 t2 : List Event) :
    events_callbacks (t1 ++ t2) = events_callbacks t1 ++ events_callbacks t2 := by
  simp [events_callbacks]

/-- A sequence of responses that starts with one response: the first is delivered, then
the others. -/
theorem rget_run_cons (env : Env) (inst : lcb_INSTANCE) (st : RGetRequest) (which : Nat)
    (r : RGetResponse) (rest : List (Nat × RGetResponse)) :
    rget_run env inst st ((which, r) :: rest)
      = ((rget_run env inst (rget_deliver env inst st which r).1 rest).1,
         (rget_deliver env inst st which r).2
           ++ (rget_run env inst (rget_deliver env inst st which r).1 rest).2) := rfl

/-- Any sequence of responses to a request of strategy FIRST that has one reference, one
packet in flight and a current replica below `r_max`, the replica count. The packets
sent on the way are fewer than the replicas after the current one; the user callback
runs at most once; when the cookie is deleted at the end the callback has run once and
nothing is in flight; when the cookie is still there, the callback has not run, one
packet is in flight, and the current replica has advanced by at least the number of
packets sent; and the cookie is deleted at the end when a success is among the
responses or there are at least as many responses as replicas from the current one
on. -/
theorem rget_run_first (env : Env) (inst : lcb_INSTANCE) (ds : List (Nat × RGetResponse)) :
    ∀ (st : RGetRequest) (c : RGetCookie) (p : Nat × mc_PACKET),
      st.rck = some c → c.strategy = LCB_REPLICA_FIRST → c.r_max = LCBT_NREPLICAS inst →
      c.r_cur < c.r_max → c.remaining = 1 → st.inflight = [p] →
      (events_sched (rget_run env inst st ds).2).length + c.r_cur < c.r_max ∧
      (events_callbacks (rget_run env inst st ds).2).length ≤ 1 ∧
      ((rget_run env inst st ds).1.rck = none →
        (events_callbacks (rget_run env inst st ds).2).length = 1 ∧
        (rget_run env inst st ds).1.inflight = []) ∧
      (∀ c2, (rget_run env inst st ds).1.rck = some c2 →
        events_callbacks (rget_run env inst st ds).2 = [] ∧
        c2.strategy = LCB_REPLICA_FIRST ∧ c2.r_max = c.r_max ∧ c2.vbucket = c.vbucket ∧
        c2.remaining = 1 ∧
        c.r_cur + (events_sched (rget_run env inst st ds).2).length ≤ c2.r_cur ∧
        c2.r_cur < c.r_max ∧ ∃ p2, (rget_run env inst st ds).1.inflight = [p2]) ∧
      ((∃ d ∈ ds, d.2.err = LCB_SUCCESS) ∨ c.r_max - c.r_cur ≤ ds.length →
        (rget_run env inst st ds).1.rck = none) := by
  induction ds with
  | nil =>
    intro st c p hc hs hmax hcur hrem hi
    simp only [rget_run, events_sched, events_callbacks, List.filterMap_nil, List.length_nil,
      Nat.zero_add, Nat.add_zero]
    refine ⟨hcur, Nat.zero_le _, ?_, ?_, ?_⟩
    · intro h
      rw [hc] at h
      simp at h
    · intro c2 h
      rw [hc] at h
      obtain rfl := Option.some.inj h
      exact ⟨trivial, hs, rfl, rfl, hrem, Nat.le_refl _, hcur, p, hi⟩
    · rintro (⟨d, hd, _⟩ | h)
      · simp at hd
      · omega
  | cons d rest ih =>
    intro st c p hc hs hmax hcur hrem hi
    obtain ⟨w, r⟩ := d
    rw [rget_run_cons]
    rcases rget_deliver_first env inst st c p w r hc hs hmax hcur hi with
      ⟨_, hdel⟩ | ⟨herr, j, hj1, hj2, _, _, hdel⟩
    · rw [hdel]
      simp only []
      rw [rget_run_done env inst rest _ rfl]
      simp only [List.append_nil]
      refine ⟨by simpa [events_sched] using hcur, by simp [events_callbacks], ?_, ?_, ?_⟩
      · intro _
        exact ⟨by simp [events_callbacks], trivial⟩
      · intro c2 h
        simp at h
      · intro _
        trivial
    · rw [hdel]
      simp only []
      obtain ⟨ih1, ih2, ih3, ih4, ih5⟩ := ih
        { rck := some { c with r_cur := j, remaining := 1 },
          inflight := [((replica_pipeline inst.cmdq (inst.cmdq.config.getD {}) c.vbucket
            j).index, env.mcreq_renew_packet p.2)] }
        { c with r_cur := j, remaining := 1 } _ rfl hs hmax hj2 rfl rfl
      simp only [] at ih1 ih2 ih3 ih4 ih5
      have hsl : ∀ (a : Nat) (b : mc_PACKET) (t : List Event),
          (events_sched ([Event.sched_add a b, Event.sched_leave] ++ t)).length
            = (events_sched t).length + 1 := by
        intro a b t
        simp [events_sched]
      have hcl : ∀ (a : Nat) (b : mc_PACKET) (t : List Event),
          events_callbacks ([Event.sched_add a b, Event.sched_leave] ++ t)
            = events_callbacks t := by
        intro a b t
        simp [events_callbacks]
      rw [hsl, hcl]
      refine ⟨by omega, ih2, ih3, ?_, ?_⟩
      · intro c2 h
        obtain ⟨h1, h2, h3, h4, h5, h6, h7, h8⟩ := ih4 c2 h
        exact ⟨h1, h2, h3, h4, h5, by omega, h7, h8⟩
      · rintro (⟨d, hd, hd2⟩ | h)
        · apply ih5
          left
          rcases List.mem_cons.mp hd with rfl | hd
          · exact absurd hd2 herr
          · exact ⟨d, hd, hd2⟩
        · apply ih5
          right
          simp only [List.length_cons] at h
          omega


/-- What a request of strategy FIRST delivers to the user, for any sequence of
responses: the response delivered is one of the sequence, with FINAL set; the request
was still alive when it arrived and every response before it was a failure; and it is
a success, or no replica after the current one of that moment is usable. -/
theorem rget_run_first_callback (env : Env) (inst : lcb_INSTANCE)
    (ds : List (Nat × RGetResponse)) :
    ∀ (st : RGetRequest) (c : RGetCookie) (p : Nat × mc_PACKET),
      st.rck = some c → c.strategy = LCB_REPLICA_FIRST → c.r_max = LCBT_NREPLICAS inst →
      c.r_cur < c.r_max → c.remaining = 1 → st.inflight = [p] →
      ∀ resp ∈ events_callbacks (rget_run env inst st ds).2,
        ∃ (k : Nat) (d : Nat × RGetResponse) (ck : RGetCookie),
          ds[k]? = some d ∧
          (rget_run env inst st (ds.take k)).1.rck = some ck ∧
          resp = { d.2.resp with rflags_FINAL := true } ∧
          (∀ (i : Nat) (e : Nat × RGetResponse), i < k → ds[i]? = some e →
            e.2.err ≠ LCB_SUCCESS) ∧
          (d.2.err = LCB_SUCCESS ∨ ∀ j, ck.r_cur < j → j < c.r_max →
            ¬ replica_usable inst.cmdq (inst.cmdq.config.getD {}) c.vbucket j) := by
  induction ds with
  | nil =>
    intro st c p _ _ _ _ _ _ resp hresp
    simp [rget_run, events_callbacks] at hresp
  | cons d rest ih =>
    intro st c p hc hs hmax hcur hrem hi resp hresp
    obtain ⟨w, r⟩ := d
    rw [rget_run_cons] at hresp
    rcases rget_deliver_first env inst st c p w r hc hs hmax hcur hi with
      ⟨hfin, hdel⟩ | ⟨herr, j, hj1, hj2, _, _, hdel⟩
    · rw [hdel] at hresp
      simp only [] at hresp
      rw [rget_run_done env inst rest _ rfl] at hresp
      simp only [List.append_nil, events_callbacks, List.filterMap_cons, List.filterMap_nil,
        List.mem_singleton] at hresp
      refine ⟨0, (w, r), c, List.getElem?_cons_zero, ?_, hresp, ?_, hfin⟩
      · simp only [List.take_zero, rget_run]
        exact hc
      · intro i e hi0
        omega
    · rw [hdel] at hresp
      simp only [] at hresp
      have hcl : ∀ (a : Nat) (b : mc_PACKET) (t : List Event),
          events_callbacks ([Event.sched_add a b, Event.sched_leave] ++ t)
            = events_callbacks t := by
        intro a b t
        simp [events_callbacks]
      rw [hcl] at hresp
      obtain ⟨k, d, ck, h1, h2, h3, h4, h5⟩ := ih
        { rck := some { c with r_cur := j, remaining := 1 },
          inflight := [((replica_pipeline inst.cmdq (inst.cmdq.config.getD {}) c.vbucket
            j).index, env.mcreq_renew_packet p.2)] }
        { c with r_cur := j, remaining := 1 } _ rfl hs hmax hj2 rfl rfl resp hresp
      refine ⟨k + 1, d, ck, ?_, ?_, h3, ?_, h5⟩
      · rw [List.getElem?_cons_succ]
        exact h1
      · rw [List.take_succ_cons, rget_run_cons, hdel]
        exact h2
      · intro i e hik he
        cases i with
        | zero =>
          simp only [List.getElem?_cons_zero, Option.some.injEq] at he
          rw [← he]
          exact herr
        | succ i2 =>
          rw [List.getElem?_cons_succ] at he
          exact h4 i2 e (by omega) he

/-- The packets that a request of strategy FIRST sends while responses arrive: each goes
to the pipeline of the usable replica of the smallest index greater than the replica
tried before it, starting from the current replica. -/
theorem rget_run_first_packets (env : Env) (inst : lcb_INSTANCE)
    (ds : List (Nat × RGetResponse)) :
    ∀ (st : RGetRequest) (c : RGetCookie) (p : Nat × mc_PACKET),
      st.rck = some c → c.strategy = LCB_REPLICA_FIRST → c.r_max = LCBT_NREPLICAS inst →
      c.r_cur < c.r_max → c.remaining = 1 → st.inflight = [p] →
      ∃ js : List Nat,
        (events_sched (rget_run env inst st ds).2).map Prod.fst
          = js.map (fun j =>
              (replica_pipeline inst.cmdq (inst.cmdq.config.getD {}) c.vbucket j).index) ∧
        List.Chain (replica_next inst.cmdq (inst.cmdq.config.getD {}) c.vbucket) c.r_cur js := by
  induction ds with
  | nil =>
    intro st c p _ _ _ _ _ _
    exact ⟨[], by simp [rget_run, events_sched], List.Chain.nil⟩
  | cons d rest ih =>
    intro st c p hc hs hmax hcur hrem hi
    obtain ⟨w, r⟩ := d
    rw [rget_run_cons]
    rcases rget_deliver_first env inst st c p w r hc hs hmax hcur hi with
      ⟨_, hdel⟩ | ⟨herr, j, hj1, hj2, hj3, hj4, hdel⟩
    · rw [hdel]
      simp only []
      rw [rget_run_done env inst rest _ rfl]
      exact ⟨[], by simp [events_sched], List.Chain.nil⟩
    · rw [hdel]
      simp only []
      obtain ⟨js, h1, h2⟩ := ih
        { rck := some { c with r_cur := j, remaining := 1 },
          inflight := [((replica_pipeline inst.cmdq (inst.cmdq.config.getD {}) c.vbucket
            j).index, env.mcreq_renew_packet p.2)] }
        { c with r_cur := j, remaining := 1 } _ rfl hs hmax hj2 rfl rfl
      refine ⟨j :: js, ?_, List.Chain.cons ⟨hj1, hj3, fun i hi1 hi2 => hj4 i hi2 hi1⟩ h2⟩
      have hsl : ∀ (a : Nat) (b : mc_PACKET) (t : List Event),
          events_sched ([Event.sched_add a b, Event.sched_leave] ++ t)
            = (a, b) :: events_sched t := by
        intro a b t
        simp [events_sched]
      rw [hsl, List.map_cons, List.map_cons, h1]


/-- A request of strategy FIRST accepted by `lcb_getreplica`: the cookie has one
reference, its current replica is the replica of the smallest index that has a server,
below `r_max`, the replica count; one packet is in flight, on the pipeline of that
replica. -/
theorem lcb_getreplica_first_accepted (env : Env) (inst : lcb_INSTANCE) (cookie : Nat)
    (cmd : lcb_CMDGETREPLICA) (cfg : lcbvb_CONFIG) (rck : RGetCookie)
    (hs : cmd.strategy = LCB_REPLICA_FIRST) (hcfg : inst.cmdq.config = some cfg)
    (h : (lcb_getreplica env inst cookie cmd).rck = some rck) :
    rck.strategy = LCB_REPLICA_FIRST ∧ rck.r_max = LCBT_NREPLICAS inst ∧
    LCBT_NREPLICAS inst = cfg.nrepl ∧ inst.cmdq.config.getD {} = cfg ∧
    rck.r_cur < rck.r_max ∧ rck.remaining = 1 ∧
    rck.vbucket = (env.mcreq_map_key inst.cmdq cmd.key).1 ∧
    lcbvb_vbreplica cfg (env.mcreq_map_key inst.cmdq cmd.key).1 rck.r_cur > -1 ∧
    (∀ j, j < rck.r_cur → ¬ lcbvb_vbreplica cfg (env.mcreq_map_key inst.cmdq cmd.key).1 j > -1) ∧
    (events_sched (lcb_getreplica env inst cookie cmd).trace).map Prod.fst
      = [(replica_pipeline inst.cmdq cfg (env.mcreq_map_key inst.cmdq cmd.key).1
          rck.r_cur).index] ∧
    ∃ p, (rget_request (lcb_getreplica env inst cookie cmd)).inflight = [p] := by
  obtain ⟨cfg2, r0, r1, hcfg2, _, hr, _, hck, hsched, _⟩ :=
    lcb_getreplica_accepted env inst cookie cmd rck h
  have hcc : cfg2 = cfg := by
    rw [hcfg] at hcfg2
    exact (Option.some.inj hcfg2).symm
  subst hcc
  obtain ⟨rfl, h2, h3, h4, _⟩ := replica_range_first inst cfg2 _ cmd r0 r1 hs hr
  have hcount : r1 - (r1 + 1) + 1 = 1 := by omega
  rw [hcount] at hsched hck
  have hN : LCBT_NREPLICAS inst = cfg2.nrepl := by
    unfold LCBT_NREPLICAS
    rw [hcfg]
  have hsched2 : (events_sched (lcb_getreplica env inst cookie cmd).trace).map Prod.fst
      = [(replica_pipeline inst.cmdq cfg2 (env.mcreq_map_key inst.cmdq cmd.key).1
          r1).index] := by
    rw [hsched]
    rfl
  have hp : ∃ p, (rget_request (lcb_getreplica env inst cookie cmd)).inflight = [p] := by
    have hlen := congrArg List.length hsched2
    simp only [List.length_map, List.length_singleton] at hlen
    simp only [rget_request]
    exact List.length_eq_one.mp hlen
  have hget : inst.cmdq.config.getD {} = cfg2 := by
    rw [hcfg]
    rfl
  rw [hck]
  exact ⟨hs, rfl, hN, hget, h2, rfl, rfl, h3, h4, hsched2, hp⟩

/-! ## C16: the strategy FIRST delivers one response -/

/-- C16. For an accepted replica read with strategy FIRST and every sequence of
responses: the user callback is invoked at most once; it is invoked exactly once as soon
as a success is among the responses or there are as many responses as the map has
replicas; exactly then the cookie is deleted. The response delivered has FINAL set and
is one of the sequence, every response before it was a failure and none of them was
delivered, and it is either a success (so the first one) or a failure that arrived when
no replica after the current one had a server with a pipeline. -/
theorem getreplica_first_single_callback (env : Env) (inst : lcb_INSTANCE) (cookie : Nat)
    (cmd : lcb_CMDGETREPLICA) (cfg : lcbvb_CONFIG) (rck : RGetCookie)
    (ds : List (Nat × RGetResponse))
    (hs : cmd.strategy = LCB_REPLICA_FIRST) (hcfg : inst.cmdq.config = some cfg)
    (h : (lcb_getreplica env inst cookie cmd).rck = some rck) :
    (events_callbacks
      (rget_run env inst (rget_request (lcb_getreplica env inst cookie cmd)) ds).2).length ≤ 1 ∧
    ((∃ d ∈ ds, d.2.err = LCB_SUCCESS) ∨ cfg.nrepl ≤ ds.length →
      (events_callbacks
        (rget_run env inst (rget_request (lcb_getreplica env inst cookie cmd)) ds).2).length
        = 1) ∧
    ((events_callbacks
        (rget_run env inst (rget_request (lcb_getreplica env inst cookie cmd)) ds).2).length = 1
      ↔ (rget_run env inst (rget_request (lcb_getreplica env inst cookie cmd)) ds).1.rck
          = none) ∧
    ∀ resp ∈ events_callbacks
        (rget_run env inst (rget_request (lcb_getreplica env inst cookie cmd)) ds).2,
      resp.rflags_FINAL = true ∧
      ∃ (k : Nat) (d : Nat × RGetResponse) (ck : RGetCookie),
        ds[k]? = some d ∧
        (rget_run env inst (rget_request (lcb_getreplica env inst cookie cmd))
          (ds.take k)).1.rck = some ck ∧
        events_callbacks (rget_run env inst
          (rget_request (lcb_getreplica env inst cookie cmd)) (ds.take k)).2 = [] ∧
        resp = { d.2.resp with rflags_FINAL := true } ∧
        (∀ (i : Nat) (e : Nat × RGetResponse), i < k → ds[i]? = some e →
          e.2.err ≠ LCB_SUCCESS) ∧
        (d.2.err = LCB_SUCCESS ∨ ∀ j, ck.r_cur < j → j < cfg.nrepl →
          ¬ replica_usable inst.cmdq cfg (env.mcreq_map_key inst.cmdq cmd.key).1 j) := by
  obtain ⟨a1, a2, a3, a4, a5, a6, a7, _, _, _, p, hp⟩ :=
    lcb_getreplica_first_accepted env inst cookie cmd cfg rck hs hcfg h
  have hrq : (rget_request (lcb_getreplica env inst cookie cmd)).rck = some rck := by
    simp only [rget_request]
    exact h
  obtain ⟨_, b2, b3, b4, b5⟩ := rget_run_first env inst ds _ rck p hrq a1 a2 a5 a6 hp
  have hterm : (∃ d ∈ ds, d.2.err = LCB_SUCCESS) ∨ cfg.nrepl ≤ ds.length →
      (rget_run env inst (rget_request (lcb_getreplica env inst cookie cmd)) ds).1.rck
        = none := by
    intro hd
    apply b5
    rcases hd with hd | hd
    · exact Or.inl hd
    · right
      rw [a2, a3]
      omega
  refine ⟨b2, fun hd => (b3 (hterm hd)).1, ⟨?_, fun hn => (b3 hn).1⟩, ?_⟩
  · intro hlen
    cases hr : (rget_run env inst (rget_request (lcb_getreplica env inst cookie cmd))
        ds).1.rck with
    | none => rfl
    | some c2 =>
      rw [(b4 c2 hr).1] at hlen
      simp at hlen
  · intro resp hresp
    obtain ⟨k, d, ck, c1, c2, c3, c4, c5⟩ :=
      rget_run_first_callback env inst ds _ rck p hrq a1 a2 a5 a6 hp resp hresp
    refine ⟨by rw [c3], k, d, ck, c1, c2, ?_, c3, c4, ?_⟩
    · exact ((rget_run_first env inst (ds.take k) _ rck p hrq a1 a2 a5 a6 hp).2.2.2.1
        ck c2).1
    · rw [a4, a7, a2, a3] at c5
      exact c5

/-- Witness of C16: the first replica times out, the second answers; the user sees the
answer of the second, with FINAL, and nothing else, also when a third response
follows. -/
theorem getreplica_first_single_callback_witness :
    (events_callbacks
      (rget_run testEnv testInstance
        (rget_request (lcb_getreplica testEnv testInstance 7 getreplica_first))
        [(0, response_timeout), (0, response_ok), (0, response_timeout)]).2).length = 1 ∧
    events_callbacks
      (rget_run testEnv testInstance
        (rget_request (lcb_getreplica testEnv testInstance 7 getreplica_first))
        [(0, response_timeout), (0, response_ok), (0, response_timeout)]).2
      = [{ response_ok.resp with rflags_FINAL := true }] :=
  ⟨(getreplica_first_single_callback testEnv testInstance 7 getreplica_first
      { nrepl := 3, vbuckets := [[0, 1, 2, 3]] }
      (left_cookie (lcb_getreplica testEnv testInstance 7 getreplica_first))
      [(0, response_timeout), (0, response_ok), (0, response_timeout)] rfl rfl
      (by decide)).2.1 (Or.inr (by decide)),
   by decide⟩


/-! ## C17: the order of the replicas tried by the strategy FIRST -/

/-- C17, as stated, fails: when replica 0 of the vbucket has no server, the first packet
of a read with strategy FIRST does not go to replica 0 but to replica 1 (server 2 here),
the first replica that has a server, and the cookie starts at replica 1. -/
theorem getreplica_first_replica_zero_counterexample :
    lcbvb_vbreplica { nrepl := 3, vbuckets := [[0, -1, 2, 3]] } 0 0 = -1 ∧
    (lcb_getreplica testEnv testInstanceOffline 7 getreplica_first).rc = LCB_SUCCESS ∧
    (events_sched (lcb_getreplica testEnv testInstanceOffline 7 getreplica_first).trace).map
        Prod.fst = [2] ∧
    (replica_pipeline testInstanceOffline.cmdq { nrepl := 3, vbuckets := [[0, -1, 2, 3]] }
        0 1).index = 2 ∧
    (left_cookie (lcb_getreplica testEnv testInstanceOffline 7 getreplica_first)).r_cur
      = 1 := by
  decide

/-- C17, amended. For an accepted replica read with strategy FIRST on a map with `n`
replicas: the first packet goes to the replica of the smallest index that has a server.
At any later moment at which the request is alive, a response that is a failure while
some replica after the current one is usable (has a server with a pipeline) sends
exactly one packet, to the usable replica of the smallest index greater than the current
one, which becomes the current one; any other response sends no packet. Over any
sequence of responses the replicas tried after the first form a chain in which each is
the next usable replica after the one before, so the index increases strictly and no
replica is tried twice, and at most `n` packets are sent in all. -/
theorem getreplica_first_replica_order (env : Env) (inst : lcb_INSTANCE) (cookie : Nat)
    (cmd : lcb_CMDGETREPLICA) (cfg : lcbvb_CONFIG) (rck : RGetCookie)
    (hs : cmd.strategy = LCB_REPLICA_FIRST) (hcfg : inst.cmdq.config = some cfg)
    (h : (lcb_getreplica env inst cookie cmd).rck = some rck) :
    (rck.r_cur < cfg.nrepl ∧
      lcbvb_vbreplica cfg (env.mcreq_map_key inst.cmdq cmd.key).1 rck.r_cur > -1 ∧
      (∀ j, j < rck.r_cur →
        ¬ lcbvb_vbreplica cfg (env.mcreq_map_key inst.cmdq cmd.key).1 j > -1) ∧
      (events_sched (lcb_getreplica env inst cookie cmd).trace).map Prod.fst
        = [(replica_pipeline inst.cmdq cfg (env.mcreq_map_key inst.cmdq cmd.key).1
            rck.r_cur).index]) ∧
    (∀ (ds : List (Nat × RGetResponse)) (ck : RGetCookie),
      (rget_run env inst (rget_request (lcb_getreplica env inst cookie cmd)) ds).1.rck
        = some ck →
      ∀ (which : Nat) (r : RGetResponse),
        ((r.err = LCB_SUCCESS ∨ ∀ j, ck.r_cur < j → j < cfg.nrepl →
            ¬ replica_usable inst.cmdq cfg (env.mcreq_map_key inst.cmdq cmd.key).1 j) ∧
          events_sched (rget_deliver env inst
            (rget_run env inst (rget_request (lcb_getreplica env inst cookie cmd)) ds).1
            which r).2 = []) ∨
        (r.err ≠ LCB_SUCCESS ∧ ∃ j,
          replica_next inst.cmdq cfg (env.mcreq_map_key inst.cmdq cmd.key).1 ck.r_cur j ∧
          j < cfg.nrepl ∧
          (events_sched (rget_deliver env inst
            (rget_run env inst (rget_request (lcb_getreplica env inst cookie cmd)) ds).1
            which r).2).map Prod.fst
            = [(replica_pipeline inst.cmdq cfg (env.mcreq_map_key inst.cmdq cmd.key).1
                j).index] ∧
          (rget_deliver env inst
            (rget_run env inst (rget_request (lcb_getreplica env inst cookie cmd)) ds).1
            which r).1.rck = some { ck with r_cur := j, remaining := 1 })) ∧
    (∀ ds : List (Nat × RGetResponse), ∃ js : List Nat,
      (events_sched
        (rget_run env inst (rget_request (lcb_getreplica env inst cookie cmd)) ds).2).map
          Prod.fst
        = js.map (fun j =>
            (replica_pipeline inst.cmdq cfg (env.mcreq_map_key inst.cmdq cmd.key).1 j).index) ∧
      List.Chain (replica_next inst.cmdq cfg (env.mcreq_map_key inst.cmdq cmd.key).1)
        rck.r_cur js ∧
      (events_sched (lcb_getreplica env inst cookie cmd).trace).length
        + (events_sched
            (rget_run env inst (rget_request (lcb_getreplica env inst cookie cmd)) ds).2).length
        ≤ cfg.nrepl) := by
  obtain ⟨a1, a2, a3, a4, a5, a6, a7, a8, a9, a10, p, hp⟩ :=
    lcb_getreplica_first_accepted env inst cookie cmd cfg rck hs hcfg h
  have hrq : (rget_request (lcb_getreplica env inst cookie cmd)).rck = some rck := by
    simp only [rget_request]
    exact h
  refine ⟨⟨by omega, a8, a9, a10⟩, ?_, ?_⟩
  · intro ds ck hck which r
    obtain ⟨_, b1, b2, b3, b4, _, b6, p2, hp2⟩ :=
      (rget_run_first env inst ds _ rck p hrq a1 a2 a5 a6 hp).2.2.2.1 ck hck
    rcases rget_deliver_first env inst _ ck p2 which r hck b1 (by rw [b2, a2])
        (by rw [b2]; exact b6) hp2 with
      ⟨hfin, hdel⟩ | ⟨herr, j, hj1, hj2, hj3, hj4, hdel⟩
    · left
      rw [a4, b3, a7, b2, a2, a3] at hfin
      refine ⟨hfin, ?_⟩
      rw [hdel]
      simp [events_sched]
    · right
      rw [a4, b3, a7] at hj3 hj4 hdel
      rw [b2, a2, a3] at hj2
      refine ⟨herr, j, ⟨hj1, hj3, fun i hi1 hi2 => hj4 i hi2 hi1⟩, hj2, ?_, ?_⟩
      · rw [hdel]
        simp [events_sched]
      · rw [hdel, b3, a7]
  · intro ds
    obtain ⟨js, c1, c2⟩ := rget_run_first_packets env inst ds _ rck p hrq a1 a2 a5 a6 hp
    rw [a4, a7] at c1 c2
    refine ⟨js, c1, c2, ?_⟩
    have hb := (rget_run_first env inst ds _ rck p hrq a1 a2 a5 a6 hp).1
    have hlen := congrArg List.length a10
    simp only [List.length_map, List.length_singleton] at hlen
    rw [hlen]
    rw [a2, a3] at hb
    omega

/-- Witness of C17: with replica 0 offline the read starts at replica 1 (server 2); when
that one times out, one packet goes to replica 2 (server 3), the next usable one; when
that one times out too, nothing more is sent: two packets in all. -/
theorem getreplica_first_replica_order_witness :
    (events_sched (lcb_getreplica testEnv testInstanceOffline 7 getreplica_first).trace).map
        Prod.fst
      = [(replica_pipeline testInstanceOffline.cmdq { nrepl := 3, vbuckets := [[0, -1, 2, 3]] }
          (testEnv.mcreq_map_key testInstanceOffline.cmdq getreplica_first.key).1
          (left_cookie
            (lcb_getreplica testEnv testInstanceOffline 7 getreplica_first)).r_cur).index] ∧
    (events_sched
      (rget_run testEnv testInstanceOffline
        (rget_request (lcb_getreplica testEnv testInstanceOffline 7 getreplica_first))
        [(0, response_timeout), (0, response_timeout)]).2).map Prod.fst = [3] ∧
    (events_sched (lcb_getreplica testEnv testInstanceOffline 7 getreplica_first).trace).length
      + (events_sched
          (rget_run testEnv testInstanceOffline
            (rget_request (lcb_getreplica testEnv testInstanceOffline 7 getreplica_first))
            [(0, response_timeout), (0, response_timeout)]).2).length = 2 :=
  ⟨(getreplica_first_replica_order testEnv testInstanceOffline 7 getreplica_first
      { nrepl := 3, vbuckets := [[0, -1, 2, 3]] }
      (left_cookie (lcb_getreplica testEnv testInstanceOffline 7 getreplica_first))
      rfl rfl (by decide)).1.2.2.2,
   by decide, by decide⟩


/-! ## C19: the reference count of the cookie -/

/-- C19 fails on this input: a read with strategy ALL for which the allocator has no
packet on the server of the second replica. `lcb_getreplica` returns `NO_MEMORY` and has
deleted the cookie, although the packet for the first replica was already handed to its
pipeline (server 1) and points to the cookie: the cookie is released while its counter
is 1, before any callback, and the invariant does not hold when the call returns. -/
theorem getreplica_no_memory_cookie_deleted :
    (lcb_getreplica testEnvNoMemory testInstance 7 getreplica_all).rc = LCB_ERR_NO_MEMORY ∧
    (lcb_getreplica testEnvNoMemory testInstance 7 getreplica_all).rck = none ∧
    (lcb_getreplica testEnvNoMemory testInstance 7 getreplica_all).trace.getLast?
      = some Event.rck_deleted ∧
    (events_sched (lcb_getreplica testEnvNoMemory testInstance 7 getreplica_all).trace).map
        (fun p => (p.1, p.2.u_rdata)) = [(1, ReqData.rget)] ∧
    events_callbacks (lcb_getreplica testEnvNoMemory testInstance 7 getreplica_all).trace = [] ∧
    ¬ refcount_invariant
        (rget_request (lcb_getreplica testEnvNoMemory testInstance 7 getreplica_all)) := by
  decide

/-- The invariant holds when `lcb_getreplica` has accepted a request, for each of the
three strategies. -/
theorem lcb_getreplica_refcount (env : Env) (inst : lcb_INSTANCE) (cookie : Nat)
    (cmd : lcb_CMDGETREPLICA) (rck : RGetCookie)
    (h : (lcb_getreplica env inst cookie cmd).rck = some rck) :
    refcount_invariant (rget_request (lcb_getreplica env inst cookie cmd)) := by
  obtain ⟨cfg, r0, r1, _, _, hr, _, hck, hsched, _⟩ :=
    lcb_getreplica_accepted env inst cookie cmd rck h
  have hlen : (events_sched (lcb_getreplica env inst cookie cmd).trace).length
      = r1 - (r0 + 1) + 1 := by
    have := congrArg List.length hsched
    simpa using this
  unfold refcount_invariant
  simp only [rget_request, h]
  refine ⟨?_, ?_, ?_⟩
  · rw [hck, hlen]
  · intro h0
    rw [h0] at hlen
    simp at hlen
  · intro hne
    rw [hlen]
    rw [hck] at hne
    simp only [] at hne
    cases hst : cmd.strategy with
    | LCB_REPLICA_ALL => exact absurd hst hne
    | LCB_REPLICA_SELECT =>
      obtain ⟨rfl, rfl, _⟩ := replica_range_select inst cfg _ cmd r0 r1 hst hr
      omega
    | LCB_REPLICA_FIRST =>
      obtain ⟨rfl, _⟩ := replica_range_first inst cfg _ cmd r0 r1 hst hr
      omega


/-- `rget_callback` for the strategy FIRST does one of two things: it delivers the
response with FINAL and deletes the cookie, or it sends one packet, delivers nothing and
leaves the cookie with one reference. -/
theorem rget_callback_first_cases (env : Env) (inst : lcb_INSTANCE) (rck : RGetCookie)
    (pkt : mc_PACKET) (err : lcb_STATUS) (resp : lcb_RESP)
    (hs : rck.strategy = LCB_REPLICA_FIRST) :
    rget_callback env inst rck pkt err resp
      = { rck := none,
          trace := [Event.callback_getreplica { resp with rflags_FINAL := true }] } ∨
    ∃ (j : Nat) (pl : Server),
      rget_callback env inst rck pkt err resp
        = { rck := some { rck with r_cur := j, remaining := 1 },
            trace := [Event.sched_add pl.index (env.mcreq_renew_packet pkt),
              Event.sched_leave] } := by
  by_cases hcond : err = LCB_SUCCESS ∨
      (rget_advance inst.cmdq (inst.cmdq.config.getD {}) rck.vbucket
        (rck.r_max - (rck.r_cur + 1)) rck.r_cur).1 = rck.r_max ∨
      (rget_advance inst.cmdq (inst.cmdq.config.getD {}) rck.vbucket
        (rck.r_max - (rck.r_cur + 1)) rck.r_cur).2 = none
  · exact Or.inl (rget_callback_first_final env inst rck pkt err resp hs hcond)
  · right
    have herr : err ≠ LCB_SUCCESS := fun he => hcond (Or.inl he)
    have h1 : (rget_advance inst.cmdq (inst.cmdq.config.getD {}) rck.vbucket
        (rck.r_max - (rck.r_cur + 1)) rck.r_cur).1 ≠ rck.r_max :=
      fun he => hcond (Or.inr (Or.inl he))
    cases h2 : (rget_advance inst.cmdq (inst.cmdq.config.getD {}) rck.vbucket
        (rck.r_max - (rck.r_cur + 1)) rck.r_cur).2 with
    | none => exact absurd (Or.inr (Or.inr h2)) hcond
    | some pl =>
      exact ⟨_, pl, rget_callback_first_next env inst rck pkt err resp pl hs herr h1 h2⟩

/-- One response to a request with a single packet in flight: `rget_callback` runs for
that packet, and what it sends is in flight afterwards. -/
theorem rget_deliver_single (env : Env) (inst : lcb_INSTANCE) (st : RGetRequest)
    (c : RGetCookie) (p : Nat × mc_PACKET) (which : Nat) (r : RGetResponse)
    (hc : st.rck = some c) (hi : st.inflight = [p]) :
    rget_deliver env inst st which r
      = ({ rck := (rget_callback env inst c p.2 r.err r.resp).rck,
           inflight := events_sched (rget_callback env inst c p.2 r.err r.resp).trace },
         (rget_callback env inst c p.2 r.err r.resp).trace) := by
  unfold rget_deliver
  rw [hc, hi]
  simp [Nat.mod_one]

/-- One response keeps the invariant, for each of the three strategies, and the cookie
of a live request is deleted by this response exactly when the callback delivered a
response with FINAL to the user (the handler passes responses without FINAL). -/
theorem rget_deliver_refcount (env : Env) (inst : lcb_INSTANCE) (st : RGetRequest)
    (which : Nat) (r : RGetResponse) (hinv : refcount_invariant st)
    (hfin : r.resp.rflags_FINAL = false) :
    refcount_invariant (rget_deliver env inst st which r).1 ∧
    (st.rck ≠ none →
      ((rget_deliver env inst st which r).1.rck = none ↔
        ∃ resp ∈ events_callbacks (rget_deliver env inst st which r).2,
          resp.rflags_FINAL = true)) := by
  cases hc : st.rck with
  | none =>
    have hdel : rget_deliver env inst st which r = (st, []) := by
      unfold rget_deliver
      rw [hc]
    rw [hdel]
    exact ⟨hinv, fun h => absurd rfl h⟩
  | some c =>
    unfold refcount_invariant at hinv
    rw [hc] at hinv
    obtain ⟨hrem, hne, hone⟩ := hinv
    have hlen1 : 1 ≤ st.inflight.length := by
      cases hl : st.inflight with
      | nil => exact absurd hl hne
      | cons a l => simp
    refine ⟨?_, fun _ => ?_⟩
    all_goals
      cases hst : c.strategy with
      | LCB_REPLICA_ALL =>
        rw [rget_deliver_all env inst st c which r hc hst hne]
        by_cases h1 : c.remaining = 1
        · have hl : st.inflight.length = 0 + 1 := by omega
          have he := List.length_eq_zero.mp (inflight_eraseIdx_length _ which 0 hl)
          rw [decref_last c h1, he, if_pos h1]
          simp [refcount_invariant, events_callbacks]
        · have hl : st.inflight.length = (st.inflight.length - 2 + 1) + 1 := by omega
          have he := inflight_eraseIdx_length _ which _ hl
          rw [decref_more c h1, if_neg h1]
          simp only [refcount_invariant, events_callbacks, List.filterMap_cons,
            List.filterMap_nil, List.mem_singleton, exists_eq_left, hfin]
          first
            | refine ⟨by rw [he]; push_cast; omega, ?_, fun hn => absurd hst hn⟩
              intro h0
              rw [h0] at he
              simp at he
            | simp
      | LCB_REPLICA_SELECT =>
        have hl : st.inflight.length = 0 + 1 := hone (by rw [hst]; decide)
        have he := List.length_eq_zero.mp (inflight_eraseIdx_length _ which 0 hl)
        rw [rget_deliver_select env inst st c which r hc hst hne, he,
          decref_last c (by rw [hrem, hl]; rfl)]
        simp [refcount_invariant, events_callbacks]
      | LCB_REPLICA_FIRST =>
        have hl : st.inflight.length = 1 := hone (by rw [hst]; decide)
        obtain ⟨p, hp⟩ := List.length_eq_one.mp hl
        rw [rget_deliver_single env inst st c p which r hc hp]
        rcases rget_callback_first_cases env inst c p.2 r.err r.resp hst with
          hcb | ⟨j, pl, hcb⟩
        · rw [hcb]
          simp [refcount_invariant, events_sched, events_callbacks]
        · rw [hcb]
          simp [refcount_invariant, events_sched, events_callbacks]


/-- Any sequence of responses keeps the invariant, and the cookie of a live request is
deleted at the end exactly when one of the callbacks delivered a response with FINAL to
the user: never before, and right after it. -/
theorem rget_run_refcount (env : Env) (inst : lcb_INSTANCE) (ds : List (Nat × RGetResponse)) :
    ∀ st : RGetRequest, refcount_invariant st →
      (∀ d ∈ ds, d.2.resp.rflags_FINAL = false) →
      refcount_invariant (rget_run env inst st ds).1 ∧
      (st.rck ≠ none →
        ((rget_run env inst st ds).1.rck = none ↔
          ∃ resp ∈ events_callbacks (rget_run env inst st ds).2,
            resp.rflags_FINAL = true)) := by
  induction ds with
  | nil =>
    intro st hinv _
    refine ⟨hinv, fun hne => ?_⟩
    simp only [rget_run, events_callbacks, List.filterMap_nil, List.not_mem_nil, false_and,
      exists_false, iff_false]
    exact hne
  | cons d rest ih =>
    intro st hinv hfin
    obtain ⟨w, r⟩ := d
    obtain ⟨s1, s2⟩ := rget_deliver_refcount env inst st w r hinv
      (hfin (w, r) (List.mem_cons_self _ _))
    obtain ⟨i1, i2⟩ := ih (rget_deliver env inst st w r).1 s1
      (fun d hd => hfin d (List.mem_cons_of_mem _ hd))
    rw [rget_run_cons]
    refine ⟨i1, fun hne => ?_⟩
    simp only [events_callbacks_append, List.mem_append]
    by_cases hstep : (rget_deliver env inst st w r).1.rck = none
    · rw [rget_run_done env inst rest _ hstep]
      obtain ⟨resp, hr1, hr2⟩ := (s2 hne).mp hstep
      exact ⟨fun _ => ⟨resp, Or.inl hr1, hr2⟩, fun _ => hstep⟩
    · have hno : ¬ ∃ resp ∈ events_callbacks (rget_deliver env inst st w r).2,
          resp.rflags_FINAL = true := fun hex => hstep ((s2 hne).mpr hex)
      rw [i2 hstep]
      constructor
      · rintro ⟨resp, hr1, hr2⟩
        exact ⟨resp, Or.inr hr1, hr2⟩
      · rintro ⟨resp, hr1 | hr1, hr2⟩
        · exact absurd ⟨resp, hr1, hr2⟩ hno
        · exact ⟨resp, hr1, hr2⟩


/-! ## C28: the CAS of a built store command -/

/-- A call of the `lcb_cmdstore_*` family keeps the operation of the command, and keeps
its CAS unless it is `lcb_cmdstore_cas` on a command that is neither upsert nor insert. -/
theorem cmdstore_apply_keeps (cmd : lcb_CMDSTORE) (call : cmdstore_call) :
    (cmdstore_apply cmd call).2.operation = cmd.operation ∧
    (cmd.operation = LCB_STORE_UPSERT ∨ cmd.operation = LCB_STORE_INSERT →
      (cmdstore_apply cmd call).2.cas = cmd.cas) := by
  cases call <;> refine ⟨?_, ?_⟩ <;>
    simp only [cmdstore_apply, lcb_cmdstore_clone, lcb_cmdstore_timeout,
      lcb_cmdstore_parent_span, lcb_cmdstore_collection, lcb_cmdstore_key, lcb_cmdstore_value,
      lcb_cmdstore_value_iov, lcb_cmdstore_expiry, lcb_cmdstore_cas, lcb_cmdstore_flags,
      lcb_cmdstore_datatype, lcb_cmdstore_durability, lcb_cmdstore_durability_observe,
      implies_true]
  · split_ifs <;> rfl
  · intro h
    rw [if_pos h]

/-- A sequence of calls keeps the operation, and the CAS of an upsert or insert. -/
theorem cmdstore_foldl_keeps (calls : List cmdstore_call) :
    ∀ cmd : lcb_CMDSTORE,
      (calls.foldl (fun cmd call => (cmdstore_apply cmd call).2) cmd).operation
        = cmd.operation ∧
      (cmd.operation = LCB_STORE_UPSERT ∨ cmd.operation = LCB_STORE_INSERT →
        (calls.foldl (fun cmd call => (cmdstore_apply cmd call).2) cmd).cas = cmd.cas) := by
  induction calls with
  | nil =>
    intro cmd
    exact ⟨rfl, fun _ => rfl⟩
  | cons call rest ih =>
    intro cmd
    obtain ⟨h1, h2⟩ := cmdstore_apply_keeps cmd call
    obtain ⟨i1, i2⟩ := ih (cmdstore_apply cmd call).2
    simp only [List.foldl_cons]
    refine ⟨by rw [i1, h1], fun h => ?_⟩
    rw [i2 (by rw [h1]; exact h), h2 h]

/-- C28. A command made by `lcb_cmdstore_create` with operation upsert or insert and any
sequence of calls of the `lcb_cmdstore_*` family has CAS 0 (and still its operation).
On such a command `lcb_cmdstore_cas` returns `INVALID_ARGUMENT` and leaves the command
as it is; on a replace, append or prepend it returns `SUCCESS` and the command differs
in the CAS only, which is the argument. -/
theorem cmdstore_cas_of_upsert_insert :
    (∀ (operation : lcb_STORE_OPERATION) (calls : List cmdstore_call),
      operation = LCB_STORE_UPSERT ∨ operation = LCB_STORE_INSERT →
      (cmdstore_build operation calls).cas = 0 ∧
      (cmdstore_build operation calls).operation = operation) ∧
    (∀ (cmd : lcb_CMDSTORE) (cas : Nat),
      cmd.operation = LCB_STORE_UPSERT ∨ cmd.operation = LCB_STORE_INSERT →
      lcb_cmdstore_cas cmd cas = (LCB_ERR_INVALID_ARGUMENT, cmd)) ∧
    (∀ (cmd : lcb_CMDSTORE) (cas : Nat),
      cmd.operation = LCB_STORE_REPLACE ∨ cmd.operation = LCB_STORE_APPEND ∨
        cmd.operation = LCB_STORE_PREPEND →
      lcb_cmdstore_cas cmd cas = (LCB_SUCCESS, { cmd with cas := cas })) := by
  refine ⟨?_, ?_, ?_⟩
  · intro operation calls h
    obtain ⟨h1, h2⟩ := cmdstore_foldl_keeps calls (lcb_cmdstore_create operation).2
    exact ⟨h2 h, h1⟩
  · intro cmd cas h
    unfold lcb_cmdstore_cas
    rw [if_pos h]
  · intro cmd cas h
    unfold lcb_cmdstore_cas
    rw [if_neg]
    rintro (h2 | h2) <;> rw [h2] at h <;> simp at h

/-- Witness of C28: the command that the test helper builds (upsert, key, value, flags,
expiry, a CAS of 5, datatype) has CAS 0, the call with the CAS is refused, and the same
call on a replace sets the CAS. -/
theorem cmdstore_cas_of_upsert_insert_witness :
    (cmdstore_build LCB_STORE_UPSERT
      [cmdstore_call.key key_k, cmdstore_call.value value_x, cmdstore_call.flags 1,
       cmdstore_call.expiry 5, cmdstore_call.cas 5, cmdstore_call.datatype 0]).cas = 0 ∧
    lcb_cmdstore_cas (cmdstore_build LCB_STORE_UPSERT [cmdstore_call.key key_k]) 5
      = (LCB_ERR_INVALID_ARGUMENT, cmdstore_build LCB_STORE_UPSERT [cmdstore_call.key key_k]) ∧
    (lcb_cmdstore_cas (cmdstore_build LCB_STORE_REPLACE [cmdstore_call.key key_k]) 5).2.cas
      = 5 :=
  ⟨(cmdstore_cas_of_upsert_insert.1 LCB_STORE_UPSERT _ (Or.inl rfl)).1,
   cmdstore_cas_of_upsert_insert.2.1 _ 5 (Or.inl rfl),
   congrArg (fun x => x.2.cas)
     (cmdstore_cas_of_upsert_insert.2.2 (cmdstore_build LCB_STORE_REPLACE
       [cmdstore_call.key key_k]) 5 (Or.inl rfl))⟩


/-! ## C21: the completion handler of a store with poll durability -/

/-- C21. The handler `handle_dur_storecb`, for every poll implementation, context and
store response. When the store failed (the error passed to the handler, or else the
status of the store response, is not `SUCCESS`), the user's store callback is invoked
once, with that error, `store_ok = 0`, a durability response attached and the key and
cookie of the store response, and then the context is deleted. When the store succeeded
and the poll is not started, the callback is invoked once, with the poll's error,
`store_ok = 1` and a durability response attached; that error is not `SUCCESS` when the
context had been created. When the poll is started, no callback is invoked. On every
path the context is deleted exactly once, as the last effect. -/
theorem dur_storecb_callback (eenv : EndureEnv) (inst : lcb_INSTANCE) (span : Bool)
    (dctx : DurStoreCtx) (err : lcb_STATUS) (sresp : lcb_RESPSTORE) :
    (err ≠ LCB_SUCCESS →
      handle_dur_storecb eenv inst span dctx err sresp
        = [DurStoreEvent.callback_store
             { rc := err, key := sresp.key, cookie := sresp.cookie, store_ok := 0,
               dur_resp := true },
           DurStoreEvent.dctx_deleted]) ∧
    (err = LCB_SUCCESS → sresp.rc ≠ LCB_SUCCESS →
      handle_dur_storecb eenv inst span dctx err sresp
        = [DurStoreEvent.callback_store
             { rc := sresp.rc, key := sresp.key, cookie := sresp.cookie, store_ok := 0,
               dur_resp := true },
           DurStoreEvent.dctx_deleted]) ∧
    (err = LCB_SUCCESS → sresp.rc = LCB_SUCCESS →
      endure_started eenv inst dctx sresp = false →
      durstore_callbacks (handle_dur_storecb eenv inst span dctx err sresp)
        = [{ rc := endure_error eenv inst dctx sresp, key := sresp.key,
             cookie := sresp.cookie, store_ok := 1, dur_resp := true }] ∧
      ((eenv.lcb_endure3_ctxnew inst dctx.persist_to dctx.replicate_to).1 = true →
        endure_error eenv inst dctx sresp ≠ LCB_SUCCESS)) ∧
    (err = LCB_SUCCESS → sresp.rc = LCB_SUCCESS →
      endure_started eenv inst dctx sresp = true →
      durstore_callbacks (handle_dur_storecb eenv inst span dctx err sresp) = []) ∧
    (handle_dur_storecb eenv inst span dctx err sresp).count DurStoreEvent.dctx_deleted = 1 ∧
    (handle_dur_storecb eenv inst span dctx err sresp).getLast?
      = some DurStoreEvent.dctx_deleted := by
  unfold handle_dur_storecb endure_started endure_error
  simp only []
  generalize (eenv.add_endure
    { key := sresp.key, cas := sresp.cas,
      mutation_token := if lcb_mutation_token_is_valid (some sresp.mt) then some sresp.mt
        else none }) = a
  generalize eenv.done sresp.cookie = d
  cases hctx : eenv.lcb_endure3_ctxnew inst dctx.persist_to dctx.replicate_to with
  | mk b e =>
    by_cases h1 : err = LCB_SUCCESS
    · by_cases h2 : sresp.rc = LCB_SUCCESS
      · cases b
        · simp [h1, h2, dur_storecb_bail, durstore_callbacks]
        · by_cases h3 : a = LCB_SUCCESS
          · by_cases h4 : d = LCB_SUCCESS
            · cases span <;> simp [h1, h2, h3, h4, dur_storecb_bail, durstore_callbacks]
            · cases span <;> simp [h1, h2, h3, h4, dur_storecb_bail, durstore_callbacks]
          · cases span <;> simp [h1, h2, h3, dur_storecb_bail, durstore_callbacks]
      · simp [h1, h2, dur_storecb_bail, durstore_callbacks]
    · simp [h1, dur_storecb_bail, durstore_callbacks]

/-- Witness of C21: a store that fails with a CAS mismatch is reported once with
`store_ok = 0`; a store that succeeds while `done` times out is reported once with
`TIMEOUT` and `store_ok = 1`; a store whose poll starts is not reported by the handler. -/
theorem dur_storecb_callback_witness :
    handle_dur_storecb testEndureEnv testInstance false testDurStoreCtx LCB_SUCCESS
        { rc := LCB_ERR_CAS_MISMATCH, key := key_k, cookie := 7 }
      = [DurStoreEvent.callback_store
           { rc := LCB_ERR_CAS_MISMATCH, key := key_k, cookie := 7, store_ok := 0,
             dur_resp := true },
         DurStoreEvent.dctx_deleted] ∧
    durstore_callbacks (handle_dur_storecb testEndureEnv testInstance false testDurStoreCtx
        LCB_SUCCESS { rc := LCB_SUCCESS, key := key_k, cookie := 9 })
      = [{ rc := LCB_ERR_TIMEOUT, key := key_k, cookie := 9, store_ok := 1,
           dur_resp := true }] ∧
    durstore_callbacks (handle_dur_storecb testEndureEnv testInstance false testDurStoreCtx
        LCB_SUCCESS { rc := LCB_SUCCESS, key := key_k, cookie := 7 }) = [] :=
  ⟨(dur_storecb_callback testEndureEnv testInstance false testDurStoreCtx LCB_SUCCESS
      { rc := LCB_ERR_CAS_MISMATCH, key := key_k, cookie := 7 }).2.1 rfl (by decide),
   ((dur_storecb_callback testEndureEnv testInstance false testDurStoreCtx LCB_SUCCESS
      { rc := LCB_SUCCESS, key := key_k, cookie := 9 }).2.2.1 rfl rfl (by decide)).1,
   (dur_storecb_callback testEndureEnv testInstance false testDurStoreCtx LCB_SUCCESS
      { rc := LCB_SUCCESS, key := key_k, cookie := 7 }).2.2.2.1 rfl rfl (by decide)⟩


/-! ## C22: the continuation of the collection resolution of a get -/

/-- The function `get_schedule` invokes no user callback. -/
theorem get_schedule_no_callback (env : Env) (inst : lcb_INSTANCE) (cmd : lcb_CMDGET) :
    events_get_callbacks (get_schedule env inst cmd).trace = [] := by
  unfold get_schedule
  simp only []
  split <;> simp [events_get_callbacks]

/-- C22. The continuation that `get_execute` hands to the collection resolver. When the
resolver reports `SHEDULE_FAILURE` or passes no response, its only effect is one
invocation of the user's get callback with `TIMEOUT` and the key and cookie of the
command. Otherwise, when the response carries a status that is not `SUCCESS`, its only
effect is one invocation of the callback with that status (and the key of the
response's error context, the cookie of the command). Otherwise `get_schedule` runs:
its packets are the packets the continuation hands to a pipeline, and the callback is
invoked, once, with the status of `get_schedule` and the key and cookie of the command,
exactly when that status is not `SUCCESS`. -/
theorem get_resolution_continuation (env : Env) (inst : lcb_INSTANCE) (status : lcb_STATUS)
    (resp : Option lcb_RESPGETCID) (operation : lcb_CMDGET) :
    (status = LCB_ERR_SHEDULE_FAILURE ∨ resp = none →
      get_execute_continuation env inst status resp operation
        = [Event.callback_get
            { rc := LCB_ERR_TIMEOUT, key := operation.key, cookie := operation.cookie }]) ∧
    (∀ r, status ≠ LCB_ERR_SHEDULE_FAILURE → resp = some r → r.rc ≠ LCB_SUCCESS →
      get_execute_continuation env inst status resp operation
        = [Event.callback_get { rc := r.rc, key := r.key, cookie := operation.cookie }]) ∧
    (∀ r, status ≠ LCB_ERR_SHEDULE_FAILURE → resp = some r → r.rc = LCB_SUCCESS →
      events_sched (get_execute_continuation env inst status resp operation)
        = events_sched (get_schedule env inst operation).trace ∧
      events_get_callbacks (get_execute_continuation env inst status resp operation)
        = if (get_schedule env inst operation).rc ≠ LCB_SUCCESS then
            [{ rc := (get_schedule env inst operation).rc, key := operation.key,
               cookie := operation.cookie }]
          else []) := by
  refine ⟨?_, ?_, ?_⟩
  · rintro (h | h)
    · unfold get_execute_continuation
      cases resp with
      | none => rfl
      | some r => simp [h]
    · rw [h]
      rfl
  · intro r hs hr hrc
    rw [hr]
    unfold get_execute_continuation
    simp [hs, hrc]
  · intro r hs hr hrc
    rw [hr]
    unfold get_execute_continuation
    simp only [hs, hrc, if_false, ne_eq, not_true_eq_false]
    have hcb := get_schedule_no_callback env inst operation
    by_cases ho : (get_schedule env inst operation).rc = LCB_SUCCESS
    · simp only [ho, not_true_eq_false, if_false]
      exact ⟨trivial, hcb⟩
    · simp only [ho, not_false_eq_true, if_true]
      refine ⟨?_, ?_⟩
      · rw [events_sched_append]
        simp [events_sched]
      · unfold events_get_callbacks at hcb ⊢
        rw [List.filterMap_append, hcb]
        rfl

/-- Witness of C22: a schedule failure of the resolver is delivered as `TIMEOUT`, an
error of the resolver with its status, and a get that cannot be scheduled after the
resolution (no cluster map) with the scheduling error. -/
theorem get_resolution_continuation_witness :
    get_execute_continuation testEnv testInstance LCB_ERR_SHEDULE_FAILURE (some {}) get_plain
      = [Event.callback_get { rc := LCB_ERR_TIMEOUT, key := key_k, cookie := 0 }] ∧
    get_execute_continuation testEnv testInstance LCB_SUCCESS
        (some { rc := LCB_ERR_GENERIC, key := key_k }) get_plain
      = [Event.callback_get { rc := LCB_ERR_GENERIC, key := key_k, cookie := 0 }] ∧
    events_get_callbacks
        (get_execute_continuation testEnv testInstanceNoConfig LCB_SUCCESS (some {}) get_plain)
      = [{ rc := LCB_ERR_NO_CONFIGURATION, key := key_k, cookie := 0 }] ∧
    events_get_callbacks
        (get_execute_continuation testEnv testInstance LCB_SUCCESS (some {}) get_plain)
      = [] :=
  ⟨(get_resolution_continuation testEnv testInstance LCB_ERR_SHEDULE_FAILURE (some {})
      get_plain).1 (Or.inl rfl),
   (get_resolution_continuation testEnv testInstance LCB_SUCCESS
      (some { rc := LCB_ERR_GENERIC, key := key_k }) get_plain).2.1 _ (by decide) rfl
      (by decide),
   ((get_resolution_continuation testEnv testInstanceNoConfig LCB_SUCCESS (some {})
      get_plain).2.2 _ (by decide) rfl rfl).2,
   ((get_resolution_continuation testEnv testInstance LCB_SUCCESS (some {})
      get_plain).2.2 _ (by decide) rfl rfl).2⟩


/-! ## C25: the retry test of an analytics request -/

/-- The loop of `has_retriable_error` answers true exactly when one of the elements is
an object whose member `code` is numeric and reads as 23000, 23003 or 23007. -/
theorem has_retriable_error_loop_iff {J : Type} (js : JsonApi J) (l : List J) :
    has_retriable_error_loop js l = true ↔
      ∃ cur ∈ l, js.isObject cur = true ∧ js.isNumeric (js.member cur "code") = true ∧
        (js.asUInt (js.member cur "code") = 23000 ∨ js.asUInt (js.member cur "code") = 23003 ∨
          js.asUInt (js.member cur "code") = 23007) := by
  induction l with
  | nil => simp [has_retriable_error_loop]
  | cons cur rest ih =>
    unfold has_retriable_error_loop
    simp only []
    by_cases ho : js.isObject cur = false
    · rw [if_pos ho, ih]
      simp [ho]
    · rw [if_neg ho]
      have ho2 : js.isObject cur = true := by simpa using ho
      by_cases hn : js.isNumeric (js.member cur "code") = true
      · rw [if_pos hn]
        by_cases hc : js.asUInt (js.member cur "code") = 23000 ∨
            js.asUInt (js.member cur "code") = 23003 ∨ js.asUInt (js.member cur "code") = 23007
        · rw [if_pos hc]
          simp only [true_iff]
          exact ⟨cur, List.mem_cons_self _ _, ho2, hn, hc⟩
        · rw [if_neg hc, ih]
          simp [hc]
      · rw [if_neg hn, ih]
        simp [hn]

/-- The method `has_retriable_error` answers true exactly when the value is an object
whose member `errors` is an array with an element that is an object whose member `code`
is numeric and reads as 23000, 23003 or 23007. -/
theorem has_retriable_error_iff {J : Type} (js : JsonApi J) (root : J) :
    has_retriable_error js root = true ↔
      js.isObject root = true ∧ js.isArray (js.member root "errors") = true ∧
      ∃ cur ∈ js.elements (js.member root "errors"),
        js.isObject cur = true ∧ js.isNumeric (js.member cur "code") = true ∧
        (js.asUInt (js.member cur "code") = 23000 ∨ js.asUInt (js.member cur "code") = 23003 ∨
          js.asUInt (js.member cur "code") = 23007) := by
  unfold has_retriable_error
  simp only []
  by_cases ho : js.isObject root = false
  · rw [if_pos ho]
    simp [ho]
  · rw [if_neg ho]
    have ho2 : js.isObject root = true := by simpa using ho
    by_cases ha : js.isArray (js.member root "errors") = false
    · rw [if_pos ha]
      simp [ha]
    · rw [if_neg ha, has_retriable_error_loop_iff]
      have ha2 : js.isArray (js.member root "errors") = true := by simpa using ha
      simp [ho2, ha2]

/-- What `maybe_retry` returns and leaves: true exactly when the request is not
cancelled, has no rows, was not examined before and its postmortem parses to a value
with a retriable error; the request is left as it was, or with `was_retried` set. -/
theorem maybe_retry_iff {J : Type} (env : AnalyticsEnv J) (req : lcb_ANALYTICSREQ) :
    ((maybe_retry env req).1 = true ↔
      req.callback = true ∧ req.nrows = 0 ∧ req.was_retried = false ∧
      ∃ root, env.json.parse (env.get_postmortem req.parser) = some root ∧
        has_retriable_error env.json root = true) ∧
    ((maybe_retry env req).2 = req ∨
      (maybe_retry env req).2 = { req with was_retried := true }) ∧
    retry_spent (maybe_retry env req).2 := by
  unfold maybe_retry retry_spent
  by_cases hc : req.callback = false
  · simp [hc]
  · rw [if_neg hc]
    have hc2 : req.callback = true := by simpa using hc
    by_cases hn : req.nrows ≠ 0
    · rw [if_pos hn]
      simp [hn]
    · rw [if_neg hn]
      have hn2 : req.nrows = 0 := by simpa using hn
      by_cases hw : req.was_retried = true
      · rw [if_pos hw]
        simp [hw]
      · rw [if_neg hw]
        have hw2 : req.was_retried = false := by simpa using hw
        simp only [parse_json]
        cases hp : env.json.parse (env.get_postmortem req.parser) with
        | none => simp [hc2, hn2, hw2]
        | some root =>
          by_cases hr : has_retriable_error env.json root = true
          · simp [hc2, hn2, hw2, hr]
          · simp [hc2, hn2, hw2, hr]

/-- A request that has used up its retry test is not retried. -/
theorem maybe_retry_spent {J : Type} (env : AnalyticsEnv J) (req : lcb_ANALYTICSREQ)
    (h : retry_spent req) : (maybe_retry env req).1 = false := by
  cases hr : (maybe_retry env req).1 with
  | false => rfl
  | true =>
    obtain ⟨h1, h2, h3, _⟩ := (maybe_retry_iff env req).1.mp hr
    rcases h with h | h | h
    · rw [h1] at h
      simp at h
    · exact absurd h2 h
    · rw [h3] at h
      simp at h


/-! ## What the functions of an analytics request change -/

/-- The method `invoke_row` changes nothing of the request but `callback`, which it never
sets again once cleared and always clears for the last row; it invokes the callback at
most once, and not at all when it is cleared; a response it delivers has FINAL exactly
for the last row, and then carries `lasterr` and the postmortem. -/
theorem invoke_row_frame {J : Type} (env : AnalyticsEnv J) (req : lcb_ANALYTICSREQ)
    (resp : lcb_RESPANALYTICS) (is_last : Bool) :
    (∃ c, (invoke_row env req resp is_last).1 = { req with callback := c } ∧
      (req.callback = false → c = false) ∧ (is_last = true → c = false)) ∧
    (req.callback = false → (invoke_row env req resp is_last).2 = []) ∧
    (req.callback = true → ∃ r, (invoke_row env req resp is_last).2
        = [AnalyticsEvent.callback r] ∧ r.cookie = req.cookie ∧
      (is_last = true → r.rflags_FINAL = true ∧ r.rc = req.lasterr ∧
        r.row = env.get_postmortem req.parser) ∧
      (is_last = false → r.rflags_FINAL = resp.rflags_FINAL)) := by
  obtain ⟨f1, f2, f3, f4, cb, f6, f7, f8, f9⟩ := req
  cases cb <;> cases is_last <;> simp [invoke_row]

/-- The override `JSPARSE_on_row` counts the row and passes it on with `invoke_row`. -/
theorem JSPARSE_on_row_frame {J : Type} (env : AnalyticsEnv J) (req : lcb_ANALYTICSREQ)
    (row : List Nat) :
    (∃ c, (JSPARSE_on_row env req row).1
        = { req with callback := c, nrows := req.nrows + 1 } ∧
      (req.callback = false → c = false)) ∧
    (req.callback = false → (JSPARSE_on_row env req row).2 = []) ∧
    (∀ r ∈ analytics_callbacks (JSPARSE_on_row env req row).2, r.rflags_FINAL = false) := by
  unfold JSPARSE_on_row
  simp only []
  obtain ⟨⟨c, h1, h2, _⟩, h3, h4⟩ :=
    invoke_row_frame env { req with nrows := req.nrows + 1 } { row := row } false
  refine ⟨⟨c, ?_, h2⟩, h3, ?_⟩
  · rw [h1]
  · intro r hr
    cases hc : req.callback with
    | false =>
      rw [h3 hc] at hr
      simp [analytics_callbacks] at hr
    | true =>
      obtain ⟨r2, e1, _, _, e4⟩ := h4 hc
      rw [e1] at hr
      simp only [analytics_callbacks, List.filterMap_cons, List.filterMap_nil,
        List.mem_singleton] at hr
      rw [hr, e4 rfl]

/-- The actions of the parser on a request: the retry flag, the HTTP handle, the handle
of a deferred query and the cookie stay; rows are only added; a cleared callback stays
cleared and then nothing is delivered; no response is delivered with FINAL; an error
recorded stays recorded, and an error reported by the parser is recorded. -/
theorem jsparse_dispatch_frame {J : Type} (env : AnalyticsEnv J)
    (actions : List jsparse_Action) :
    ∀ req : lcb_ANALYTICSREQ,
      (jsparse_dispatch env req actions).1.was_retried = req.was_retried ∧
      (jsparse_dispatch env req actions).1.htreq = req.htreq ∧
      (jsparse_dispatch env req actions).1.parser = req.parser ∧
      req.nrows ≤ (jsparse_dispatch env req actions).1.nrows ∧
      (req.callback = false → (jsparse_dispatch env req actions).1.callback = false ∧
        (jsparse_dispatch env req actions).2 = []) ∧
      (∀ r ∈ analytics_callbacks (jsparse_dispatch env req actions).2,
        r.rflags_FINAL = false) ∧
      (req.lasterr ≠ lcb_error_t.LCB_SUCCESS →
        (jsparse_dispatch env req actions).1.lasterr ≠ lcb_error_t.LCB_SUCCESS) ∧
      (jsparse_Action.on_error ∈ actions →
        (jsparse_dispatch env req actions).1.lasterr ≠ lcb_error_t.LCB_SUCCESS) := by
  induction actions with
  | nil =>
    intro req
    simp [jsparse_dispatch, analytics_callbacks]
  | cons a rest ih =>
    intro req
    cases a with
    | on_row row =>
      obtain ⟨⟨c, h1, h2⟩, h3, h4⟩ := JSPARSE_on_row_frame env req row
      obtain ⟨i1, i2, i3, i4, i5, i6, i7, i8⟩ := ih (JSPARSE_on_row env req row).1
      simp only [jsparse_dispatch]
      rw [h1] at i1 i2 i3 i4 i5 i7 ⊢
      simp only [] at i1 i2 i3 i4 i5 i7
      rw [h1] at i6 i8
      refine ⟨i1, i2, i3, by omega, ?_, ?_, i7, ?_⟩
      · intro hc
        obtain ⟨j1, j2⟩ := i5 (h2 hc)
        exact ⟨j1, by rw [h3 hc, j2]; rfl⟩
      · intro r hr
        unfold analytics_callbacks at hr
        rw [List.filterMap_append, List.mem_append] at hr
        rcases hr with hr | hr
        · exact h4 r hr
        · exact i6 r hr
      · intro hmem
        simp only [List.mem_cons, reduceCtorEq, false_or] at hmem
        exact i8 hmem
    | on_error =>
      obtain ⟨i1, i2, i3, i4, i5, i6, i7, i8⟩ := ih (JSPARSE_on_error req)
      simp only [jsparse_dispatch]
      simp only [JSPARSE_on_error] at i1 i2 i3 i4 i5 i7 ⊢
      refine ⟨i1, i2, i3, i4, i5, i6, fun _ => i7 (by decide), fun _ => i7 (by decide)⟩
    | on_complete =>
      obtain ⟨i1, i2, i3, i4, i5, i6, i7, i8⟩ := ih (JSPARSE_on_complete req)
      simp only [jsparse_dispatch]
      simp only [JSPARSE_on_complete] at i1 i2 i3 i4 i5 i7 i8 ⊢
      refine ⟨i1, i2, i3, i4, i5, i6, i7, ?_⟩
      intro hmem
      simp only [List.mem_cons, reduceCtorEq, false_or] at hmem
      exact i8 hmem


/-- The first statements of `chunk_callback` change only the current HTTP response and
`lasterr`; an error recorded stays recorded, and a chunk that reports an error or an
HTTP status other than 200 leaves an error recorded. -/
theorem chunk_callback_status_frame (req : lcb_ANALYTICSREQ) (rh : lcb_RESPHTTP) :
    (∃ e, chunk_callback_status req rh
        = { req with cur_htresp := some rh, lasterr := e } ∧
      (req.lasterr ≠ lcb_error_t.LCB_SUCCESS → e ≠ lcb_error_t.LCB_SUCCESS) ∧
      (rh.rc ≠ lcb_error_t.LCB_SUCCESS ∨ rh.htstatus ≠ 200 → e ≠ lcb_error_t.LCB_SUCCESS) ∧
      (rh.rc = lcb_error_t.LCB_SUCCESS → rh.htstatus = 200 → e = req.lasterr)) := by
  unfold chunk_callback_status
  simp only []
  by_cases h1 : rh.rc ≠ lcb_error_t.LCB_SUCCESS ∨ rh.htstatus ≠ 200
  · rw [if_pos h1]
    by_cases h2 : req.lasterr = lcb_error_t.LCB_SUCCESS ∨ rh.htstatus ≠ 200
    · rw [if_pos h2]
      refine ⟨_, rfl, ?_, ?_, ?_⟩
      · intro _
        split_ifs with h3
        · exact h3
        · decide
      · intro _
        split_ifs with h3
        · exact h3
        · decide
      · intro h3 h4
        rcases h1 with h1 | h1
        · exact absurd h3 h1
        · exact absurd h4 h1
    · rw [if_neg h2]
      have h3 : req.lasterr ≠ lcb_error_t.LCB_SUCCESS := fun h => h2 (Or.inl h)
      exact ⟨req.lasterr, rfl, fun _ => h3, fun _ => h3, fun _ _ => rfl⟩
  · rw [if_neg h1]
    exact ⟨req.lasterr, rfl, fun h => h, fun h => absurd h h1, fun _ _ => rfl⟩

/-- The destructor of a request: it cancels the HTTP request if there is one; when the
callback is set it delivers one response, with FINAL, `lasterr`, the postmortem and the
cookie, and when it is cleared none; then the object is gone. -/
theorem lcb_ANALYTICSREQ_dtor_events {J : Type} (env : AnalyticsEnv J)
    (req : lcb_ANALYTICSREQ) :
    (req.callback = false →
      lcb_ANALYTICSREQ_dtor env req
        = (if req.htreq then [AnalyticsEvent.cancel_http_request] else [])
          ++ [AnalyticsEvent.destroyed]) ∧
    (req.callback = true →
      ∃ r, lcb_ANALYTICSREQ_dtor env req
        = (if req.htreq then [AnalyticsEvent.cancel_http_request] else [])
          ++ [AnalyticsEvent.callback r, AnalyticsEvent.destroyed] ∧
        r.rflags_FINAL = true ∧ r.rc = req.lasterr ∧
        r.row = env.get_postmortem req.parser ∧ r.cookie = req.cookie) := by
  unfold lcb_ANALYTICSREQ_dtor
  simp only []
  refine ⟨?_, ?_⟩
  · intro hc
    simp [hc]
  · intro hc
    obtain ⟨_, _, h3⟩ := invoke_row_frame env { req with htreq := false } {} true
    obtain ⟨r, e1, e2, e3, _⟩ := h3 hc
    obtain ⟨e4, e5, e6⟩ := e3 rfl
    refine ⟨r, ?_, e4, e5, e6, e2⟩
    rw [if_pos hc, e1]
    simp

/-- A chunk for a request whose callback is cleared: the request is destroyed and nothing
is delivered; the HTTP request is cancelled unless the chunk is the final one. -/
theorem chunk_callback_cancelled {J : Type} (env : AnalyticsEnv J) (req : lcb_ANALYTICSREQ)
    (rh : lcb_RESPHTTP) (hc : req.callback = false) :
    chunk_callback env req rh
      = (none,
         (if rh.rflags_FINAL = false ∧ req.htreq = true then
            [AnalyticsEvent.cancel_http_request] else [])
         ++ [AnalyticsEvent.destroyed]) := by
  obtain ⟨e, he, _⟩ := chunk_callback_status_frame req rh
  unfold chunk_callback
  simp only []
  rw [he]
  cases hf : rh.rflags_FINAL with
  | true =>
    have hm : maybe_retry env { req with cur_htresp := some rh, lasterr := e, htreq := false }
        = (false, { req with cur_htresp := some rh, lasterr := e, htreq := false }) := by
      unfold maybe_retry
      simp [hc]
    simp only [if_true, hm]
    rw [(lcb_ANALYTICSREQ_dtor_events env _).1]
    · simp
    · exact hc
  | false =>
    simp only [Bool.false_eq_true, if_false, hc, if_true]
    rw [(lcb_ANALYTICSREQ_dtor_events env _).1]
    · simp
    · rfl


/-- The fields of the request that the first statements of `chunk_callback` keep. -/
theorem chunk_callback_status_fields (req : lcb_ANALYTICSREQ) (rh : lcb_RESPHTTP) :
    (chunk_callback_status req rh).callback = req.callback ∧
    (chunk_callback_status req rh).parser = req.parser ∧
    (chunk_callback_status req rh).cookie = req.cookie ∧
    (chunk_callback_status req rh).nrows = req.nrows ∧
    (chunk_callback_status req rh).was_retried = req.was_retried ∧
    (chunk_callback_status req rh).htreq = req.htreq ∧
    (req.lasterr ≠ lcb_error_t.LCB_SUCCESS ∨ rh.rc ≠ lcb_error_t.LCB_SUCCESS ∨
        rh.htstatus ≠ 200 →
      (chunk_callback_status req rh).lasterr ≠ lcb_error_t.LCB_SUCCESS) := by
  obtain ⟨e, he, e1, e2, _⟩ := chunk_callback_status_frame req rh
  rw [he]
  refine ⟨rfl, rfl, rfl, rfl, rfl, rfl, ?_⟩
  rintro (h1 | h1 | h1)
  · exact e1 h1
  · exact e2 (Or.inl h1)
  · exact e2 (Or.inr h1)

/-- The fields of the request that `maybe_retry` keeps: all but `was_retried`. -/
theorem maybe_retry_fields {J : Type} (env : AnalyticsEnv J) (req : lcb_ANALYTICSREQ) :
    (maybe_retry env req).2.callback = req.callback ∧
    (maybe_retry env req).2.parser = req.parser ∧
    (maybe_retry env req).2.cookie = req.cookie ∧
    (maybe_retry env req).2.nrows = req.nrows ∧
    (maybe_retry env req).2.htreq = req.htreq ∧
    (maybe_retry env req).2.lasterr = req.lasterr := by
  rcases (maybe_retry_iff env req).2.1 with h | h <;> rw [h] <;> simp

/-- The function `chunk_callback`, case by case, over the request that its first
statements leave. -/
theorem chunk_callback_cases {J : Type} (env : AnalyticsEnv J) (req : lcb_ANALYTICSREQ)
    (rh : lcb_RESPHTTP) :
    (rh.rflags_FINAL = true →
      (maybe_retry env { chunk_callback_status req rh with htreq := false }).1 = false →
      chunk_callback env req rh
        = (none, lcb_ANALYTICSREQ_dtor env
            (maybe_retry env { chunk_callback_status req rh with htreq := false }).2)) ∧
    (rh.rflags_FINAL = true →
      (maybe_retry env { chunk_callback_status req rh with htreq := false }).1 = true →
      chunk_callback env req rh
        = (some (maybe_retry env { chunk_callback_status req rh with htreq := false }).2,
           [])) ∧
    (rh.rflags_FINAL = false → req.callback = true →
      chunk_callback env req rh
        = (some (jsparse_feed env (chunk_callback_status req rh) rh.body).1,
           (jsparse_feed env (chunk_callback_status req rh) rh.body).2)) := by
  have hcb := (chunk_callback_status_fields req rh).1
  refine ⟨?_, ?_, ?_⟩
  · intro hf hm
    unfold chunk_callback
    simp only []
    rw [if_pos hf, if_pos hm]
  · intro hf hm
    unfold chunk_callback
    simp only []
    rw [if_pos hf, if_neg (by rw [hm]; decide)]
  · intro hf hc
    unfold chunk_callback
    simp only []
    rw [if_neg (by rw [hf]; decide), if_neg (by rw [hcb, hc]; decide)]

/-- The request that `chunk_callback` leaves alive: its callback was set; it has used up
its retry test if it had before or the chunk is the final one; an error recorded before,
reported by the chunk, or reported by the parser while it is fed the chunk, is
recorded in it. -/
theorem chunk_callback_alive {J : Type} (env : AnalyticsEnv J) (req req2 : lcb_ANALYTICSREQ)
    (rh : lcb_RESPHTTP) (h : (chunk_callback env req rh).1 = some req2) :
    req.callback = true ∧
    (retry_spent req ∨ rh.rflags_FINAL = true → retry_spent req2) ∧
    (req.lasterr ≠ lcb_error_t.LCB_SUCCESS ∨ rh.rc ≠ lcb_error_t.LCB_SUCCESS ∨
        rh.htstatus ≠ 200 → req2.lasterr ≠ lcb_error_t.LCB_SUCCESS) ∧
    (rh.rflags_FINAL = false →
      jsparse_Action.on_error ∈ env.jsparse_feed req.parser rh.body →
      req2.lasterr ≠ lcb_error_t.LCB_SUCCESS) := by
  have hcb : req.callback = true := by
    cases hc : req.callback with
    | true => rfl
    | false =>
      rw [chunk_callback_cancelled env req rh hc] at h
      simp at h
  obtain ⟨s1, s2, _, s4, s5, _, s7⟩ := chunk_callback_status_fields req rh
  obtain ⟨c1, c2, c3⟩ := chunk_callback_cases env req rh
  cases hf : rh.rflags_FINAL with
  | true =>
    obtain ⟨_, _, m3⟩ := maybe_retry_iff env
      { chunk_callback_status req rh with htreq := false }
    obtain ⟨_, _, _, _, _, f6⟩ := maybe_retry_fields env
      { chunk_callback_status req rh with htreq := false }
    cases hm : (maybe_retry env { chunk_callback_status req rh with htreq := false }).1 with
    | false =>
      rw [c1 hf hm] at h
      simp at h
    | true =>
      rw [c2 hf hm] at h
      simp only [Option.some.injEq] at h
      rw [← h]
      refine ⟨hcb, fun _ => m3, ?_, fun hx => by simp at hx⟩
      intro hx
      rw [f6]
      exact s7 hx
  | false =>
    rw [c3 hf hcb] at h
    simp only [Option.some.injEq] at h
    rw [← h]
    unfold jsparse_feed
    simp only []
    obtain ⟨d1, _, _, d4, _, _, d7, d8⟩ := jsparse_dispatch_frame env
      (env.jsparse_feed (chunk_callback_status req rh).parser rh.body)
      { chunk_callback_status req rh with
        parser := { (chunk_callback_status req rh).parser with
          fed := (chunk_callback_status req rh).parser.fed ++ rh.body } }
    simp only [] at d1 d4 d7
    refine ⟨hcb, ?_, fun hx => d7 (s7 hx), fun _ hx => d8 (by rw [s2]; exact hx)⟩
    rintro (hs | hs)
    · unfold retry_spent at hs ⊢
      rcases hs with hs | hs | hs
      · rw [hcb] at hs
        simp at hs
      · right
        left
        rw [← s4] at hs
        omega
      · right
        right
        rw [d1, s5]
        exact hs
    · simp at hs


/-- The responses that the destructor delivers: none when the callback is cleared, else
one, with FINAL, `lasterr`, the postmortem and the cookie. -/
theorem lcb_ANALYTICSREQ_dtor_callbacks {J : Type} (env : AnalyticsEnv J)
    (req : lcb_ANALYTICSREQ) :
    (req.callback = false → analytics_callbacks (lcb_ANALYTICSREQ_dtor env req) = []) ∧
    (req.callback = true → ∃ r, analytics_callbacks (lcb_ANALYTICSREQ_dtor env req) = [r] ∧
      r.rflags_FINAL = true ∧ r.rc = req.lasterr ∧
      r.row = env.get_postmortem req.parser ∧ r.cookie = req.cookie) := by
  refine ⟨?_, ?_⟩
  · intro hc
    rw [(lcb_ANALYTICSREQ_dtor_events env req).1 hc]
    split_ifs <;> simp [analytics_callbacks]
  · intro hc
    obtain ⟨r, d1, d2, d3, d4, d5⟩ := (lcb_ANALYTICSREQ_dtor_events env req).2 hc
    refine ⟨r, ?_, d2, d3, d4, d5⟩
    rw [d1]
    split_ifs <;> simp [analytics_callbacks]

/-- A response that `chunk_callback` delivers with FINAL: the chunk is the final one, the
request is destroyed, and the response carries the error recorded after the chunk, the
postmortem of the parser and the cookie of the request. -/
theorem chunk_callback_final_response {J : Type} (env : AnalyticsEnv J)
    (req : lcb_ANALYTICSREQ) (rh : lcb_RESPHTTP) (r : lcb_RESPANALYTICS)
    (hr : r ∈ analytics_callbacks (chunk_callback env req rh).2)
    (hfin : r.rflags_FINAL = true) :
    rh.rflags_FINAL = true ∧ (chunk_callback env req rh).1 = none ∧
    r.rc = (chunk_callback_status req rh).lasterr ∧
    r.row = env.get_postmortem req.parser ∧ r.cookie = req.cookie := by
  cases hc : req.callback with
  | false =>
    rw [chunk_callback_cancelled env req rh hc] at hr
    split_ifs at hr <;> simp [analytics_callbacks] at hr
  | true =>
    obtain ⟨s1, s2, s3, _, _, _, _⟩ := chunk_callback_status_fields req rh
    obtain ⟨c1, c2, c3⟩ := chunk_callback_cases env req rh
    cases hf : rh.rflags_FINAL with
    | true =>
      obtain ⟨f1, f2, f3, _, _, f6⟩ := maybe_retry_fields env
        { chunk_callback_status req rh with htreq := false }
      cases hm : (maybe_retry env { chunk_callback_status req rh with htreq := false }).1 with
      | false =>
        rw [c1 hf hm] at hr ⊢
        obtain ⟨r2, d1, _, d3, d4, d5⟩ := (lcb_ANALYTICSREQ_dtor_callbacks env
          (maybe_retry env { chunk_callback_status req rh with htreq := false }).2).2
          (by rw [f1]; simp only []; rw [s1, hc])
        simp only [] at hr
        rw [d1, List.mem_singleton] at hr
        rw [hr]
        refine ⟨rfl, rfl, ?_, ?_, ?_⟩
        · rw [d3, f6]
        · rw [d4, f2]
          simp only []
          rw [s2]
        · rw [d5, f3]
          simp only []
          rw [s3]
      | true =>
        rw [c2 hf hm] at hr
        simp [analytics_callbacks] at hr
    | false =>
      rw [c3 hf hc] at hr
      unfold jsparse_feed at hr
      simp only [] at hr
      obtain ⟨_, _, _, _, _, d6, _⟩ := jsparse_dispatch_frame env
        (env.jsparse_feed (chunk_callback_status req rh).parser rh.body)
        { chunk_callback_status req rh with
          parser := { (chunk_callback_status req rh).parser with
            fed := (chunk_callback_status req rh).parser.fed ++ rh.body } }
      rw [d6 r hr] at hfin
      simp at hfin


/-! ## An analytics request over a sequence of inputs -/

/-- A sequence of inputs that starts with one input: that input, then the others. -/
theorem analytics_run_cons {J : Type} (env : AnalyticsEnv J) (st : Option lcb_ANALYTICSREQ)
    (input : AnalyticsInput) (rest : List AnalyticsInput) :
    analytics_run env st (input :: rest)
      = ((analytics_run env (analytics_step env st input).1 rest).1,
         (analytics_step env st input).2
           ++ (analytics_run env (analytics_step env st input).1 rest).2) := rfl

/-- A destroyed request receives nothing. -/
theorem analytics_run_none {J : Type} (env : AnalyticsEnv J) (inputs : List AnalyticsInput) :
    analytics_run env none inputs = (none, []) := by
  induction inputs with
  | nil => rfl
  | cons input rest ih =>
    rw [analytics_run_cons]
    have hs : analytics_step env none input = (none, []) := rfl
    rw [hs, ih]
    rfl

/-- A request whose callback is cleared, over any inputs: nothing is delivered to the
user; the first chunk destroys it, so with a chunk among the inputs it is destroyed at the
end, exactly once. -/
theorem analytics_run_cancelled {J : Type} (env : AnalyticsEnv J)
    (inputs : List AnalyticsInput) :
    ∀ req : lcb_ANALYTICSREQ, req.callback = false →
      analytics_callbacks (analytics_run env (some req) inputs).2 = [] ∧
      ((∃ rh, AnalyticsInput.chunk rh ∈ inputs) →
        (analytics_run env (some req) inputs).1 = none ∧
        (analytics_run env (some req) inputs).2.count AnalyticsEvent.destroyed = 1) := by
  induction inputs with
  | nil =>
    intro req _
    refine ⟨rfl, ?_⟩
    rintro ⟨rh, hrh⟩
    simp at hrh
  | cons input rest ih =>
    intro req hc
    rw [analytics_run_cons]
    cases input with
    | chunk rh =>
      have hs : analytics_step env (some req) (AnalyticsInput.chunk rh)
          = chunk_callback env req rh := rfl
      rw [hs, chunk_callback_cancelled env req rh hc]
      simp only []
      rw [analytics_run_none]
      refine ⟨?_, fun _ => ⟨rfl, ?_⟩⟩
      · split_ifs <;> simp [analytics_callbacks]
      · split_ifs <;> simp
    | cancel =>
      have hs : analytics_step env (some req) AnalyticsInput.cancel
          = (some (lcb_analytics_cancel req), []) := rfl
      rw [hs]
      simp only [List.nil_append]
      obtain ⟨i1, i2⟩ := ih (lcb_analytics_cancel req) rfl
      refine ⟨i1, ?_⟩
      rintro ⟨rh, hrh⟩
      simp only [List.mem_cons, reduceCtorEq, false_or] at hrh
      exact i2 ⟨rh, hrh⟩

/-- A request that has used up its retry test has done so after any inputs. -/
theorem analytics_run_spent {J : Type} (env : AnalyticsEnv J)
    (inputs : List AnalyticsInput) :
    ∀ req req2 : lcb_ANALYTICSREQ, retry_spent req →
      (analytics_run env (some req) inputs).1 = some req2 → retry_spent req2 := by
  induction inputs with
  | nil =>
    intro req req2 hs h
    simp only [analytics_run, Option.some.injEq] at h
    rw [← h]
    exact hs
  | cons input rest ih =>
    intro req req2 hs h
    rw [analytics_run_cons] at h
    simp only [] at h
    cases input with
    | chunk rh =>
      have hst : analytics_step env (some req) (AnalyticsInput.chunk rh)
          = chunk_callback env req rh := rfl
      rw [hst] at h
      cases hc : (chunk_callback env req rh).1 with
      | none =>
        rw [hc, analytics_run_none] at h
        simp at h
      | some req3 =>
        rw [hc] at h
        exact ih req3 req2 ((chunk_callback_alive env req req3 rh hc).2.1 (Or.inl hs)) h
    | cancel =>
      have hst : analytics_step env (some req) AnalyticsInput.cancel
          = (some (lcb_analytics_cancel req), []) := rfl
      rw [hst] at h
      exact ih (lcb_analytics_cancel req) req2 (Or.inl rfl) h

/-- An error recorded in a request stays recorded over any inputs, and every response
that is then delivered with FINAL carries an error. -/
theorem analytics_run_sticky {J : Type} (env : AnalyticsEnv J)
    (inputs : List AnalyticsInput) :
    ∀ req : lcb_ANALYTICSREQ, req.lasterr ≠ lcb_error_t.LCB_SUCCESS →
      (∀ req2, (analytics_run env (some req) inputs).1 = some req2 →
        req2.lasterr ≠ lcb_error_t.LCB_SUCCESS) ∧
      (∀ r ∈ analytics_callbacks (analytics_run env (some req) inputs).2,
        r.rflags_FINAL = true → r.rc ≠ lcb_error_t.LCB_SUCCESS) := by
  induction inputs with
  | nil =>
    intro req he
    refine ⟨?_, ?_⟩
    · intro req2 h
      simp only [analytics_run, Option.some.injEq] at h
      rw [← h]
      exact he
    · intro r hr
      simp [analytics_run, analytics_callbacks] at hr
  | cons input rest ih =>
    intro req he
    rw [analytics_run_cons]
    simp only []
    cases input with
    | chunk rh =>
      have hst : analytics_step env (some req) (AnalyticsInput.chunk rh)
          = chunk_callback env req rh := rfl
      rw [hst]
      cases hc : (chunk_callback env req rh).1 with
      | none =>
        rw [analytics_run_none]
        refine ⟨fun req2 h => by simp at h, ?_⟩
        intro r hr hfin
        simp only [List.append_nil] at hr
        obtain ⟨_, _, x3, _⟩ := chunk_callback_final_response env req rh r hr hfin
        rw [x3]
        exact (chunk_callback_status_fields req rh).2.2.2.2.2.2 (Or.inl he)
      | some req3 =>
        obtain ⟨i1, i2⟩ := ih req3
          ((chunk_callback_alive env req req3 rh hc).2.2.1 (Or.inl he))
        refine ⟨i1, ?_⟩
        intro r hr hfin
        unfold analytics_callbacks at hr
        rw [List.filterMap_append, List.mem_append] at hr
        rcases hr with hr | hr
        · obtain ⟨_, _, x3, _⟩ := chunk_callback_final_response env req rh r hr hfin
          rw [x3]
          exact (chunk_callback_status_fields req rh).2.2.2.2.2.2 (Or.inl he)
        · exact i2 r hr hfin
    | cancel =>
      have hst : analytics_step env (some req) AnalyticsInput.cancel
          = (some (lcb_analytics_cancel req), []) := rfl
      rw [hst]
      simp only [List.nil_append]
      exact ih (lcb_analytics_cancel req) he


/-! ## C23: cancelling an analytics request -/

/-- When the user's callback cancels the request while `invoke_row` runs it, the callback
of the request is cleared afterwards. -/
theorem invoke_row_user_cancel {J : Type} (env : AnalyticsEnv J) (req : lcb_ANALYTICSREQ)
    (resp : lcb_RESPANALYTICS) (is_last : Bool) (r : lcb_RESPANALYTICS)
    (hr : AnalyticsEvent.callback r ∈ (invoke_row env req resp is_last).2)
    (hu : env.user_cancels r = true) :
    (invoke_row env req resp is_last).1.callback = false := by
  obtain ⟨f1, f2, f3, f4, cb, f6, f7, f8, f9⟩ := req
  cases cb <;> cases is_last <;> simp [invoke_row] at hr ⊢
  rw [← hr, hu]

/-- C23. After `lcb_analytics_cancel` on a request, in whatever state: no sequence of
later chunks and cancellations makes the user's callback run; the next chunk, final or
not, destroys the request (cancelling the HTTP request first when the chunk is not the
final one and the HTTP request exists), and delivers nothing; rows that the parser
reports and a call of `invoke_row` deliver nothing; the destructor delivers nothing.
The same holds after the user has cancelled from within a callback. -/
theorem analytics_cancel_silences {J : Type} (env : AnalyticsEnv J)
    (req : lcb_ANALYTICSREQ) :
    (∀ inputs : List AnalyticsInput,
      analytics_callbacks
        (analytics_run env (some (lcb_analytics_cancel req)) inputs).2 = [] ∧
      ((∃ rh, AnalyticsInput.chunk rh ∈ inputs) →
        (analytics_run env (some (lcb_analytics_cancel req)) inputs).1 = none ∧
        (analytics_run env (some (lcb_analytics_cancel req)) inputs).2.count
          AnalyticsEvent.destroyed = 1)) ∧
    (∀ rh : lcb_RESPHTTP,
      chunk_callback env (lcb_analytics_cancel req) rh
        = (none,
           (if rh.rflags_FINAL = false ∧ req.htreq = true then
              [AnalyticsEvent.cancel_http_request] else [])
           ++ [AnalyticsEvent.destroyed])) ∧
    (∀ actions : List jsparse_Action,
      (jsparse_dispatch env (lcb_analytics_cancel req) actions).2 = []) ∧
    (∀ (resp : lcb_RESPANALYTICS) (is_last : Bool),
      (invoke_row env (lcb_analytics_cancel req) resp is_last).2 = []) ∧
    analytics_callbacks (lcb_ANALYTICSREQ_dtor env (lcb_analytics_cancel req)) = [] ∧
    (∀ (resp : lcb_RESPANALYTICS) (is_last : Bool) (r : lcb_RESPANALYTICS)
        (inputs : List AnalyticsInput),
      AnalyticsEvent.callback r ∈ (invoke_row env req resp is_last).2 →
      env.user_cancels r = true →
      analytics_callbacks
        (analytics_run env (some (invoke_row env req resp is_last).1) inputs).2 = []) := by
  refine ⟨?_, ?_, ?_, ?_, ?_, ?_⟩
  · intro inputs
    exact analytics_run_cancelled env inputs (lcb_analytics_cancel req) rfl
  · intro rh
    exact chunk_callback_cancelled env (lcb_analytics_cancel req) rh rfl
  · intro actions
    exact ((jsparse_dispatch_frame env actions (lcb_analytics_cancel req)).2.2.2.2.1 rfl).2
  · intro resp is_last
    exact (invoke_row_frame env (lcb_analytics_cancel req) resp is_last).2.1 rfl
  · exact (lcb_ANALYTICSREQ_dtor_callbacks env (lcb_analytics_cancel req)).1 rfl
  · intro resp is_last r inputs hr hu
    exact (analytics_run_cancelled env inputs _
      (invoke_row_user_cancel env req resp is_last r hr hu)).1

/-- Witness of C23: a request that has delivered one row and is cancelled delivers
nothing for the row and the final chunk that follow, and the row chunk destroys it. -/
theorem analytics_cancel_silences_witness :
    analytics_callbacks
      (analytics_run testAnalyticsEnv
        (some (lcb_analytics_cancel
          ((analytics_run testAnalyticsEnv (some test_analytics_request)
            [AnalyticsInput.chunk (test_chunk test_row)]).1.getD {})))
        [AnalyticsInput.chunk (test_chunk test_row),
         AnalyticsInput.chunk test_chunk_final]).2 = [] ∧
    (analytics_run testAnalyticsEnv
        (some (lcb_analytics_cancel
          ((analytics_run testAnalyticsEnv (some test_analytics_request)
            [AnalyticsInput.chunk (test_chunk test_row)]).1.getD {})))
        [AnalyticsInput.chunk (test_chunk test_row),
         AnalyticsInput.chunk test_chunk_final]).2
      = [AnalyticsEvent.cancel_http_request, AnalyticsEvent.destroyed] ∧
    (analytics_callbacks
      (analytics_run testAnalyticsEnv (some test_analytics_request)
        [AnalyticsInput.chunk (test_chunk test_row)]).2).length = 1 :=
  ⟨((analytics_cancel_silences testAnalyticsEnv
      ((analytics_run testAnalyticsEnv (some test_analytics_request)
        [AnalyticsInput.chunk (test_chunk test_row)]).1.getD {})).1 _).1,
   by decide, by decide⟩


/-! ## C25: an analytics request is not retried twice -/

/-- C25. The method `maybe_retry` returns true exactly when the request is not cancelled,
has received no row, has not been examined before, and its postmortem parses to an
object whose member `errors` is an array with an element that is an object whose member
`code` is numeric and reads (`asUInt`) as 23000, 23003 or 23007. Called again right
away it returns false, and so it does on every later call, whatever chunks and
cancellations the request has seen in between: at most one call returns true. -/
theorem maybe_retry_at_most_once {J : Type} (env : AnalyticsEnv J)
    (req : lcb_ANALYTICSREQ) :
    ((maybe_retry env req).1 = true ↔
      req.callback = true ∧ req.nrows = 0 ∧ req.was_retried = false ∧
      ∃ root, env.json.parse (env.get_postmortem req.parser) = some root ∧
        env.json.isObject root = true ∧
        env.json.isArray (env.json.member root "errors") = true ∧
        ∃ cur ∈ env.json.elements (env.json.member root "errors"),
          env.json.isObject cur = true ∧
          env.json.isNumeric (env.json.member cur "code") = true ∧
          (env.json.asUInt (env.json.member cur "code") = 23000 ∨
            env.json.asUInt (env.json.member cur "code") = 23003 ∨
            env.json.asUInt (env.json.member cur "code") = 23007)) ∧
    (maybe_retry env (maybe_retry env req).2).1 = false ∧
    (∀ (inputs : List AnalyticsInput) (req2 : lcb_ANALYTICSREQ),
      (analytics_run env (some (maybe_retry env req).2) inputs).1 = some req2 →
      (maybe_retry env req2).1 = false) := by
  obtain ⟨m1, _, m3⟩ := maybe_retry_iff env req
  refine ⟨?_, maybe_retry_spent env _ m3, ?_⟩
  · rw [m1]
    constructor
    · rintro ⟨h1, h2, h3, root, h4, h5⟩
      exact ⟨h1, h2, h3, root, h4, (has_retriable_error_iff env.json root).mp h5⟩
    · rintro ⟨h1, h2, h3, root, h4, h5⟩
      exact ⟨h1, h2, h3, root, h4, (has_retriable_error_iff env.json root).mpr h5⟩
  · intro inputs req2 h
    exact maybe_retry_spent env req2 (analytics_run_spent env inputs _ req2 m3 h)

/-- Witness of C25: a request without rows whose postmortem is
`{"errors":[{"code":23000}]}` passes the retry test once and not a second time; with the
postmortem `{"status":"success"}` it does not pass. -/
theorem maybe_retry_at_most_once_witness :
    (maybe_retry testAnalyticsEnv
      { callback := true, parser := { fed := test_meta_stale } }).1 = true ∧
    (maybe_retry testAnalyticsEnv
      (maybe_retry testAnalyticsEnv
        { callback := true, parser := { fed := test_meta_stale } }).2).1 = false ∧
    (maybe_retry testAnalyticsEnv
      { callback := true, parser := { fed := test_meta_success } }).1 = false :=
  ⟨(maybe_retry_at_most_once testAnalyticsEnv
      { callback := true, parser := { fed := test_meta_stale } }).1.mpr
      ⟨rfl, rfl, rfl,
       TestJson.object
         [("errors", TestJson.array [TestJson.object [("code", TestJson.number 23000)]])],
       rfl, rfl, rfl,
       TestJson.object [("code", TestJson.number 23000)], List.Mem.head _, rfl, rfl,
       Or.inl rfl⟩,
   (maybe_retry_at_most_once testAnalyticsEnv
      { callback := true, parser := { fed := test_meta_stale } }).2.1,
   by decide⟩

/-! ## C27: the recorded error of an analytics request -/

/-- C27. Once a chunk arrives with a status that is not `SUCCESS` or an HTTP status
other than 200, or the parser reports an error while it is fed a chunk (the chunk is not
the final one and the request is not cancelled), `lasterr` is not `SUCCESS` after that
chunk and after every later sequence of chunks and cancellations, as long as the
request exists; and every response that is delivered with FINAL from that chunk on
carries a status that is not `SUCCESS`. -/
theorem analytics_lasterr_sticky {J : Type} (env : AnalyticsEnv J) (req : lcb_ANALYTICSREQ)
    (rh : lcb_RESPHTTP) (later : List AnalyticsInput)
    (h : rh.rc ≠ lcb_error_t.LCB_SUCCESS ∨ rh.htstatus ≠ 200 ∨
      (req.callback = true ∧ rh.rflags_FINAL = false ∧
        jsparse_Action.on_error ∈ env.jsparse_feed req.parser rh.body)) :
    (∀ req2, (analytics_run env (some req) (AnalyticsInput.chunk rh :: later)).1 = some req2 →
      req2.lasterr ≠ lcb_error_t.LCB_SUCCESS) ∧
    (∀ r ∈ analytics_callbacks
        (analytics_run env (some req) (AnalyticsInput.chunk rh :: later)).2,
      r.rflags_FINAL = true → r.rc ≠ lcb_error_t.LCB_SUCCESS) := by
  rw [analytics_run_cons]
  have hst : analytics_step env (some req) (AnalyticsInput.chunk rh)
      = chunk_callback env req rh := rfl
  rw [hst]
  simp only []
  have hstep : ∀ r ∈ analytics_callbacks (chunk_callback env req rh).2,
      r.rflags_FINAL = true → r.rc ≠ lcb_error_t.LCB_SUCCESS := by
    intro r hr hfin
    obtain ⟨x1, _, x3, _⟩ := chunk_callback_final_response env req rh r hr hfin
    rw [x3]
    rcases h with h | h | ⟨_, h, _⟩
    · exact (chunk_callback_status_fields req rh).2.2.2.2.2.2 (Or.inr (Or.inl h))
    · exact (chunk_callback_status_fields req rh).2.2.2.2.2.2 (Or.inr (Or.inr h))
    · rw [x1] at h
      simp at h
  cases hc : (chunk_callback env req rh).1 with
  | none =>
    rw [analytics_run_none]
    refine ⟨fun req2 hx => by simp at hx, ?_⟩
    intro r hr hfin
    simp only [List.append_nil] at hr
    exact hstep r hr hfin
  | some req3 =>
    obtain ⟨_, _, a3, a4⟩ := chunk_callback_alive env req req3 rh hc
    have he : req3.lasterr ≠ lcb_error_t.LCB_SUCCESS := by
      rcases h with h | h | ⟨_, h1, h2⟩
      · exact a3 (Or.inr (Or.inl h))
      · exact a3 (Or.inr (Or.inr h))
      · exact a4 h1 h2
    obtain ⟨i1, i2⟩ := analytics_run_sticky env later req3 he
    refine ⟨i1, ?_⟩
    intro r hr hfin
    unfold analytics_callbacks at hr
    rw [List.filterMap_append, List.mem_append] at hr
    rcases hr with hr | hr
    · exact hstep r hr hfin
    · exact i2 r hr hfin

/-- Witness of C27: a first chunk with HTTP status 503 is followed by a chunk with
status 200 and the final chunk; the response delivered with FINAL carries
`LCB_HTTP_ERROR`. -/
theorem analytics_lasterr_sticky_witness :
    (analytics_callbacks
      (analytics_run testAnalyticsEnv (some test_analytics_request)
        [AnalyticsInput.chunk (test_chunk_503 []),
         AnalyticsInput.chunk (test_chunk test_meta_success),
         AnalyticsInput.chunk test_chunk_final]).2).map (fun r => (r.rflags_FINAL, r.rc))
      = [(true, lcb_error_t.LCB_HTTP_ERROR)] ∧
    ∀ r ∈ analytics_callbacks
        (analytics_run testAnalyticsEnv (some test_analytics_request)
          [AnalyticsInput.chunk (test_chunk_503 []),
           AnalyticsInput.chunk (test_chunk test_meta_success),
           AnalyticsInput.chunk test_chunk_final]).2,
      r.rflags_FINAL = true → r.rc ≠ lcb_error_t.LCB_SUCCESS :=
  ⟨by decide,
   (analytics_lasterr_sticky testAnalyticsEnv test_analytics_request (test_chunk_503 [])
      [AnalyticsInput.chunk (test_chunk test_meta_success),
       AnalyticsInput.chunk test_chunk_final] (Or.inr (Or.inl (by decide)))).2⟩


/-! ## C26: the final chunk of an analytics response -/

/-- C26 fails on this input: a request that `lcb_analytics_query` accepted and that is not
cancelled receives a response with HTTP status 503 whose body is
`{"errors":[{"code":23000}]}`, without rows, and then the final chunk. `maybe_retry`
returns true, so `chunk_callback` neither deletes the request nor issues it again: the
user's callback is never invoked, not even with FINAL, and the request stays alive
without an HTTP request, with the error recorded and undelivered. -/
theorem analytics_final_chunk_without_callback :
    lcb_analytics_query testAnalyticsEnv 7 test_cmd_analytics
      = (lcb_error_t.LCB_SUCCESS, some test_analytics_request, []) ∧
    test_analytics_request.callback = true ∧
    analytics_run testAnalyticsEnv (some test_analytics_request)
        [AnalyticsInput.chunk (test_chunk_503 test_meta_stale),
         AnalyticsInput.chunk test_chunk_503_final]
      = (some { test_analytics_request with
            cur_htresp := some test_chunk_503_final, htreq := false,
            parser := { fed := test_meta_stale },
            lasterr := lcb_error_t.LCB_HTTP_ERROR, was_retried := true },
         []) := by
  decide

/-- A request that `lcb_analytics_query` leaves: the call returned `SUCCESS` without any
effect on the user, and the request has its callback and its HTTP request, no error,
no row, and was not examined for a retry. -/
theorem lcb_analytics_query_accepted {J : Type} (env : AnalyticsEnv J) (cookie : Nat)
    (cmd : lcb_CMDANALYTICS) (req : lcb_ANALYTICSREQ)
    (h : (lcb_analytics_query env cookie cmd).2.1 = some req) :
    (lcb_analytics_query env cookie cmd).1 = lcb_error_t.LCB_SUCCESS ∧
    (lcb_analytics_query env cookie cmd).2.2 = [] ∧
    req.callback = true ∧ req.htreq = true ∧ req.lasterr = lcb_error_t.LCB_SUCCESS ∧
    req.nrows = 0 ∧ req.was_retried = false ∧ req.cookie = cookie := by
  unfold lcb_analytics_query at h ⊢
  simp only [] at h ⊢
  split_ifs at h ⊢ with h1 h2 h3
  simp only [Option.some.injEq] at h
  rw [← h]
  have hl : (lcb_ANALYTICSREQ_new env cookie cmd).lasterr = lcb_error_t.LCB_SUCCESS := by
    simpa using h2
  have hc : cmd.callback = true := by simpa using h1
  refine ⟨rfl, rfl, ?_, rfl, hl, ?_, ?_, ?_⟩
  all_goals
    unfold lcb_ANALYTICSREQ_new
    simp only []
    split
    · simp [hc]
    · split_ifs <;> simp [hc]

/-- The final chunk for a request that is not cancelled and does not pass the retry
test: the callback is invoked once, with FINAL, the error recorded after the chunk, the
postmortem as the row and the cookie; the request is destroyed, once, and receives
nothing afterwards. -/
theorem chunk_callback_final_delivers {J : Type} (env : AnalyticsEnv J)
    (req : lcb_ANALYTICSREQ) (rh : lcb_RESPHTTP)
    (hc : req.callback = true) (hf : rh.rflags_FINAL = true)
    (hm : (maybe_retry env { chunk_callback_status req rh with htreq := false }).1 = false) :
    (chunk_callback env req rh).1 = none ∧
    (∃ r, analytics_callbacks (chunk_callback env req rh).2 = [r] ∧
      r.rflags_FINAL = true ∧ r.rc = (chunk_callback_status req rh).lasterr ∧
      r.row = env.get_postmortem req.parser ∧ r.cookie = req.cookie) ∧
    (chunk_callback env req rh).2.count AnalyticsEvent.destroyed = 1 ∧
    ∀ inputs, analytics_run env (chunk_callback env req rh).1 inputs = (none, []) := by
  obtain ⟨s1, s2, s3, _, _, _, _⟩ := chunk_callback_status_fields req rh
  obtain ⟨f1, f2, f3, _, f5, f6⟩ := maybe_retry_fields env
    { chunk_callback_status req rh with htreq := false }
  have hcb : (maybe_retry env { chunk_callback_status req rh with htreq := false }).2.callback
      = true := by
    rw [f1]
    simp only []
    rw [s1, hc]
  rw [(chunk_callback_cases env req rh).1 hf hm]
  obtain ⟨r, d1, d2, d3, d4, d5⟩ := (lcb_ANALYTICSREQ_dtor_callbacks env _).2 hcb
  obtain ⟨r2, e1, _⟩ := (lcb_ANALYTICSREQ_dtor_events env _).2 hcb
  refine ⟨rfl, ⟨r, d1, d2, ?_, ?_, ?_⟩, ?_, fun inputs => analytics_run_none env inputs⟩
  · rw [d3, f6]
  · rw [d4, f2]
    simp only []
    rw [s2]
  · rw [d5, f3]
    simp only []
    rw [s3]
  · simp only []
    rw [e1, f5]
    simp


/-! ## The proxy: a complete frame -/

/-- The function `conn_readcb` on a buffer that holds a complete frame, when the packet
can be allocated: the frame is taken out of the buffer, the scheduling context is
entered, and the opcode selects what follows. -/
theorem conn_readcb_complete (env : ProxyEnv) (input : List Nat)
    (h24 : 24 ≤ input.length)
    (hlen : 24 + ntohl env.little_endian
      (load_u32 env.little_endian (input.getD 8 0) (input.getD 9 0) (input.getD 10 0)
        (input.getD 11 0)) ≤ input.length)
    (hm : env.malloc_fails (24 + ntohl env.little_endian
      (load_u32 env.little_endian (input.getD 8 0) (input.getD 9 0) (input.getD 10 0)
        (input.getD 11 0))) = false) :
    conn_readcb env input
      = (input.drop (24 + ntohl env.little_endian
            (load_u32 env.little_endian (input.getD 8 0) (input.getD 9 0) (input.getD 10 0)
              (input.getD 11 0))),
         [ProxyEvent.sched_enter] ++
           (if input.getD 1 0 = PROTOCOL_BINARY_CMD_VERSION then conn_readcb_version env
            else if input.getD 1 0 = PROTOCOL_BINARY_CMD_STAT then
              conn_readcb_stat env (input.take 24)
                (input.take (24 + ntohl env.little_endian
                  (load_u32 env.little_endian (input.getD 8 0) (input.getD 9 0)
                    (input.getD 10 0) (input.getD 11 0))))
            else
              conn_readcb_fwd env
                (input.take (24 + ntohl env.little_endian
                  (load_u32 env.little_endian (input.getD 8 0) (input.getD 9 0)
                    (input.getD 10 0) (input.getD 11 0)))))) := by
  have hget : ∀ i, i < 24 → (input.take 24).getD i 0 = input.getD i 0 := by
    intro i hi
    simp only [List.getD_eq_getElem?_getD, List.getElem?_take]
    rw [if_pos hi]
  unfold conn_readcb
  simp only []
  rw [hget 8 (by omega), hget 9 (by omega), hget 10 (by omega), hget 11 (by omega),
    hget 1 (by omega)]
  rw [if_neg (by omega), if_neg (by omega), hm]
  simp only [Bool.false_eq_true, if_false]
  split_ifs <;> rfl

/-- The blocks `FWD` and `DONE`: the packet is forwarded unchanged, once; the context is
left once unless the process exits. -/
theorem conn_readcb_fwd_events (env : ProxyEnv) (pkt : List Nat) :
    proxy_forwarded (conn_readcb_fwd env pkt) = [pkt] ∧
    proxy_reads (conn_readcb_fwd env pkt) = [] ∧
    proxy_queries (conn_readcb_fwd env pkt) = [] ∧
    proxy_searches (conn_readcb_fwd env pkt) = [] ∧
    (conn_readcb_fwd env pkt).count ProxyEvent.sched_enter = 0 ∧
    (conn_readcb_fwd env pkt).count ProxyEvent.sched_leave
      = (if env.lcb_pktfwd3 pkt = LCB_SUCCESS then 1 else 0) ∧
    (ProxyEvent.exit_failure ∈ conn_readcb_fwd env pkt ↔ env.lcb_pktfwd3 pkt ≠ LCB_SUCCESS) := by
  unfold conn_readcb_fwd
  simp only []
  by_cases h : env.lcb_pktfwd3 pkt = LCB_SUCCESS
  · simp [h, proxy_forwarded, proxy_reads, proxy_queries, proxy_searches]
  · simp [h, proxy_forwarded, proxy_reads, proxy_queries, proxy_searches]


/-- Reads and redirecting calls neither enter nor leave the scheduling context, do not
exit and forward nothing. -/
theorem proxy_redirect_events (t : List ProxyEvent)
    (h : ∀ e ∈ t, ProxyEvent.is_redirect e = true) :
    t.count ProxyEvent.sched_enter = 0 ∧ t.count ProxyEvent.sched_leave = 0 ∧
    ProxyEvent.exit_failure ∉ t ∧ proxy_forwarded t = [] := by
  induction t with
  | nil => simp [proxy_forwarded]
  | cons e rest ih =>
    obtain ⟨i1, i2, i3, i4⟩ := ih (fun x hx => h x (List.mem_cons_of_mem _ hx))
    have he := h e (List.mem_cons_self _ _)
    unfold proxy_forwarded at i4 ⊢
    cases e <;> simp [ProxyEvent.is_redirect] at he <;>
      simp [List.count_cons, i1, i2, i3, i4]

/-- The shape of the `STAT` case: reads and redirecting calls, followed either by the
forwarding of the packet or by leaving the scheduling context. -/
theorem conn_readcb_stat_shape (env : ProxyEnv) (header pkt : List Nat) :
    ∃ t : List ProxyEvent, (∀ e ∈ t, ProxyEvent.is_redirect e = true) ∧
      (conn_readcb_stat env header pkt = t ++ conn_readcb_fwd env pkt ∨
       conn_readcb_stat env header pkt = t ++ [ProxyEvent.sched_leave]) := by
  unfold conn_readcb_stat
  simp only []
  generalize ntohs env.little_endian (header.getD 4 0) % 256 = E
  generalize ntohs env.little_endian
    (load_u16 env.little_endian (header.getD 2 0) (header.getD 3 0)) = K
  by_cases h1 : K < 6
  · rw [if_pos h1]
    exact ⟨[], by simp, Or.inl rfl⟩
  · rw [if_neg h1]
    by_cases h2 : pkt_read env pkt (24 + E) 6 = stat_query
    · rw [if_pos h2]
      by_cases h3 : env.lcb_cmdquery_statement (pkt_read env pkt (24 + E + 6) (K - 6))
          ≠ LCB_SUCCESS
      · rw [if_pos h3]
        exact ⟨_, by simp [ProxyEvent.is_redirect], Or.inl rfl⟩
      · rw [if_neg h3]
        by_cases h4 : env.lcb_query (pkt_read env pkt (24 + E + 6) (K - 6)) ≠ LCB_SUCCESS
        · rw [if_pos h4]
          exact ⟨_, by simp [ProxyEvent.is_redirect], Or.inl rfl⟩
        · rw [if_neg h4]
          refine ⟨[ProxyEvent.read (24 + E) 6, ProxyEvent.read (24 + E + 6) (K - 6),
            ProxyEvent.cmdquery_statement (pkt_read env pkt (24 + E + 6) (K - 6))
              (env.lcb_cmdquery_statement (pkt_read env pkt (24 + E + 6) (K - 6))),
            ProxyEvent.query (pkt_read env pkt (24 + E + 6) (K - 6))
              (env.lcb_query (pkt_read env pkt (24 + E + 6) (K - 6)))],
            by simp [ProxyEvent.is_redirect], Or.inr (by simp)⟩
    · rw [if_neg h2]
      by_cases h5 : pkt_read env pkt (24 + E) 7 = stat_search
      · rw [if_pos h5]
        by_cases h6 : env.lcb_search (pkt_read env pkt (24 + E + 7)
            ((K + 18446744073709551616 - 7) % 18446744073709551616)) ≠ LCB_SUCCESS
        · rw [if_pos h6]
          exact ⟨_, by simp [ProxyEvent.is_redirect], Or.inl rfl⟩
        · rw [if_neg h6]
          exact ⟨_, by simp [ProxyEvent.is_redirect], Or.inr rfl⟩
      · rw [if_neg h5]
        exact ⟨_, by simp [ProxyEvent.is_redirect], Or.inl rfl⟩

/-- The `STAT` case enters no scheduling context, and leaves it once unless the process
exits. -/
theorem conn_readcb_stat_sched (env : ProxyEnv) (header pkt : List Nat) :
    (conn_readcb_stat env header pkt).count ProxyEvent.sched_enter = 0 ∧
    (ProxyEvent.exit_failure ∉ conn_readcb_stat env header pkt →
      (conn_readcb_stat env header pkt).count ProxyEvent.sched_leave = 1) := by
  obtain ⟨_, _, _, _, f5, f6, f7⟩ := conn_readcb_fwd_events env pkt
  obtain ⟨t, ht, hshape⟩ := conn_readcb_stat_shape env header pkt
  obtain ⟨t1, t2, t3, _⟩ := proxy_redirect_events t ht
  rcases hshape with hs | hs
  · rw [hs, List.count_append, List.count_append, t1, t2, f5, f6]
    refine ⟨rfl, fun hx => ?_⟩
    rw [if_pos]
    by_contra hne
    exact hx (List.mem_append_right _ (f7.mpr hne))
  · rw [hs, List.count_append, List.count_append, t1, t2]
    exact ⟨rfl, fun _ => rfl⟩

/-- Counting behind the entry of the scheduling context. -/
theorem proxy_count_enter (l : List ProxyEvent) :
    ([ProxyEvent.sched_enter] ++ l).count ProxyEvent.sched_enter
      = l.count ProxyEvent.sched_enter + 1 ∧
    ([ProxyEvent.sched_enter] ++ l).count ProxyEvent.sched_leave
      = l.count ProxyEvent.sched_leave ∧
    (ProxyEvent.exit_failure ∈ [ProxyEvent.sched_enter] ++ l ↔ ProxyEvent.exit_failure ∈ l) := by
  simp [List.count_cons]

/-- The scheduling context in `conn_readcb`, for every buffer that holds a complete frame
whose packet can be allocated: the context is entered once; for a `VERSION` frame it is
not left; for every other frame it is left once unless forwarding fails and the process
exits. -/
theorem conn_readcb_sched (env : ProxyEnv) (input : List Nat)
    (h24 : 24 ≤ input.length)
    (hlen : 24 + ntohl env.little_endian
      (load_u32 env.little_endian (input.getD 8 0) (input.getD 9 0) (input.getD 10 0)
        (input.getD 11 0)) ≤ input.length)
    (hm : env.malloc_fails (24 + ntohl env.little_endian
      (load_u32 env.little_endian (input.getD 8 0) (input.getD 9 0) (input.getD 10 0)
        (input.getD 11 0))) = false) :
    (conn_readcb env input).2.count ProxyEvent.sched_enter = 1 ∧
    (input.getD 1 0 = PROTOCOL_BINARY_CMD_VERSION →
      (conn_readcb env input).2.count ProxyEvent.sched_leave = 0) ∧
    (input.getD 1 0 ≠ PROTOCOL_BINARY_CMD_VERSION →
      ProxyEvent.exit_failure ∉ (conn_readcb env input).2 →
      (conn_readcb env input).2.count ProxyEvent.sched_leave = 1) := by
  rw [conn_readcb_complete env input h24 hlen hm]
  simp only []
  generalize 24 + ntohl env.little_endian
    (load_u32 env.little_endian (input.getD 8 0) (input.getD 9 0) (input.getD 10 0)
      (input.getD 11 0)) = pktlen
  have hver : (conn_readcb_version env).count ProxyEvent.sched_enter = 0 ∧
      (conn_readcb_version env).count ProxyEvent.sched_leave = 0 := by
    simp [conn_readcb_version]
  by_cases hv : input.getD 1 0 = PROTOCOL_BINARY_CMD_VERSION
  · rw [if_pos hv]
    obtain ⟨c1, c2, _⟩ := proxy_count_enter (conn_readcb_version env)
    rw [c1, c2, hver.1, hver.2]
    exact ⟨rfl, fun _ => rfl, fun h => absurd hv h⟩
  · rw [if_neg hv]
    by_cases hs : input.getD 1 0 = PROTOCOL_BINARY_CMD_STAT
    · rw [if_pos hs]
      obtain ⟨s1, s2⟩ := conn_readcb_stat_sched env (input.take 24) (input.take pktlen)
      obtain ⟨c1, c2, c3⟩ := proxy_count_enter
        (conn_readcb_stat env (input.take 24) (input.take pktlen))
      rw [c1, c2, c3, s1]
      exact ⟨rfl, fun h => absurd h hv, fun _ hx => s2 hx⟩
    · rw [if_neg hs]
      obtain ⟨_, _, _, _, f5, f6, f7⟩ := conn_readcb_fwd_events env (input.take pktlen)
      obtain ⟨c1, c2, c3⟩ := proxy_count_enter (conn_readcb_fwd env (input.take pktlen))
      rw [c1, c2, c3, f5, f6]
      refine ⟨rfl, fun h => absurd h hv, fun _ hx => ?_⟩
      rw [if_pos]
      by_contra hne
      exact hx (f7.mpr hne)

/-! ## C29: the scheduling context of the proxy -/

/-- C29 fails on this input: for a complete `VERSION` frame `conn_readcb` enters the
scheduling context, writes the response and returns without leaving the context. -/
theorem conn_readcb_version_no_sched_leave :
    (conn_readcb testProxyEnv frame_version).2
      = [ProxyEvent.sched_enter,
         ProxyEvent.output
           [0x81, 0x0b, 0, 0, 0, 0, 0, 0, 0, 0, 0, 16, 0, 0, 0, 0, 0, 0, 0, 0, 0, 0, 0, 0],
         ProxyEvent.output testProxyEnv.app_version] ∧
    (conn_readcb testProxyEnv frame_version).2.count ProxyEvent.sched_enter = 1 ∧
    (conn_readcb testProxyEnv frame_version).2.count ProxyEvent.sched_leave = 0 ∧
    (conn_readcb testProxyEnv frame_get).2.count ProxyEvent.sched_leave = 1 := by
  decide


/-! ## The header fields as `conn_readcb` reads them -/

/-- The key length that `conn_readcb` computes is the big-endian value of bytes 2 and 3
of the header, on either kind of host. -/
theorem ntohs_load_u16 (little_endian : Bool) (b0 b1 : Nat) (h0 : b0 < 256) (h1 : b1 < 256) :
    ntohs little_endian (load_u16 little_endian b0 b1) = 256 * b0 + b1 := by
  unfold ntohs load_u16
  cases little_endian <;> simp only [Bool.false_eq_true, if_false, if_true] <;> omega

/-- The body length that `conn_readcb` computes is the big-endian value of bytes 8 to 11
of the header, on either kind of host. -/
theorem ntohl_load_u32 (little_endian : Bool) (b0 b1 b2 b3 : Nat)
    (h0 : b0 < 256) (h1 : b1 < 256) (h2 : b2 < 256) (h3 : b3 < 256) :
    ntohl little_endian (load_u32 little_endian b0 b1 b2 b3)
      = 16777216 * b0 + 65536 * b1 + 256 * b2 + b3 := by
  unfold ntohl load_u32
  cases little_endian <;> simp only [Bool.false_eq_true, if_false, if_true] <;> omega

/-- The extras length that `conn_readcb` computes, `ntohs` of the one-byte field stored
in a byte: zero on a little-endian host, whatever the field holds, and the field itself
on a big-endian host. -/
theorem ntohs_of_byte (little_endian : Bool) (b : Nat) (h : b < 256) :
    ntohs little_endian b % 256 = if little_endian then 0 else b := by
  unfold ntohs
  have h1 : b % 256 = b := Nat.mod_eq_of_lt h
  have h2 : b / 256 = 0 := Nat.div_eq_of_lt h
  cases little_endian <;> simp only [Bool.false_eq_true, if_false, if_true, h1, h2] <;> omega

/-- A key length read from the header is below 65536. -/
theorem ntohs_lt (little_endian : Bool) (x : Nat) : ntohs little_endian x < 65536 := by
  unfold ntohs
  cases little_endian <;> simp only [Bool.false_eq_true, if_false, if_true] <;> omega

/-! ## The `STAT` case of the proxy -/

/-- The reads of the `STAT` case start at the place where it takes the key to be, 24
bytes plus the extras length it computed from the start of the packet; when the key
length in the header is at least 7 they end within that many bytes from there. -/
theorem conn_readcb_stat_reads (env : ProxyEnv) (header pkt : List Nat) (offset length : Nat)
    (h : (offset, length) ∈ proxy_reads (conn_readcb_stat env header pkt)) :
    24 + ntohs env.little_endian (header.getD 4 0) % 256 ≤ offset ∧
    (7 ≤ ntohs env.little_endian
        (load_u16 env.little_endian (header.getD 2 0) (header.getD 3 0)) →
      offset + length ≤ 24 + ntohs env.little_endian (header.getD 4 0) % 256
        + ntohs env.little_endian
            (load_u16 env.little_endian (header.getD 2 0) (header.getD 3 0))) := by
  have hK := ntohs_lt env.little_endian
    (load_u16 env.little_endian (header.getD 2 0) (header.getD 3 0))
  have hfwd := (conn_readcb_fwd_events env pkt).2.1
  unfold conn_readcb_stat at h
  simp only [] at h
  generalize ntohs env.little_endian (header.getD 4 0) % 256 = E at h ⊢
  generalize ntohs env.little_endian
    (load_u16 env.little_endian (header.getD 2 0) (header.getD 3 0)) = K at h hK ⊢
  unfold proxy_reads at h hfwd
  split_ifs at h
  all_goals
    simp only [List.filterMap_append, List.filterMap_cons, List.filterMap_nil, hfwd,
      List.append_nil, List.mem_cons, Prod.mk.injEq, List.mem_singleton, List.not_mem_nil,
      or_false, List.cons_append, List.nil_append] at h
  all_goals
    rcases h with ⟨rfl, rfl⟩ | ⟨rfl, rfl⟩ <;> omega

/-- What the `STAT` case does with the key it takes the packet to have (at 24 bytes plus
the computed extras length, with the key length of the header). A key of fewer than 6
bytes, or one that starts with neither text, is forwarded. A key that starts with
`query ` makes a statement of the bytes after the 6th; when the statement is accepted a
query is issued with it, and the packet is forwarded exactly when the query is refused.
Otherwise a key that starts with `search ` issues a search with the bytes after the 7th,
and the packet is forwarded exactly when the search is refused. -/
theorem conn_readcb_stat_redirect (env : ProxyEnv) (header pkt : List Nat) :
    (ntohs env.little_endian (load_u16 env.little_endian (header.getD 2 0) (header.getD 3 0))
        < 6 ∨
      (pkt_read env pkt (24 + ntohs env.little_endian (header.getD 4 0) % 256) 6 ≠ stat_query ∧
       pkt_read env pkt (24 + ntohs env.little_endian (header.getD 4 0) % 256) 7
         ≠ stat_search) →
      proxy_forwarded (conn_readcb_stat env header pkt) = [pkt] ∧
      proxy_queries (conn_readcb_stat env header pkt) = [] ∧
      proxy_searches (conn_readcb_stat env header pkt) = []) ∧
    (6 ≤ ntohs env.little_endian
        (load_u16 env.little_endian (header.getD 2 0) (header.getD 3 0)) →
      pkt_read env pkt (24 + ntohs env.little_endian (header.getD 4 0) % 256) 6 = stat_query →
      env.lcb_cmdquery_statement
        (pkt_read env pkt (24 + ntohs env.little_endian (header.getD 4 0) % 256 + 6)
          (ntohs env.little_endian
            (load_u16 env.little_endian (header.getD 2 0) (header.getD 3 0)) - 6))
        = LCB_SUCCESS →
      proxy_queries (conn_readcb_stat env header pkt)
        = [pkt_read env pkt (24 + ntohs env.little_endian (header.getD 4 0) % 256 + 6)
            (ntohs env.little_endian
              (load_u16 env.little_endian (header.getD 2 0) (header.getD 3 0)) - 6)] ∧
      proxy_searches (conn_readcb_stat env header pkt) = [] ∧
      proxy_forwarded (conn_readcb_stat env header pkt)
        = (if env.lcb_query
              (pkt_read env pkt (24 + ntohs env.little_endian (header.getD 4 0) % 256 + 6)
                (ntohs env.little_endian
                  (load_u16 env.little_endian (header.getD 2 0) (header.getD 3 0)) - 6))
              = LCB_SUCCESS then [] else [pkt])) ∧
    (7 ≤ ntohs env.little_endian
        (load_u16 env.little_endian (header.getD 2 0) (header.getD 3 0)) →
      pkt_read env pkt (24 + ntohs env.little_endian (header.getD 4 0) % 256) 6 ≠ stat_query →
      pkt_read env pkt (24 + ntohs env.little_endian (header.getD 4 0) % 256) 7 = stat_search →
      proxy_searches (conn_readcb_stat env header pkt)
        = [pkt_read env pkt (24 + ntohs env.little_endian (header.getD 4 0) % 256 + 7)
            (ntohs env.little_endian
              (load_u16 env.little_endian (header.getD 2 0) (header.getD 3 0)) - 7)] ∧
      proxy_queries (conn_readcb_stat env header pkt) = [] ∧
      proxy_forwarded (conn_readcb_stat env header pkt)
        = (if env.lcb_search
              (pkt_read env pkt (24 + ntohs env.little_endian (header.getD 4 0) % 256 + 7)
                (ntohs env.little_endian
                  (load_u16 env.little_endian (header.getD 2 0) (header.getD 3 0)) - 7))
              = LCB_SUCCESS then [] else [pkt])) := by
  have hK := ntohs_lt env.little_endian
    (load_u16 env.little_endian (header.getD 2 0) (header.getD 3 0))
  obtain ⟨f1, _, f3, f4, _⟩ := conn_readcb_fwd_events env pkt
  unfold conn_readcb_stat
  simp only []
  generalize ntohs env.little_endian (header.getD 4 0) % 256 = E
  generalize ntohs env.little_endian
    (load_u16 env.little_endian (header.getD 2 0) (header.getD 3 0)) = K at hK ⊢
  unfold proxy_forwarded proxy_queries proxy_searches at *
  refine ⟨?_, ?_, ?_⟩
  · rintro (h | ⟨h1, h2⟩)
    · rw [if_pos h]
      exact ⟨f1, f3, f4⟩
    · by_cases hk : K < 6
      · rw [if_pos hk]
        exact ⟨f1, f3, f4⟩
      · rw [if_neg hk, if_neg h1, if_neg h2]
        simp [f1, f3, f4]
  · intro hk hq hs
    rw [if_neg (by omega), if_pos hq, if_neg (by rw [hs]; simp)]
    by_cases hr : env.lcb_query (pkt_read env pkt (24 + E + 6) (K - 6)) = LCB_SUCCESS
    · rw [if_neg (by rw [hr]; simp), if_pos hr]
      simp
    · rw [if_pos hr, if_neg hr]
      simp [f1, f3, f4]
  · intro hk hq hs
    have hlen : (K + 18446744073709551616 - 7) % 18446744073709551616 = K - 7 := by omega
    rw [if_neg (by omega), if_neg hq, if_pos hs, hlen]
    by_cases hr : env.lcb_search (pkt_read env pkt (24 + E + 7) (K - 7)) = LCB_SUCCESS
    · rw [if_neg (by rw [hr]; simp), if_pos hr]
      simp
    · rw [if_pos hr, if_neg hr]
      simp [f1, f3, f4]


/-- A complete frame that is neither `VERSION` nor `STAT` is forwarded unchanged: the
packet forwarded is the first `24 + body_len` bytes of the buffer, and neither a query nor
a search is issued. -/
theorem conn_readcb_other_forwarded (env : ProxyEnv) (input : List Nat)
    (h24 : 24 ≤ input.length)
    (hlen : 24 + ntohl env.little_endian
      (load_u32 env.little_endian (input.getD 8 0) (input.getD 9 0) (input.getD 10 0)
        (input.getD 11 0)) ≤ input.length)
    (hm : env.malloc_fails (24 + ntohl env.little_endian
      (load_u32 env.little_endian (input.getD 8 0) (input.getD 9 0) (input.getD 10 0)
        (input.getD 11 0))) = false)
    (hv : input.getD 1 0 ≠ PROTOCOL_BINARY_CMD_VERSION)
    (hs : input.getD 1 0 ≠ PROTOCOL_BINARY_CMD_STAT) :
    proxy_forwarded (conn_readcb env input).2
      = [input.take (24 + ntohl env.little_endian
          (load_u32 env.little_endian (input.getD 8 0) (input.getD 9 0) (input.getD 10 0)
            (input.getD 11 0)))] ∧
    (input.take (24 + ntohl env.little_endian
      (load_u32 env.little_endian (input.getD 8 0) (input.getD 9 0) (input.getD 10 0)
        (input.getD 11 0)))).length
      = 24 + ntohl env.little_endian
          (load_u32 env.little_endian (input.getD 8 0) (input.getD 9 0) (input.getD 10 0)
            (input.getD 11 0)) ∧
    proxy_queries (conn_readcb env input).2 = [] ∧
    proxy_searches (conn_readcb env input).2 = [] := by
  rw [conn_readcb_complete env input h24 hlen hm, if_neg hv, if_neg hs]
  simp only []
  generalize 24 + ntohl env.little_endian
    (load_u32 env.little_endian (input.getD 8 0) (input.getD 9 0) (input.getD 10 0)
      (input.getD 11 0)) = pktlen at hlen ⊢
  obtain ⟨f1, _, f3, f4, _⟩ := conn_readcb_fwd_events env (input.take pktlen)
  unfold proxy_forwarded proxy_queries proxy_searches at *
  refine ⟨?_, ?_, ?_, ?_⟩
  · rw [List.filterMap_append, f1]
    rfl
  · rw [List.length_take]
    omega
  · rw [List.filterMap_append, f3]
    rfl
  · rw [List.filterMap_append, f4]
    rfl

/-! ## C24: the redirection of `STAT` requests -/

/-- C24 fails on this input: a complete `STAT` frame with 4 bytes of extras whose key is
`query x`. On a little-endian host `conn_readcb` computes the extras length 0, looks for
the key right behind the header, where the extras are, finds neither text and forwards
the frame; no query is issued. On a big-endian host the same frame issues the query `x`
and is not forwarded. -/
theorem conn_readcb_stat_extras_forwarded :
    frame_stat_query_extras.getD 4 0 = 4 ∧
    (frame_stat_query_extras.drop (24 + 4)).take 7 = stat_query ++ [120] ∧
    (conn_readcb testProxyEnv frame_stat_query_extras).2
      = [ProxyEvent.sched_enter, ProxyEvent.read 24 6, ProxyEvent.read 24 7,
         ProxyEvent.pktfwd frame_stat_query_extras LCB_SUCCESS, ProxyEvent.sched_leave] ∧
    proxy_queries (conn_readcb testProxyEnv frame_stat_query_extras).2 = [] ∧
    (conn_readcb testProxyEnvBigEndian frame_stat_query_extras).2
      = [ProxyEvent.sched_enter, ProxyEvent.read 28 6, ProxyEvent.read 34 1,
         ProxyEvent.cmdquery_statement [120] LCB_SUCCESS, ProxyEvent.query [120] LCB_SUCCESS,
         ProxyEvent.sched_leave] := by
  decide

/-! ## C30: the bytes that the proxy reads -/

/-- C30 fails on this input: a complete `STAT` frame without extras whose key is the 6
bytes `search` (body length 6, so the packet has 30 bytes). After the comparison with
`query ` fails, `conn_readcb` compares 7 bytes at offset 24 with `search `: the byte at
offset 30 is read, which is past the key and past the end of the packet. A frame whose
header announces a key of 100 bytes and no body makes both comparisons read behind a
packet of 24 bytes. -/
theorem conn_readcb_reads_past_key :
    frame_stat_search6.length = 30 ∧
    ntoh [frame_stat_search6.getD 2 0, frame_stat_search6.getD 3 0] = 6 ∧
    frame_stat_search6.getD 4 0 = 0 ∧
    proxy_reads (conn_readcb testProxyEnv frame_stat_search6).2 = [(24, 6), (24, 7)] ∧
    proxy_reads (conn_readcb testProxyEnvBigEndian frame_stat_search6).2
      = [(24, 6), (24, 7)] ∧
    frame_stat_keylen_100.length = 24 ∧
    proxy_reads (conn_readcb testProxyEnv frame_stat_keylen_100).2 = [(24, 6), (24, 7)] := by
  decide

end Lcb
